import Mathlib

/-!
Verification development for the equi-accessibility repository.

Shallow embedding of the accessibility engine:
* `Announcer` — the live-region announcer of `src/Accessibility/screenReaderUtils.ts`
  (`announceToScreenReader`, `speakMessage`, `showDebugToast`) together with an explicit
  scheduler for the animation-frame / timer callbacks the source registers.
* `EnvSafety` — the environment (document/window) checks performed by the exported entry
  points of `screenReaderUtils.ts`.
* `Panel` — the style-effect appliers, the image-visibility mutator, the settings loader
  and the manual-save state machine of `src/Accessibility/AccessibilityPanel.tsx`.
* `ScreenReader` — the DOM-enhancement engine of `screenReaderUtils.ts`
  (`enableScreenReaderMode` / `disableScreenReaderMode` and the attribute snapshot).
* `AccessibleName` — the accessible-name computation of `screenReaderUtils.ts`.

Machine integers do not occur in the source (all numbers are small naturals),
strings are modelled by `String`, DOM element identity by `Nat` ids, and the
DOM-attribute maps by association lists.
-/

set_option autoImplicit false

/-- JavaScript `String.prototype.trim`: strip whitespace from both ends.
(Defined by structural recursion on the character list so that it evaluates by
kernel reduction, unlike `String.trim`.) -/
def jsTrim (s : String) : String :=
  String.mk
    (((s.data.dropWhile Char.isWhitespace).reverse.dropWhile
      Char.isWhitespace).reverse)

/-- JavaScript `split(' ')`: split on every single space character. -/
def splitOnSpaceAux : List Char → List Char → List String
  | [], acc => [String.mk acc]
  | c :: t, acc =>
    if c = ' ' then String.mk acc :: splitOnSpaceAux t []
    else splitOnSpaceAux t (acc ++ [c])

def splitOnSpace (s : String) : List String :=
  splitOnSpaceAux s.data []

/-- Substring occurrence on character lists. -/
def charsContain (pat : List Char) : List Char → Bool
  | [] => pat.isEmpty
  | c :: t => pat.isPrefixOf (c :: t) || charsContain pat t

/-- JavaScript `String.prototype.includes` / the CSS `[attr*=sub]` substring
test. -/
def jsIncludes (s pat : String) : Bool :=
  charsContain pat.data s.data

namespace Announcer

/-- Announcement priority, the `'polite' | 'assertive'` union of the source. -/
inductive Priority where
  | polite
  | assertive
deriving DecidableEq, Repr

/-- The DOM state owned by the announcer: the text-node children of the two live
regions created by `getOrCreateAnnouncerContainer` (screenReaderUtils.ts:681-707),
the debug toast element, and the module-level flags `debugMode` (line 757) and
`useSpeechSynthesis` (line 763). The creation of the container and region elements
is modelled by the regions being part of the state. -/
structure AnnState where
  politeRegion : List String
  assertiveRegion : List String
  toast : Option String
  debugMode : Bool
  useSpeechSynthesis : Bool
deriving DecidableEq, Repr

/-- Commands issued to the Web Speech API (`window.speechSynthesis`). -/
inductive SpeechCmd where
  | cancel
  | speak (message : String)
deriving DecidableEq, Repr

/-- Defunctionalised callbacks registered by `announceToScreenReader`
(screenReaderUtils.ts:895-908) and `showDebugToast` (line 850):
`secondFrame` is the outer `requestAnimationFrame` callback, `appendText` the inner
one, `clearAfterDelay` the 5000 ms `setTimeout` callback, `toastFade` the 3000 ms
toast-opacity timeout (which does not touch the live regions). -/
inductive Cont where
  | secondFrame (message : String) (priority : Priority)
  | appendText (message : String) (priority : Priority)
  | clearAfterDelay (priority : Priority)
  | toastFade
deriving DecidableEq, Repr

/-- The browser scheduler: callbacks waiting for the next animation frame, and
timers as (remaining milliseconds, callback) pairs. -/
structure Sched where
  frameQueue : List Cont
  timers : List (Nat × Cont)
deriving DecidableEq, Repr

/-- `while (announcer.firstChild) announcer.removeChild(...)` on the selected region
(screenReaderUtils.ts:889-891 and 903-905). -/
def clearRegion (s : AnnState) : Priority → AnnState
  | .polite => { s with politeRegion := [] }
  | .assertive => { s with assertiveRegion := [] }

/-- `announcer.appendChild(document.createTextNode(message))`
(screenReaderUtils.ts:898-899). -/
def appendRegion (s : AnnState) (p : Priority) (t : String) : AnnState :=
  match p with
  | .polite => { s with politeRegion := s.politeRegion ++ [t] }
  | .assertive => { s with assertiveRegion := s.assertiveRegion ++ [t] }

/-- `speakMessage` (screenReaderUtils.ts:788-815): no-op with a console warning when
the Web Speech API is unavailable; cancels ongoing speech first for assertive
priority; then speaks the message. The utterance voice/rate configuration has no
observable effect beyond the spoken message and is not modelled. -/
def speakMessage (hasSpeech : Bool) (message : String) (priority : Priority) :
    List SpeechCmd :=
  if ¬hasSpeech then []
  else (if priority = Priority.assertive then [SpeechCmd.cancel] else [])
    ++ [SpeechCmd.speak message]

/-- `showDebugToast` (screenReaderUtils.ts:820-853): writes the toast text and
schedules the 3000 ms opacity fade. -/
def showDebugToast (s : AnnState) (sched : Sched) (message : String) :
    AnnState × Sched :=
  ({ s with toast := some ("🔊 " ++ message) },
   { sched with timers := sched.timers ++ [(3000, Cont.toastFade)] })

/-- `announceToScreenReader` (screenReaderUtils.ts:866-909).
`hasDocument` models `typeof document === 'undefined'`, `hasSpeech` models
`'speechSynthesis' in window`. Returns the new DOM state, the new scheduler state,
and the speech commands issued synchronously. -/
def announceToScreenReader (hasDocument hasSpeech : Bool) (message : String)
    (priority : Priority) (s : AnnState) (sched : Sched) :
    AnnState × Sched × List SpeechCmd :=
  if ¬hasDocument ∨ message = "" then (s, sched, [])
  else
    let pair := if s.debugMode then showDebugToast s sched message else (s, sched)
    let s1 := pair.1
    let sched1 := pair.2
    let cmds := if s1.useSpeechSynthesis then speakMessage hasSpeech message priority
      else []
    let s2 := clearRegion s1 priority
    let sched2 := { sched1 with
      frameQueue := sched1.frameQueue ++ [Cont.secondFrame message priority] }
    (s2, sched2, cmds)

/-- Runs one scheduler callback. A `requestAnimationFrame` issued from within a
frame callback lands in the next frame's queue. -/
def stepCont (sc : AnnState × Sched) (c : Cont) : AnnState × Sched :=
  match c with
  | .secondFrame m p =>
    (sc.1, { sc.2 with frameQueue := sc.2.frameQueue ++ [Cont.appendText m p] })
  | .appendText m p =>
    (appendRegion sc.1 p m,
     { sc.2 with timers := sc.2.timers ++ [(5000, Cont.clearAfterDelay p)] })
  | .clearAfterDelay p => (clearRegion sc.1 p, sc.2)
  | .toastFade => sc

/-- Runs one animation frame: every callback currently queued executes, in order;
callbacks they register run in a later frame. -/
def runAnimationFrame (s : AnnState) (sched : Sched) : AnnState × Sched :=
  sched.frameQueue.foldl stepCont (s, { sched with frameQueue := [] })

/-- Lets `ms` milliseconds elapse: every timer whose delay is due fires, in
registration order; the rest keep their remaining time. -/
def elapse (ms : Nat) (s : AnnState) (sched : Sched) : AnnState × Sched :=
  let due := (sched.timers.filter (fun t => t.1 ≤ ms)).map (fun t => t.2)
  let remaining := (sched.timers.filter (fun t => ¬t.1 ≤ ms)).map
    (fun t => (t.1 - ms, t.2))
  due.foldl stepCont (s, { sched with timers := remaining })

end Announcer

namespace EnvSafety

/-- Presence of the ambient browser globals. -/
structure Env where
  hasDocument : Bool
  hasWindow : Bool
  hasNavigator : Bool
deriving DecidableEq, Repr

/-- The environment without a browser: no `document`, `window` or `navigator`. -/
def noBrowser : Env := ⟨false, false, false⟩

/-- Outcome of calling an entry point: it either returns normally or a bare
dereference of a missing DOM global throws a `ReferenceError`. -/
inductive JsOutcome where
  | ok
  | referenceError
deriving DecidableEq, Repr

/-- Dereferencing `document`. -/
def touchDocument (env : Env) : JsOutcome :=
  if env.hasDocument then .ok else .referenceError

/-- `enableScreenReaderMode` (screenReaderUtils.ts:188-224): guarded by
`if (typeof document === 'undefined') return;` at line 191, after which every
statement operates on `document`. -/
def enableScreenReaderModeOutcome (env : Env) : JsOutcome :=
  if ¬env.hasDocument then .ok else touchDocument env

/-- `disableScreenReaderMode` (screenReaderUtils.ts:229-270): guarded at line 230. -/
def disableScreenReaderModeOutcome (env : Env) : JsOutcome :=
  if ¬env.hasDocument then .ok else touchDocument env

/-- `announceToScreenReader` (screenReaderUtils.ts:866-909): guarded by
`if (typeof document === 'undefined' || !message) return;` at line 870. -/
def announceToScreenReaderOutcome (env : Env) (message : String) : JsOutcome :=
  if ¬env.hasDocument ∨ message = "" then .ok else touchDocument env

/-- `initializeAnnouncer` (screenReaderUtils.ts:718-752): guarded by
`if (typeof document === 'undefined') return;` at line 719. -/
def initAnnouncerOutcome (env : Env) : JsOutcome :=
  if ¬env.hasDocument then .ok else touchDocument env

/-- `detectBrowser` (screenReaderUtils.ts:50-94): returns
`{ type: 'unknown', version: '', isSupported: false }` when `window` or
`navigator` is undefined (lines 51-53); otherwise it only reads `navigator`.
The user-agent sniffing on the browser path is outside the environment-safety
claim and is not modelled further. -/
def detectBrowserOutcome (env : Env) : JsOutcome :=
  if ¬env.hasWindow ∨ ¬env.hasNavigator then .ok
  else if env.hasNavigator then .ok else .referenceError

/-- `detectLikelyScreenReader` (screenReaderUtils.ts:120-150): returns `'unknown'`
when `window` or `navigator` is undefined (lines 121-123). -/
def detectLikelyScreenReaderOutcome (env : Env) : JsOutcome :=
  if ¬env.hasWindow ∨ ¬env.hasNavigator then .ok
  else if env.hasNavigator then .ok else .referenceError

/-- `readElement` (screenReaderUtils.ts:1355-1360): returns early when the
module flag `useSpeechSynthesis` is false — this is a feature-flag check, not an
environment check. When the flag is on, `buildElementAnnouncement` dereferences
DOM globals unconditionally (`element instanceof HTMLInputElement` at line 1154
and, inside `getAccessibleName`, `document.getElementById` / `document.querySelector`
at lines 982 and 1001), so in a non-browser environment the call throws. -/
def readElementOutcome (env : Env) (useSpeechSynthesis : Bool) : JsOutcome :=
  if ¬useSpeechSynthesis then .ok else touchDocument env

/-- `readMainContent` (screenReaderUtils.ts:1365-1378): its first statement is
`document.querySelector('main, [role="main"], #main, #content, .main-content')`
with no environment check anywhere in the function. -/
def readMainContentOutcome (env : Env) : JsOutcome :=
  touchDocument env

/-- `setAnnouncerDebugMode` (screenReaderUtils.ts:770-772): assigns the module
flag `debugMode` and touches no global. -/
def setAnnouncerDebugModeOutcome (_env : Env) : JsOutcome :=
  .ok

/-- `setSpeechSynthesis` (screenReaderUtils.ts:780-782): assigns the module flag
`useSpeechSynthesis` and touches no global. -/
def setSpeechSynthesisOutcome (_env : Env) : JsOutcome :=
  .ok

/-- `getScreenReaderInstructions` (screenReaderUtils.ts:914-943): a pure switch
on the browser type returning a string; touches no global. -/
def getScreenReaderInstructionsOutcome (_env : Env) : JsOutcome :=
  .ok

/-- `isScreenReaderModeEnabled` (screenReaderUtils.ts:948-951): guarded by
`if (typeof document === 'undefined') return false;` before reading
`document.body.classList`. -/
def isScreenReaderModeEnabledOutcome (env : Env) : JsOutcome :=
  if ¬env.hasDocument then .ok else touchDocument env

/-- Dereferencing `window`. -/
def touchWindow (env : Env) : JsOutcome :=
  if env.hasWindow then .ok else .referenceError

/-- `stopSpeaking` (screenReaderUtils.ts:1305-1309): the whole body sits inside
`if (typeof window !== 'undefined' && 'speechSynthesis' in window)`. -/
def stopSpeakingOutcome (env : Env) : JsOutcome :=
  if ¬env.hasWindow then .ok else touchWindow env

/-- `enableFocusReading` (screenReaderUtils.ts:1315-1327): the only early return
is `if (focusReadingEnabled) return;` — a module-flag check, not an environment
check. When the flag is off (its default), the function proceeds to
`document.addEventListener('focusin', ...)` and
`document.addEventListener('keydown', ...)` with no environment guard. -/
def enableFocusReadingOutcome (env : Env) (focusReadingEnabled : Bool) :
    JsOutcome :=
  if focusReadingEnabled then .ok else touchDocument env

/-- `disableFocusReading` (screenReaderUtils.ts:1332-1350): returns early via
`if (!focusReadingEnabled) return;` — again a module-flag check. With the flag
on it calls `document.removeEventListener` twice (then `stopSpeaking`, which is
window-guarded), with no environment guard. -/
def disableFocusReadingOutcome (env : Env) (focusReadingEnabled : Bool) :
    JsOutcome :=
  if ¬focusReadingEnabled then .ok else touchDocument env

end EnvSafety

namespace Panel

/-- The document state managed by `applyContrast`
(AccessibilityPanel.tsx:500-806): the `data-contrast` attribute of the document
root, and the `<style id="accessibility-contrast-style">` elements currently in
`document.head`, in document order. Each style element is represented by the
contrast level whose ruleset was written into its `textContent` (`none` while no
branch has assigned a ruleset); the CSS payload itself is not inspected by any
claim. -/
structure ContrastDom where
  styleElems : List (Option String)
  dataContrast : Option String
deriving DecidableEq, Repr

/-- `applyContrast` (AccessibilityPanel.tsx:500-806). Looks up the style element
by its fixed id (`document.getElementById` returns the first match), removes it,
then for `'default'` also removes the `data-contrast` attribute and stops;
otherwise creates a fresh style element, appends it to the head, sets
`data-contrast`, and fills the element with the ruleset of the selected branch
(`'low'`, `'high'` or `'dark'`). -/
def applyContrast (level : String) (d : ContrastDom) : ContrastDom :=
  let styles :=
    match d.styleElems with
    | [] => []
    | _ :: rest => rest
  if level = "default" then { styleElems := styles, dataContrast := none }
  else
    let content : Option String :=
      if level = "low" ∨ level = "high" ∨ level = "dark" then some level else none
    { styleElems := styles ++ [content], dataContrast := some level }

/-- Domain of `ContrastLevel` (types.ts). -/
def contrastLevels : List String := ["default", "low", "high", "dark"]

/-- An `<img>` element as seen by `applyHideImages`
(AccessibilityPanel.tsx:403-490): its `aria-hidden` selection status, `alt`
text (`""` when absent, matching the `img.alt` property), the inline styles
`display`/`width`/`height` (`""` when unset), the three `data-original-*`
dataset entries used as the processed marker, and the measured dimensions
(`getBoundingClientRect`, the `width`/`height` properties, `offsetWidth`/
`offsetHeight`), where `0` is the falsy JavaScript number. `nodeId` gives the
element its identity. -/
structure HImg where
  nodeId : Nat
  ariaHidden : Bool
  alt : String
  styleDisplay : String
  styleWidth : String
  styleHeight : String
  dsOriginalDisplay : Option String
  dsOriginalWidth : Option String
  dsOriginalHeight : Option String
  rectW : Nat
  rectH : Nat
  imgW : Nat
  imgH : Nat
  offW : Nat
  offH : Nat
deriving DecidableEq, Repr

/-- A node of the document region relevant to image hiding: an image, or a
placeholder `<div class="image-placeholder">` inserted by `applyHideImages`.
`owner` is the `nodeId` of the image the placeholder was inserted after; the
`imagePlaceholdersRef` map entry from that image to this placeholder is
represented by this ownership field. -/
inductive HNode where
  | image (img : HImg)
  | placeholder (owner : Nat) (text : String) (w h : Nat) (ariaLabel : String)
deriving DecidableEq, Repr

/-- JavaScript `a || b || c || fallback` on numbers, where `0` is falsy
(AccessibilityPanel.tsx:421-422). -/
def firstNonzero (a b c fallback : Nat) : Nat :=
  if a ≠ 0 then a else if b ≠ 0 then b else if c ≠ 0 then c else fallback

/-- The enable path of `applyHideImages` for one selected image
(AccessibilityPanel.tsx:409-465): skip if already processed; save the original
inline styles into the dataset; measure; hide; insert the placeholder right
after the image and record the ownership. -/
def hideImageStep (n : HNode) : List HNode :=
  match n with
  | .placeholder o t w h a => [.placeholder o t w h a]
  | .image img =>
    if img.ariaHidden then [.image img]
    else if img.dsOriginalDisplay.isSome then [.image img]
    else
      let width := firstNonzero img.rectW img.imgW img.offW 200
      let height := firstNonzero img.rectH img.imgH img.offH 150
      let altText := if img.alt = "" then "Image" else img.alt
      let img1 := { img with
        dsOriginalDisplay := some img.styleDisplay,
        dsOriginalWidth := some img.styleWidth,
        dsOriginalHeight := some img.styleHeight,
        styleDisplay := "none" }
      [.image img1,
       .placeholder img.nodeId altText width height ("Image: " ++ altText)]

/-- The restore path of `applyHideImages` for one selected image
(AccessibilityPanel.tsx:468-488): restore the saved inline styles and drop the
dataset marker. -/
def showImage (img : HImg) : HImg :=
  if img.ariaHidden then img
  else if img.dsOriginalDisplay.isSome then
    { img with
      styleDisplay := img.dsOriginalDisplay.getD "",
      styleWidth := img.dsOriginalWidth.getD "",
      styleHeight := img.dsOriginalHeight.getD "",
      dsOriginalDisplay := none,
      dsOriginalWidth := none,
      dsOriginalHeight := none }
  else img

/-- Whether the image owning a placeholder is selected and marked as processed,
so that the restore path removes the placeholder via `imagePlaceholdersRef`. -/
def ownerProcessed (doc : List HNode) (owner : Nat) : Bool :=
  doc.any (fun n =>
    match n with
    | .image img =>
      img.nodeId == owner && !img.ariaHidden && img.dsOriginalDisplay.isSome
    | .placeholder _ _ _ _ _ => false)

/-- `applyHideImages` (AccessibilityPanel.tsx:403-490) over the list of nodes in
document order. The source selects `img:not([aria-hidden="true"])`; on enable each
unprocessed selected image is hidden and a placeholder is inserted immediately
after it; on disable each processed selected image is restored and its recorded
placeholder removed. -/
def applyHideImages (enabled : Bool) (doc : List HNode) : List HNode :=
  if enabled then doc.flatMap hideImageStep
  else
    (doc.filter (fun n =>
      match n with
      | .image _ => true
      | .placeholder o _ _ _ _ => !ownerProcessed doc o)).map
      (fun n =>
        match n with
        | .image img => .image (showImage img)
        | .placeholder o t w h a => .placeholder o t w h a)

/-- Number of placeholders owned by the image with the given id. -/
def placeholderCount (doc : List HNode) (owner : Nat) : Nat :=
  doc.countP (fun n =>
    match n with
    | .image _ => false
    | .placeholder o _ _ _ _ => o == owner)

/-- `getFontFamilyValue` (AccessibilityPanel.tsx:250-270): a custom font wins,
then the four built-in families, then the `default` mapping. `customFonts` is the
prop of the same name. -/
def getFontFamilyValue (customFonts : List (String × String)) (font : String) :
    String :=
  match (customFonts.find? (fun p => p.1 == font)).map (fun p => p.2) with
  | some v => v
  | none =>
    if font = "default" then "inherit"
    else if font = "sans-serif" then
      "system-ui, -apple-system, BlinkMacSystemFont, \"Segoe UI\", Roboto, \"Helvetica Neue\", Arial, sans-serif"
    else if font = "serif" then "Georgia, \"Times New Roman\", Times, serif"
    else if font = "dyslexia-friendly" then
      "\"OpenDyslexic\", \"Open Dyslexic\", \"Comic Sans MS\", \"Trebuchet MS\", \"Verdana\", sans-serif"
    else "inherit"

/-- `getFontScaleValue` (AccessibilityPanel.tsx:286-295). An out-of-domain key
indexes the record as `undefined` in JavaScript; setting a CSS property to it
stringifies, modelled by `"undefined"`. -/
def getFontScaleValue (size : String) : String :=
  if size = "default" then "1"
  else if size = "small" then "0.875"
  else if size = "medium" then "1"
  else if size = "large" then "1.25"
  else if size = "extra-large" then "1.5"
  else "undefined"

/-- `getLineHeightValue` (AccessibilityPanel.tsx:309-318). -/
def getLineHeightValue (level : String) : String :=
  if level = "default" then "1"
  else if level = "tight" then "0.75"
  else if level = "normal" then "1"
  else if level = "relaxed" then "1.5"
  else if level = "loose" then "2"
  else "undefined"

/-- `getLetterSpacingValue` (AccessibilityPanel.tsx:331-340). -/
def getLetterSpacingValue (level : String) : String :=
  if level = "default" then "1"
  else if level = "tight" then "0.5"
  else if level = "normal" then "1"
  else if level = "wide" then "1.5"
  else if level = "extra-wide" then "2"
  else "undefined"

/-- `getWordSpacingValue` (AccessibilityPanel.tsx:353-362). -/
def getWordSpacingValue (level : String) : String :=
  if level = "default" then "1"
  else if level = "tight" then "0.5"
  else if level = "normal" then "1"
  else if level = "wide" then "1.5"
  else if level = "extra-wide" then "2"
  else "undefined"

/-- `applyFilters` (AccessibilityPanel.tsx:377-395): the document root's `filter`
property after applying the monochrome and saturation settings. -/
def filtersValue (monochrome : Bool) (saturation : String) : String :=
  let filters : List String :=
    (if monochrome then ["grayscale(100%)"] else [])
      ++ (if saturation = "low" then ["saturate(0.5)"]
        else if saturation = "high" then ["saturate(1.5)"]
        else [])
  if filters.length > 0 then String.intercalate " " filters else ""

/-- The React state of the panel's settings
(AccessibilityPanel.tsx:111-127). Setting values are the literal strings of the
source's string-union types; `internalPosition`/`internalTheme` start as `null`. -/
structure PanelSettings where
  monochrome : Bool
  saturation : String
  hideImages : Bool
  highlightTitles : Bool
  highlightLinks : Bool
  contrast : String
  internalPosition : Option String
  internalTheme : Option String
  fontFamily : String
  textSize : String
  lineHeight : String
  letterSpacing : String
  wordSpacing : String
  screenReader : Bool
deriving DecidableEq, Repr

/-- The `useState` initial values (AccessibilityPanel.tsx:111-127). -/
def defaultPanelSettings : PanelSettings :=
  { monochrome := false
    saturation := "normal"
    hideImages := false
    highlightTitles := false
    highlightLinks := false
    contrast := "default"
    internalPosition := none
    internalTheme := none
    fontFamily := "default"
    textSize := "default"
    lineHeight := "default"
    letterSpacing := "default"
    wordSpacing := "default"
    screenReader := false }

/-- `loadSettings` (AccessibilityPanel.tsx:956-960): any stored string other
than `'true'` yields `false`; an absent key keeps the `useState` default. -/
def loadMonochrome (store : String → Option String) : Bool :=
  match store "accessibility-monochrome" with
  | some v => v == "true"
  | none => false

/-- `loadSettings` (AccessibilityPanel.tsx:962-965): enumerated validation;
out-of-domain strings keep the default `'normal'`. -/
def loadSaturation (store : String → Option String) : String :=
  match store "accessibility-saturation" with
  | some v => if v = "normal" ∨ v = "low" ∨ v = "high" then v else "normal"
  | none => "normal"

/-- `loadSettings` (AccessibilityPanel.tsx:967-977). -/
def loadHideImages (store : String → Option String) : Bool :=
  match store "accessibility-hide-images" with
  | some v => v == "true"
  | none => false

/-- `loadSettings` (AccessibilityPanel.tsx:979-988). -/
def loadHighlightTitles (store : String → Option String) : Bool :=
  match store "accessibility-highlight-titles" with
  | some v => v == "true"
  | none => false

/-- `loadSettings` (AccessibilityPanel.tsx:990-999). -/
def loadHighlightLinks (store : String → Option String) : Bool :=
  match store "accessibility-highlight-links" with
  | some v => v == "true"
  | none => false

/-- `loadSettings` (AccessibilityPanel.tsx:1001-1010). -/
def loadContrast (store : String → Option String) : String :=
  match store "accessibility-contrast" with
  | some v =>
    if v = "default" ∨ v = "low" ∨ v = "high" ∨ v = "dark" then v
    else "default"
  | none => "default"

/-- `loadSettings` (AccessibilityPanel.tsx:1012-1024): `internalPosition` starts
as `null` and is set only for the six valid literals. -/
def loadPosition (store : String → Option String) : Option String :=
  match store "accessibility-position" with
  | some v =>
    if v = "bottom-right" ∨ v = "bottom-left" ∨ v = "top-right" ∨
        v = "top-left" ∨ v = "top-center" ∨ v = "bottom-center" then some v
    else none
  | none => none

/-- `loadSettings` (AccessibilityPanel.tsx:1026-1029). -/
def loadTheme (store : String → Option String) : Option String :=
  match store "accessibility-theme" with
  | some v => if v = "light" ∨ v = "dark" ∨ v = "auto" then some v else none
  | none => none

/-- `loadSettings` (AccessibilityPanel.tsx:1031-1034): the stored string is cast
(`savedFontFamily as FontFamily`) and stored with NO validation. -/
def loadFontFamily (store : String → Option String) : String :=
  match store "accessibility-font-family" with
  | some v => v
  | none => "default"

/-- `loadSettings` (AccessibilityPanel.tsx:1036-1039). -/
def loadTextSize (store : String → Option String) : String :=
  match store "accessibility-text-size" with
  | some v =>
    if v = "default" ∨ v = "small" ∨ v = "medium" ∨ v = "large" ∨
        v = "extra-large" then v
    else "default"
  | none => "default"

/-- `loadSettings` (AccessibilityPanel.tsx:1041-1044). -/
def loadLineHeight (store : String → Option String) : String :=
  match store "accessibility-line-height" with
  | some v =>
    if v = "default" ∨ v = "tight" ∨ v = "normal" ∨ v = "relaxed" ∨
        v = "loose" then v
    else "default"
  | none => "default"

/-- `loadSettings` (AccessibilityPanel.tsx:1046-1049). -/
def loadLetterSpacing (store : String → Option String) : String :=
  match store "accessibility-letter-spacing" with
  | some v =>
    if v = "default" ∨ v = "tight" ∨ v = "normal" ∨ v = "wide" ∨
        v = "extra-wide" then v
    else "default"
  | none => "default"

/-- `loadSettings` (AccessibilityPanel.tsx:1051-1054). -/
def loadWordSpacing (store : String → Option String) : String :=
  match store "accessibility-word-spacing" with
  | some v =>
    if v = "default" ∨ v = "tight" ∨ v = "normal" ∨ v = "wide" ∨
        v = "extra-wide" then v
    else "default"
  | none => "default"

/-- `loadSettings` (AccessibilityPanel.tsx:1057-1075). -/
def loadScreenReader (store : String → Option String) : Bool :=
  match store "accessibility-screen-reader" with
  | some v => v == "true"
  | none => false

/-- The settings state produced by the `loadSettings` closure
(AccessibilityPanel.tsx:954-1094) from a persisted store. The source performs
one independent read-validate-set sequence per setting, in the order of the
fields below; each is modelled by its per-setting loader. The deferred `applyX`
side effects and the announcer initialisation are not part of the loaded
settings state. -/
def loadSettings (store : String → Option String) : PanelSettings :=
  { monochrome := loadMonochrome store
    saturation := loadSaturation store
    hideImages := loadHideImages store
    highlightTitles := loadHighlightTitles store
    highlightLinks := loadHighlightLinks store
    contrast := loadContrast store
    internalPosition := loadPosition store
    internalTheme := loadTheme store
    fontFamily := loadFontFamily store
    textSize := loadTextSize store
    lineHeight := loadLineHeight store
    letterSpacing := loadLetterSpacing store
    wordSpacing := loadWordSpacing store
    screenReader := loadScreenReader store }

/-- Setting domains as documented in types.ts. -/
def textSizeDomain : List String :=
  ["default", "small", "medium", "large", "extra-large"]

def lineHeightDomain : List String :=
  ["default", "tight", "normal", "relaxed", "loose"]

def spacingDomain : List String :=
  ["default", "tight", "normal", "wide", "extra-wide"]

def saturationDomain : List String := ["normal", "low", "high"]

def positionDomain : List String :=
  ["bottom-right", "bottom-left", "top-right", "top-left", "top-center",
   "bottom-center"]

def themeDomain : List String := ["light", "dark", "auto"]

/-- The live-DOM state driven by the settings: the CSS custom properties written
by `applyFontFamily`/`applyFontScale`/`applyLineHeight`/`applyLetterSpacing`/
`applyWordSpacing` (AccessibilityPanel.tsx:275-370), the root `filter` property
(`applyFilters`, lines 377-395), the image-hiding document region
(`applyHideImages`, lines 403-490), the presence of the two highlight style
elements (`applyHighlightTitles`/`applyHighlightLinks`, lines 813-916, whose
managed style elements are modelled by their presence), the contrast state
(`applyContrast`), and whether screen-reader mode is enabled
(`enableScreenReaderMode`/`disableScreenReaderMode`, whose full DOM behaviour is
modelled in the `ScreenReader` namespace and abstracted here to the mode bit). -/
structure DomEffects where
  fontFamilyVar : String
  bodyFontFamily : String
  fontScale : String
  lineHeightScale : String
  letterSpacingScale : String
  wordSpacingScale : String
  filter : String
  hideDoc : List HNode
  highlightTitlesOn : Bool
  highlightLinksOn : Bool
  contrast : ContrastDom
  screenReaderOn : Bool
deriving DecidableEq, Repr

/-- One settings-change event, one constructor per `handleXChange` handler
(AccessibilityPanel.tsx:1345-1499). Payloads are the runtime strings/booleans. -/
inductive SettingChange where
  | textSize (v : String)
  | lineHeight (v : String)
  | letterSpacing (v : String)
  | wordSpacing (v : String)
  | contrast (v : String)
  | saturation (v : String)
  | screenReader (b : Bool)
  | monochrome (b : Bool)
  | hideImages (b : Bool)
  | highlightTitles (b : Bool)
  | highlightLinks (b : Bool)
  | fontFamily (v : String)
  | position (v : String)
  | theme (v : String)
deriving DecidableEq, Repr

/-- `saveMode` prop: `'auto' | 'manual'`. -/
inductive SaveMode where
  | auto
  | manual
deriving DecidableEq, Repr

/-- The component state relevant to the save-mode policy: settings, the
`hasUnsavedChanges` flag, the `shouldApplyEffectsRef` and `isInitialLoadRef`
refs (AccessibilityPanel.tsx:134-143), the effect state of the live DOM, and the
persisted store as a key/value list. -/
structure PanelState where
  settings : PanelSettings
  hasUnsavedChanges : Bool
  shouldApplyEffects : Bool
  isInitialLoad : Bool
  dom : DomEffects
  store : List (String × String)
deriving DecidableEq, Repr

/-- `storage.setItem(key, value)` on the key/value store. -/
def setStore (store : List (String × String)) (key value : String) :
    List (String × String) :=
  if store.any (fun p => p.1 == key) then
    store.map (fun p => if p.1 == key then (key, value) else p)
  else store ++ [(key, value)]

/-- `storage.getItem(key)`. -/
def lookupStore (store : List (String × String)) (key : String) : Option String :=
  (store.find? (fun p => p.1 == key)).map (fun p => p.2)

/-- The `setX` state update performed by each change handler. -/
def settingUpdate (c : SettingChange) (s : PanelSettings) : PanelSettings :=
  match c with
  | .textSize v => { s with textSize := v }
  | .lineHeight v => { s with lineHeight := v }
  | .letterSpacing v => { s with letterSpacing := v }
  | .wordSpacing v => { s with wordSpacing := v }
  | .contrast v => { s with contrast := v }
  | .saturation v => { s with saturation := v }
  | .screenReader b => { s with screenReader := b }
  | .monochrome b => { s with monochrome := b }
  | .hideImages b => { s with hideImages := b }
  | .highlightTitles b => { s with highlightTitles := b }
  | .highlightLinks b => { s with highlightLinks := b }
  | .fontFamily v => { s with fontFamily := v }
  | .position v => { s with internalPosition := some v }
  | .theme v => { s with internalTheme := some v }

/-- The storage key each handler passes to `conditionalSave`. -/
def storageKey (c : SettingChange) : String :=
  match c with
  | .textSize _ => "accessibility-text-size"
  | .lineHeight _ => "accessibility-line-height"
  | .letterSpacing _ => "accessibility-letter-spacing"
  | .wordSpacing _ => "accessibility-word-spacing"
  | .contrast _ => "accessibility-contrast"
  | .saturation _ => "accessibility-saturation"
  | .screenReader _ => "accessibility-screen-reader"
  | .monochrome _ => "accessibility-monochrome"
  | .hideImages _ => "accessibility-hide-images"
  | .highlightTitles _ => "accessibility-highlight-titles"
  | .highlightLinks _ => "accessibility-highlight-links"
  | .fontFamily _ => "accessibility-font-family"
  | .position _ => "accessibility-position"
  | .theme _ => "accessibility-theme"

/-- The string value each handler persists (booleans via `.toString()`). -/
def storedValue (c : SettingChange) : String :=
  match c with
  | .textSize v => v
  | .lineHeight v => v
  | .letterSpacing v => v
  | .wordSpacing v => v
  | .contrast v => v
  | .saturation v => v
  | .screenReader b => if b then "true" else "false"
  | .monochrome b => if b then "true" else "false"
  | .hideImages b => if b then "true" else "false"
  | .highlightTitles b => if b then "true" else "false"
  | .highlightLinks b => if b then "true" else "false"
  | .fontFamily v => v
  | .position v => v
  | .theme v => v

/-- The visual effect of the setting touched by one change, as produced by the
corresponding guarded `useEffect` (AccessibilityPanel.tsx:1100-1208) — and, for
contrast, hide-images, the two highlights and screen reader, equivalently by the
direct `apply` call the handler makes in auto mode. Position and theme have no
document-wide effect. -/
def applyChangeEffect (customFonts : List (String × String)) (c : SettingChange)
    (s : PanelSettings) (d : DomEffects) : DomEffects :=
  match c with
  | .textSize _ => { d with fontScale := getFontScaleValue s.textSize }
  | .lineHeight _ => { d with lineHeightScale := getLineHeightValue s.lineHeight }
  | .letterSpacing _ =>
    { d with letterSpacingScale := getLetterSpacingValue s.letterSpacing }
  | .wordSpacing _ =>
    { d with wordSpacingScale := getWordSpacingValue s.wordSpacing }
  | .contrast _ => { d with contrast := applyContrast s.contrast d.contrast }
  | .saturation _ => { d with filter := filtersValue s.monochrome s.saturation }
  | .monochrome _ => { d with filter := filtersValue s.monochrome s.saturation }
  | .screenReader _ => { d with screenReaderOn := s.screenReader }
  | .hideImages _ => { d with hideDoc := applyHideImages s.hideImages d.hideDoc }
  | .highlightTitles _ => { d with highlightTitlesOn := s.highlightTitles }
  | .highlightLinks _ => { d with highlightLinksOn := s.highlightLinks }
  | .fontFamily _ =>
    { d with
      fontFamilyVar := getFontFamilyValue customFonts s.fontFamily,
      bodyFontFamily := getFontFamilyValue customFonts s.fontFamily }
  | .position _ => d
  | .theme _ => d

/-- One settings change processed by its handler
(AccessibilityPanel.tsx:1345-1499) plus the React effect run it triggers: the
`setX` update; `conditionalSave` (lines 1337-1343), which in auto mode persists
the value and in manual mode sets `hasUnsavedChanges`; and the effect hooks,
which apply the visual change only when `shouldApplyEffectsRef.current ||
isInitialLoadRef.current` (in auto mode after the grace window this coincides
with the handler's own direct `apply` call). `announceChange` writes only to the
transient announcer live region, modelled in the `Announcer` namespace. -/
def handleChange (customFonts : List (String × String)) (mode : SaveMode)
    (st : PanelState) (c : SettingChange) : PanelState :=
  let settings := settingUpdate c st.settings
  let st := { st with settings := settings }
  let st :=
    if mode = SaveMode.auto then
      { st with store := setStore st.store (storageKey c) (storedValue c) }
    else { st with hasUnsavedChanges := true }
  if st.shouldApplyEffects ∨ st.isInitialLoad then
    { st with dom := applyChangeEffect customFonts c settings st.dom }
  else st

/-- The batch application of every visual effect performed at the top of
`handleSaveSettings` (AccessibilityPanel.tsx:1508-1532), in source order. -/
def applyAllEffects (customFonts : List (String × String)) (s : PanelSettings)
    (d : DomEffects) : DomEffects :=
  { fontFamilyVar := getFontFamilyValue customFonts s.fontFamily
    bodyFontFamily := getFontFamilyValue customFonts s.fontFamily
    fontScale := getFontScaleValue s.textSize
    lineHeightScale := getLineHeightValue s.lineHeight
    letterSpacingScale := getLetterSpacingValue s.letterSpacing
    wordSpacingScale := getWordSpacingValue s.wordSpacing
    filter := filtersValue s.monochrome s.saturation
    hideDoc := applyHideImages s.hideImages d.hideDoc
    highlightTitlesOn := s.highlightTitles
    highlightLinksOn := s.highlightLinks
    contrast := applyContrast s.contrast d.contrast
    screenReaderOn := s.screenReader }

/-- The batch of `saveToStorage` writes in `handleSaveSettings`
(AccessibilityPanel.tsx:1535-1550): the twelve settings keys, plus position and
theme when they have been set. -/
def persistAll (s : PanelSettings) (store : List (String × String)) :
    List (String × String) :=
  let store := setStore store "accessibility-text-size" s.textSize
  let store := setStore store "accessibility-line-height" s.lineHeight
  let store := setStore store "accessibility-letter-spacing" s.letterSpacing
  let store := setStore store "accessibility-word-spacing" s.wordSpacing
  let store := setStore store "accessibility-contrast" s.contrast
  let store := setStore store "accessibility-saturation" s.saturation
  let store := setStore store "accessibility-monochrome"
    (if s.monochrome then "true" else "false")
  let store := setStore store "accessibility-hide-images"
    (if s.hideImages then "true" else "false")
  let store := setStore store "accessibility-highlight-titles"
    (if s.highlightTitles then "true" else "false")
  let store := setStore store "accessibility-highlight-links"
    (if s.highlightLinks then "true" else "false")
  let store := setStore store "accessibility-font-family" s.fontFamily
  let store := setStore store "accessibility-screen-reader"
    (if s.screenReader then "true" else "false")
  let store :=
    match s.internalPosition with
    | some p => setStore store "accessibility-position" p
    | none => store
  match s.internalTheme with
  | some t => setStore store "accessibility-theme" t
  | none => store

/-- `handleSaveSettings` (AccessibilityPanel.tsx:1504-1565) on the success path:
apply every visual effect, persist every value, clear `hasUnsavedChanges`.
(`isSaving` is set and cleared within the call and ends false either way.) -/
def handleSaveSettings (customFonts : List (String × String)) (st : PanelState) :
    PanelState :=
  let dom := applyAllEffects customFonts st.settings st.dom
  let store := persistAll st.settings st.store
  { st with dom := dom, store := store, hasUnsavedChanges := false }

end Panel

namespace AccessibleName

/-- An element as inspected by `getAccessibleName`
(screenReaderUtils.ts:977-1021): lowercase tag name, attribute list, and the
element's `textContent`. -/
structure NamedElem where
  tag : String
  attrs : List (String × String)
  textContent : String
deriving DecidableEq, Repr

/-- The parts of the document `getAccessibleName` consults: `byId` maps an
element id to that element's `textContent` (for `document.getElementById` on
`aria-labelledby` referents, absent ids are dropped by `.filter(Boolean)`), and
`labelsFor` lists the `<label>` elements as (`for` attribute, `textContent`)
pairs in document order (for `document.querySelector('label[for="id"]')`). -/
structure NameDoc where
  byId : List (String × String)
  labelsFor : List (String × String)
deriving DecidableEq, Repr

/-- `element.getAttribute(a)`. -/
def getAttrN (e : NamedElem) (a : String) : Option String :=
  (e.attrs.find? (fun p => p.1 == a)).map (fun p => p.2)

/-- `element.textContent?.trim() || ''` — the final fallback
(screenReaderUtils.ts:1020). -/
def nameFromText (e : NamedElem) : String :=
  jsTrim e.textContent

/-- Step 5 of `getAccessibleName` (screenReaderUtils.ts:1015-1020): for an
`HTMLImageElement`, `return element.alt || 'Image'` (the `alt` property is `""`
when the attribute is absent); otherwise fall through to the text content. -/
def nameStepAlt (e : NamedElem) : String :=
  if e.tag = "img" then
    let alt := (getAttrN e "alt").getD ""
    if alt = "" then "Image" else alt
  else nameFromText e

/-- Step 4 (screenReaderUtils.ts:1009-1012): a truthy `title` attribute is
returned. -/
def nameStepTitle (e : NamedElem) : String :=
  match getAttrN e "title" with
  | some t => if t = "" then nameStepAlt e else t
  | none => nameStepAlt e

/-- Step 3 (screenReaderUtils.ts:996-1006): for `input`/`select`/`textarea`
elements with a non-empty id, a matching `label[for]` element's trimmed text is
returned as soon as the label exists (`label.textContent?.trim() || ''`). -/
def nameStepLabel (doc : NameDoc) (e : NamedElem) : String :=
  if e.tag = "input" ∨ e.tag = "select" ∨ e.tag = "textarea" then
    let i := (getAttrN e "id").getD ""
    if i ≠ "" then
      match (doc.labelsFor.find? (fun p => p.1 == i)).map (fun p => p.2) with
      | some t => jsTrim t
      | none => nameStepTitle e
    else nameStepTitle e
  else nameStepTitle e

/-- Step 2 (screenReaderUtils.ts:990-993): a truthy `aria-label` is returned. -/
def nameStepAriaLabel (doc : NameDoc) (e : NamedElem) : String :=
  match getAttrN e "aria-label" with
  | some l => if l = "" then nameStepLabel doc e else l
  | none => nameStepLabel doc e

/-- The texts of the `aria-labelledby` referents that exist, in attribute order
(screenReaderUtils.ts:981-983). -/
def labelledByTexts (doc : NameDoc) (lb : String) : List String :=
  (splitOnSpace lb).filterMap
    (fun i => (doc.byId.find? (fun p => p.1 == i)).map (fun p => p.2))

/-- `getAccessibleName` (screenReaderUtils.ts:977-1021): when a truthy
`aria-labelledby` resolves to at least one referent, the space-join of their
trimmed texts is returned; otherwise the later steps run in order. -/
def getAccessibleName (doc : NameDoc) (e : NamedElem) : String :=
  match getAttrN e "aria-labelledby" with
  | some lb =>
    if lb = "" then nameStepAriaLabel doc e
    else
      let texts := labelledByTexts doc lb
      if texts.length > 0 then String.intercalate " " (texts.map jsTrim)
      else nameStepAriaLabel doc e
  | none => nameStepAriaLabel doc e

/-- The first non-empty candidate, and `""` when all are empty — the priority
rule as the specification words it. -/
def firstNonEmpty (l : List String) : String :=
  ((l.filter (fun s => s ≠ "")).head?).getD ""

/-- The accessible-name computation as the specification claims it: the first
NON-EMPTY result among, in order, the concatenated referent text, `aria-label`,
the associated label text (form controls only), `title`, `alt` (images only),
and the element's own trimmed text content; empty string otherwise.
Written from the claim's words, for comparison with `getAccessibleName`. -/
def accNameClaim (doc : NameDoc) (e : NamedElem) : String :=
  firstNonEmpty
    [ (match getAttrN e "aria-labelledby" with
       | some lb => String.intercalate " "
           ((labelledByTexts doc lb).map jsTrim)
       | none => "")
    , (getAttrN e "aria-label").getD ""
    , (if e.tag = "input" ∨ e.tag = "select" ∨ e.tag = "textarea" then
        (((doc.labelsFor.find? (fun p =>
          p.1 == (getAttrN e "id").getD "")).map (fun p => jsTrim p.2)).getD "")
      else "")
    , (getAttrN e "title").getD ""
    , (if e.tag = "img" then (getAttrN e "alt").getD "" else "")
    , jsTrim e.textContent ]

/-- First `some` in a candidate list, `""` when none. -/
def firstSome (l : List (Option String)) : String :=
  ((l.filterMap id).head?).getD ""

/-- The amended cascade: like the claim's priority list, except that
(a) a truthy `aria-labelledby` with at least one existing referent returns the
space-join of the referents' trimmed texts even when that join is empty,
(b) a form control with a non-empty id and an existing associated label returns
the label's trimmed text even when it is empty, and
(c) an image returns its `alt` text, or the literal `"Image"` when the `alt` is
empty or absent, never falling through to its text content. -/
def accNameAmended (doc : NameDoc) (e : NamedElem) : String :=
  firstSome
    [ (match getAttrN e "aria-labelledby" with
       | some lb =>
         if lb = "" then none
         else
           let texts := labelledByTexts doc lb
           if texts.length > 0 then
             some (String.intercalate " " (texts.map jsTrim))
           else none
       | none => none)
    , (match getAttrN e "aria-label" with
       | some l => if l = "" then none else some l
       | none => none)
    , (if e.tag = "input" ∨ e.tag = "select" ∨ e.tag = "textarea" then
        (let i := (getAttrN e "id").getD ""
         if i ≠ "" then
           (doc.labelsFor.find? (fun p => p.1 == i)).map (fun p => jsTrim p.2)
         else none)
      else none)
    , (match getAttrN e "title" with
       | some t => if t = "" then none else some t
       | none => none)
    , (if e.tag = "img" then
        some (let alt := (getAttrN e "alt").getD ""
              if alt = "" then "Image" else alt)
      else none)
    , some (jsTrim e.textContent) ]

end AccessibleName

namespace ScreenReader

/-- A DOM element as seen by the enhancement engine: identity (`eid`), lowercase
tag name, parent element, class-list tokens, `textContent`, and the attribute
list. The `class` attribute is represented by `classes` (no pass ever snapshots
or restores it); `textContent` is the element's full text. -/
structure SRElem where
  eid : Nat
  tag : String
  parent : Option Nat
  classes : List String
  text : String
  attrs : List (String × String)
deriving DecidableEq, Repr

/-- The nodes the engine creates and registers in `createdElements`
(screenReaderUtils.ts:178): the skip-links container with its link labels
(screenReaderUtils.ts:366-414), the skip-link stylesheet (line 427), the
enhanced-focus stylesheet (line 484) and the global live region (line 617). -/
inductive CreatedKind where
  | skipLinksContainer (labels : List String)
  | skipLinkStyles
  | focusStyles
  | liveRegion
deriving DecidableEq, Repr

/-- The document state of the enhancement engine: the host page's elements in
document order, the body's class tokens and `data-screen-reader` attribute, the
`createdElements` registry, the module variable `liveRegionElement`
(screenReaderUtils.ts:183), the presence of the announcer container created by
`getOrCreateAnnouncerContainer` (which is NOT registered in `createdElements`),
the `originalAttributes` snapshot (line 173, flattened to
((element, attribute), original value) entries in insertion order), and a
counter `gen` standing in for the `Math.random()`-based id generator. -/
structure SRDoc where
  elems : List SRElem
  bodyClasses : List String
  bodyScreenReaderAttr : Bool
  createdElements : List CreatedKind
  liveRegionElement : Bool
  announcerPresent : Bool
  originalAttributes : List ((Nat × String) × Option String)
  gen : Nat
deriving DecidableEq, Repr

/-- `element.getAttribute(a)`. -/
def getAttrE (e : SRElem) (a : String) : Option String :=
  (e.attrs.find? (fun p => p.1 == a)).map (fun p => p.2)

/-- `element.setAttribute(a, v)`. -/
def setAttrE (e : SRElem) (a v : String) : SRElem :=
  if e.attrs.any (fun p => p.1 == a) then
    { e with attrs := e.attrs.map (fun p => if p.1 == a then (a, v) else p) }
  else { e with attrs := e.attrs ++ [(a, v)] }

/-- `element.removeAttribute(a)`. -/
def removeAttrE (e : SRElem) (a : String) : SRElem :=
  { e with attrs := e.attrs.filter (fun p => ¬p.1 == a) }

/-- The `element.id` property: the id attribute, or `""` when absent. -/
def elemId (e : SRElem) : String :=
  (getAttrE e "id").getD ""

/-- First element with the given identity. -/
def findElem (d : SRDoc) (i : Nat) : Option SRElem :=
  d.elems.find? (fun e => e.eid == i)

/-- Whether an element with this identity is in the document. -/
def elemExists (d : SRDoc) (i : Nat) : Bool :=
  d.elems.any (fun e => e.eid == i)

/-- Attribute read through the document. -/
def docGetAttr (d : SRDoc) (i : Nat) (a : String) : Option String :=
  match findElem d i with
  | some e => getAttrE e a
  | none => none

/-- Attribute write through the document. -/
def docSetAttr (d : SRDoc) (i : Nat) (a v : String) : SRDoc :=
  { d with elems := d.elems.map (fun e => if e.eid == i then setAttrE e a v else e) }

/-- Attribute removal through the document. -/
def docRemoveAttr (d : SRDoc) (i : Nat) (a : String) : SRDoc :=
  { d with elems := d.elems.map (fun e => if e.eid == i then removeAttrE e a else e) }

/-- `storeOriginalAttribute` (screenReaderUtils.ts:934-943): record the current
value of the attribute for this element, only if this (element, attribute) pair
has not been recorded yet — first write wins. -/
def storeOriginalAttribute (d : SRDoc) (i : Nat) (a : String) : SRDoc :=
  if d.originalAttributes.any (fun p => p.1 == (i, a)) then d
  else
    { d with originalAttributes :=
        d.originalAttributes ++ [((i, a), docGetAttr d i a)] }

/-- One disciplined enhancement mutation: `storeOriginalAttribute` followed by
`element.setAttribute`, the pattern every snapshot-backed write in the engine
uses. -/
def enhancementWrite (d : SRDoc) (k : Nat × String) (v : String) : SRDoc :=
  docSetAttr (storeOriginalAttribute d k.1 k.2) k.1 k.2 v

/-- One entry of the restoration loop in `disableScreenReaderMode`
(screenReaderUtils.ts:237-245): a recorded `null` removes the attribute, a
recorded string sets it back. -/
def restoreEntry (d : SRDoc) (p : (Nat × String) × Option String) : SRDoc :=
  match p.2 with
  | some v => docSetAttr d p.1.1 p.1.2 v
  | none => docRemoveAttr d p.1.1 p.1.2

/-- The restoration loop plus `originalAttributes.clear()`
(screenReaderUtils.ts:237-246). -/
def restoreOriginalAttributes (d : SRDoc) : SRDoc :=
  { d.originalAttributes.foldl restoreEntry d with originalAttributes := [] }

/-- `classList.add`. -/
def addClass (l : List String) (c : String) : List String :=
  if l.contains c then l else l ++ [c]

/-- `classList.remove`. -/
def removeClass (l : List String) (c : String) : List String :=
  l.filter (fun x => ¬x == c)

/-- The CSS `[attr*=sub]` substring test used by the selectors. -/
def containsSub (s pat : String) : Bool :=
  jsIncludes s pat

/-- The serialised class attribute, for `[class*="..."]` selectors. -/
def classAttrValue (e : SRElem) : String :=
  String.intercalate " " e.classes

/-- Ancestor chain by walking parent links, fuelled by the document size. -/
def ancestorsAux (d : SRDoc) : Nat → Option Nat → List SRElem
  | 0, _ => []
  | _, none => []
  | fuel + 1, some pid =>
    match findElem d pid with
    | none => []
    | some p => p :: ancestorsAux d fuel p.parent

/-- The ancestors of an element, nearest first. -/
def ancestors (d : SRDoc) (e : SRElem) : List SRElem :=
  ancestorsAux d d.elems.length e.parent

/-- `container.querySelectorAll(...)` scope: the descendants of the element with
identity `i`, in document order. -/
def descendants (d : SRDoc) (i : Nat) : List SRElem :=
  d.elems.filter (fun e => (ancestors d e).any (fun a => a.eid == i))

/-- Whether some ancestor has the given tag (for descendant selectors such as
`nav a`). -/
def hasAncestorTag (d : SRDoc) (e : SRElem) (t : String) : Bool :=
  (ancestors d e).any (fun a => a.tag == t)

/-- `applyEnhancedAria`, images (screenReaderUtils.ts:277-282):
`img:not([alt])` get `alt="Image"` and `role="img"`. -/
def ariaImagesStep (d : SRDoc) (i : Nat) : SRDoc :=
  let d := storeOriginalAttribute d i "alt"
  let d := storeOriginalAttribute d i "role"
  let d := docSetAttr d i "alt" "Image"
  docSetAttr d i "role" "img"

def ariaImages (d : SRDoc) : SRDoc :=
  ((d.elems.filter (fun e => e.tag == "img" && (getAttrE e "alt").isNone)).map
    (fun e => e.eid)).foldl ariaImagesStep d

/-- `applyEnhancedAria`, links (screenReaderUtils.ts:285-292):
`a:not([aria-label]):not([aria-labelledby])` whose trimmed text is missing or
shorter than 2 get a generated `aria-label` from the `href`. -/
def ariaLinksStep (d : SRDoc) (i : Nat) : SRDoc :=
  match findElem d i with
  | none => d
  | some link =>
    let text := jsTrim link.text
    if text = "" ∨ text.length < 2 then
      let d := storeOriginalAttribute d i "aria-label"
      let href := (getAttrE link "href").getD ""
      docSetAttr d i "aria-label"
        ("Link to " ++ (if href = "" then "page" else href))
    else d

def ariaLinks (d : SRDoc) : SRDoc :=
  ((d.elems.filter (fun e =>
    e.tag == "a" && (getAttrE e "aria-label").isNone &&
      (getAttrE e "aria-labelledby").isNone)).map (fun e => e.eid)).foldl
    ariaLinksStep d

/-- `applyEnhancedAria`, buttons (screenReaderUtils.ts:295-301). -/
def ariaButtonsStep (d : SRDoc) (i : Nat) : SRDoc :=
  match findElem d i with
  | none => d
  | some button =>
    if jsTrim button.text = "" then
      let d := storeOriginalAttribute d i "aria-label"
      docSetAttr d i "aria-label" "Button"
    else d

def ariaButtons (d : SRDoc) : SRDoc :=
  ((d.elems.filter (fun e =>
    e.tag == "button" && (getAttrE e "aria-label").isNone &&
      (getAttrE e "aria-labelledby").isNone)).map (fun e => e.eid)).foldl
    ariaButtonsStep d

/-- `applyEnhancedAria`, current nav links (screenReaderUtils.ts:304-307):
`nav a[class*="active"], nav a[class*="current"]` get `aria-current="page"`. -/
def ariaNavCurrentStep (d : SRDoc) (i : Nat) : SRDoc :=
  let d := storeOriginalAttribute d i "aria-current"
  docSetAttr d i "aria-current" "page"

def ariaNavCurrent (d : SRDoc) : SRDoc :=
  ((d.elems.filter (fun e =>
    e.tag == "a" && hasAncestorTag d e "nav" &&
      (containsSub (classAttrValue e) "active" ||
        containsSub (classAttrValue e) "current"))).map (fun e => e.eid)).foldl
    ariaNavCurrentStep d

/-- `applyEnhancedAria`, unlabeled inputs (screenReaderUtils.ts:310-322): inputs
without `aria-label`/`aria-labelledby` and without an associated
`label[for="id"]` get an `aria-label` from the placeholder or the input type. -/
def ariaInputsStep (d : SRDoc) (i : Nat) : SRDoc :=
  match findElem d i with
  | none => d
  | some input =>
    let id? := getAttrE input "id"
    let placeholder := getAttrE input "placeholder"
    let ty := (getAttrE input "type").getD "text"
    let hasLabel : Bool :=
      match id? with
      | some s =>
        (¬s == "") && d.elems.any (fun l =>
          l.tag == "label" && getAttrE l "for" == some s)
      | none => false
    if hasLabel then d
    else
      let d := storeOriginalAttribute d i "aria-label"
      docSetAttr d i "aria-label"
        (match placeholder with
         | some p => if p = "" then ty ++ " input" else p
         | none => ty ++ " input")

def ariaInputs (d : SRDoc) : SRDoc :=
  ((d.elems.filter (fun e =>
    e.tag == "input" && (getAttrE e "aria-label").isNone &&
      (getAttrE e "aria-labelledby").isNone)).map (fun e => e.eid)).foldl
    ariaInputsStep d

/-- `applyEnhancedAria`, fieldsets (screenReaderUtils.ts:325-333): a
`fieldset:not([aria-describedby])` containing a `<legend>` without an id gets
`aria-labelledby` linked to a freshly generated legend id; the legend id is
assigned directly (`legend.id = legendId`), without a snapshot. -/
def ariaFieldsetsStep (d : SRDoc) (i : Nat) : SRDoc :=
  match (descendants d i).find? (fun e => e.tag == "legend") with
  | none => d
  | some legend =>
    if elemId legend == "" then
      let legendId := "legend-" ++ toString d.gen
      let d := { d with gen := d.gen + 1 }
      let d := docSetAttr d legend.eid "id" legendId
      let d := storeOriginalAttribute d i "aria-labelledby"
      docSetAttr d i "aria-labelledby" legendId
    else d

def ariaFieldsets (d : SRDoc) : SRDoc :=
  ((d.elems.filter (fun e =>
    e.tag == "fieldset" && (getAttrE e "aria-describedby").isNone)).map
    (fun e => e.eid)).foldl ariaFieldsetsStep d

/-- `applyEnhancedAria`, table header cells (screenReaderUtils.ts:341-345):
`th:not([scope])` get `scope="row"` when their grandparent is a `<tbody>`, else
`scope="col"`. -/
def ariaTablesThStep (d : SRDoc) (i : Nat) : SRDoc :=
  match findElem d i with
  | none => d
  | some th =>
    let d := storeOriginalAttribute d i "scope"
    let isRowHeader : Bool :=
      match th.parent with
      | none => false
      | some pid =>
        match findElem d pid with
        | none => false
        | some p =>
          match p.parent with
          | none => false
          | some gpid =>
            match findElem d gpid with
            | none => false
            | some gp => gp.tag == "tbody"
    docSetAttr d i "scope" (if isRowHeader then "row" else "col")

/-- `applyEnhancedAria`, tables (screenReaderUtils.ts:336-346):
`table:not([role])` get `role="table"`, then their header cells get scopes. -/
def ariaTablesStep (d : SRDoc) (i : Nat) : SRDoc :=
  let d := storeOriginalAttribute d i "role"
  let d := docSetAttr d i "role" "table"
  (((descendants d i).filter (fun e =>
    e.tag == "th" && (getAttrE e "scope").isNone)).map (fun e => e.eid)).foldl
    ariaTablesThStep d

def ariaTables (d : SRDoc) : SRDoc :=
  ((d.elems.filter (fun e =>
    e.tag == "table" && (getAttrE e "role").isNone)).map (fun e => e.eid)).foldl
    ariaTablesStep d

/-- `applyEnhancedAria`, collapsibles (screenReaderUtils.ts:349-356): elements
carrying `data-collapsed`/`data-expanded` attributes or the `collapsible`/
`accordion-header` classes get `aria-expanded` derived from their current
expanded state, when not already present. -/
def ariaCollapsiblesStep (d : SRDoc) (i : Nat) : SRDoc :=
  match findElem d i with
  | none => d
  | some e =>
    if (getAttrE e "aria-expanded").isNone then
      let d := storeOriginalAttribute d i "aria-expanded"
      let isExpanded : Bool :=
        e.classes.contains "expanded" || getAttrE e "data-expanded" == some "true"
      docSetAttr d i "aria-expanded" (if isExpanded then "true" else "false")
    else d

def ariaCollapsibles (d : SRDoc) : SRDoc :=
  ((d.elems.filter (fun e =>
    (getAttrE e "data-collapsed").isSome || (getAttrE e "data-expanded").isSome ||
      e.classes.contains "collapsible" ||
      e.classes.contains "accordion-header")).map (fun e => e.eid)).foldl
    ariaCollapsiblesStep d

/-- `applyEnhancedAria` (screenReaderUtils.ts:275-357), the eight scans in source
order; each `querySelectorAll` snapshot is taken after the previous scan
finished. -/
def applyEnhancedAria (d : SRDoc) : SRDoc :=
  ariaCollapsibles (ariaTables (ariaFieldsets (ariaInputs (ariaNavCurrent
    (ariaButtons (ariaLinks (ariaImages d)))))))

/-- First `document.querySelector` alternative set for the `main-content` skip
target (screenReaderUtils.ts:374): `main, [role="main"], #main, #content,
.main-content`. -/
def skipTargetMainPred (e : SRElem) : Bool :=
  e.tag == "main" || getAttrE e "role" == some "main" || elemId e == "main" ||
    elemId e == "content" || e.classes.contains "main-content"

/-- `nav, [role="navigation"], #nav, #navigation, .navigation` (line 375). -/
def skipTargetNavPred (e : SRElem) : Bool :=
  e.tag == "nav" || getAttrE e "role" == some "navigation" ||
    elemId e == "nav" || elemId e == "navigation" ||
    e.classes.contains "navigation"

/-- `[role="search"], #search, .search-form, input[type="search"]` (line 376). -/
def skipTargetSearchPred (e : SRElem) : Bool :=
  getAttrE e "role" == some "search" || elemId e == "search" ||
    e.classes.contains "search-form" ||
    (e.tag == "input" && getAttrE e "type" == some "search")

/-- `footer, [role="contentinfo"], #footer, .footer` (line 377). -/
def skipTargetFooterPred (e : SRElem) : Bool :=
  e.tag == "footer" || getAttrE e "role" == some "contentinfo" ||
    elemId e == "footer" || e.classes.contains "footer"

/-- Processing of one skip target (screenReaderUtils.ts:380-409): if a target
matches, ensure it has an id (`target.id = id` — a direct write, no snapshot),
ensure it is focusable (`tabindex="-1"`, snapshotted), and collect the skip
link's label for the container. -/
def processSkipTarget (pred : SRElem → Bool) (fixedId label : String)
    (acc : SRDoc × List String) : SRDoc × List String :=
  let d := acc.1
  let links := acc.2
  match d.elems.find? pred with
  | none => (d, links)
  | some t =>
    let d := if elemId t == "" then docSetAttr d t.eid "id" fixedId else d
    let d :=
      if (docGetAttr d t.eid "tabindex").isNone then
        let d := storeOriginalAttribute d t.eid "tabindex"
        docSetAttr d t.eid "tabindex" "-1"
      else d
    (d, links ++ [label])

/-- Whether the document has an element with the given id
(`document.getElementById`); the engine's own created nodes are tracked in
`createdElements`. -/
def hasDocElemId (d : SRDoc) (s : String) : Bool :=
  d.elems.any (fun e => elemId e == s)

/-- `addSkipLinkStyles` (screenReaderUtils.ts:424-476): one managed stylesheet
with fixed id `skip-link-styles`, created at most once. -/
def addSkipLinkStyles (d : SRDoc) : SRDoc :=
  if hasDocElemId d "skip-link-styles" ||
      d.createdElements.contains CreatedKind.skipLinkStyles then d
  else
    { d with createdElements := d.createdElements ++ [CreatedKind.skipLinkStyles] }

/-- `createSkipLinks` (screenReaderUtils.ts:362-419): early exit when the
container already exists; one anchor per found target inside a container
prepended to the body and pushed to `createdElements`; the stylesheet is added
only when at least one link exists. -/
def createSkipLinks (d : SRDoc) : SRDoc :=
  if hasDocElemId d "skip-links-container" ||
      d.createdElements.any (fun k =>
        match k with
        | .skipLinksContainer _ => true
        | _ => false) then d
  else
    let acc := processSkipTarget skipTargetMainPred "main-content"
      "Skip to main content" (d, [])
    let acc := processSkipTarget skipTargetNavPred "main-navigation"
      "Skip to navigation" acc
    let acc := processSkipTarget skipTargetSearchPred "search"
      "Skip to search" acc
    let acc := processSkipTarget skipTargetFooterPred "footer"
      "Skip to footer" acc
    if acc.2.length > 0 then
      addSkipLinkStyles { acc.1 with createdElements :=
        acc.1.createdElements ++ [CreatedKind.skipLinksContainer acc.2] }
    else acc.1

/-- `applyEnhancedFocus` (screenReaderUtils.ts:481-543): one managed stylesheet
with fixed id `screen-reader-focus-styles`, created at most once. -/
def applyEnhancedFocus (d : SRDoc) : SRDoc :=
  if hasDocElemId d "screen-reader-focus-styles" ||
      d.createdElements.contains CreatedKind.focusStyles then d
  else
    { d with createdElements := d.createdElements ++ [CreatedKind.focusStyles] }

/-- `applyLandmarkRoles`, main (screenReaderUtils.ts:550-554). -/
def landmarkMain (d : SRDoc) : SRDoc :=
  match d.elems.find? (fun e => e.tag == "main" && (getAttrE e "role").isNone) with
  | none => d
  | some m =>
    let d := storeOriginalAttribute d m.eid "role"
    docSetAttr d m.eid "role" "main"

/-- `applyLandmarkRoles`, navigation (screenReaderUtils.ts:557-564): every
`nav:not([role])`, with an auto-numbered label when `aria-label` is falsy. -/
def landmarkNavsStep (d : SRDoc) (p : Nat × Nat) : SRDoc :=
  let idx := p.1
  let i := p.2
  let d := storeOriginalAttribute d i "role"
  let d := storeOriginalAttribute d i "aria-label"
  let d := docSetAttr d i "role" "navigation"
  if (docGetAttr d i "aria-label").getD "" == "" then
    docSetAttr d i "aria-label"
      (if idx == 0 then "Main navigation" else "Navigation " ++ toString (idx + 1))
  else d

def landmarkNavs (d : SRDoc) : SRDoc :=
  (((d.elems.filter (fun e =>
    e.tag == "nav" && (getAttrE e "role").isNone)).map (fun e => e.eid)).enum).foldl
    landmarkNavsStep d

/-- `applyLandmarkRoles`, header (screenReaderUtils.ts:567-571). -/
def landmarkHeader (d : SRDoc) : SRDoc :=
  match d.elems.find? (fun e =>
    e.tag == "header" && (getAttrE e "role").isNone) with
  | none => d
  | some h =>
    let d := storeOriginalAttribute d h.eid "role"
    docSetAttr d h.eid "role" "banner"

/-- `applyLandmarkRoles`, footer (screenReaderUtils.ts:574-578). -/
def landmarkFooter (d : SRDoc) : SRDoc :=
  match d.elems.find? (fun e =>
    e.tag == "footer" && (getAttrE e "role").isNone) with
  | none => d
  | some f =>
    let d := storeOriginalAttribute d f.eid "role"
    docSetAttr d f.eid "role" "contentinfo"

/-- `applyLandmarkRoles`, asides (screenReaderUtils.ts:581-588). -/
def landmarkAsidesStep (d : SRDoc) (p : Nat × Nat) : SRDoc :=
  let idx := p.1
  let i := p.2
  let d := storeOriginalAttribute d i "role"
  let d := storeOriginalAttribute d i "aria-label"
  let d := docSetAttr d i "role" "complementary"
  if (docGetAttr d i "aria-label").getD "" == "" then
    docSetAttr d i "aria-label" ("Sidebar " ++ toString (idx + 1))
  else d

def landmarkAsides (d : SRDoc) : SRDoc :=
  (((d.elems.filter (fun e =>
    e.tag == "aside" && (getAttrE e "role").isNone)).map (fun e => e.eid)).enum).foldl
    landmarkAsidesStep d

/-- `applyLandmarkRoles`, search forms (screenReaderUtils.ts:591-596): matches of
`form[action*="search"], form.search, .search-form` without a truthy role get
`role="search"`. -/
def landmarkSearchFormsStep (d : SRDoc) (i : Nat) : SRDoc :=
  if (docGetAttr d i "role").getD "" == "" then
    let d := storeOriginalAttribute d i "role"
    docSetAttr d i "role" "search"
  else d

def landmarkSearchForms (d : SRDoc) : SRDoc :=
  ((d.elems.filter (fun e =>
    (e.tag == "form" && containsSub ((getAttrE e "action").getD "") "search") ||
      (e.tag == "form" && e.classes.contains "search") ||
      e.classes.contains "search-form")).map (fun e => e.eid)).foldl
    landmarkSearchFormsStep d

/-- Heading tags recognised inside sections. -/
def headingTags : List String := ["h1", "h2", "h3", "h4", "h5", "h6"]

/-- `applyLandmarkRoles`, sections (screenReaderUtils.ts:599-608): a
`section:not([aria-labelledby])` containing a heading gets `aria-labelledby`
linked to it; the heading receives a generated id (`heading.id = ...`, a direct
write with no snapshot) when it has none. -/
def landmarkSectionsStep (d : SRDoc) (i : Nat) : SRDoc :=
  match (descendants d i).find? (fun e => headingTags.contains e.tag) with
  | none => d
  | some h =>
    if elemId h == "" then
      let hid := "section-heading-" ++ toString d.gen
      let d := { d with gen := d.gen + 1 }
      let d := docSetAttr d h.eid "id" hid
      let d := storeOriginalAttribute d i "aria-labelledby"
      docSetAttr d i "aria-labelledby" hid
    else
      let d := storeOriginalAttribute d i "aria-labelledby"
      docSetAttr d i "aria-labelledby" (elemId h)

def landmarkSections (d : SRDoc) : SRDoc :=
  ((d.elems.filter (fun e =>
    e.tag == "section" && (getAttrE e "aria-labelledby").isNone)).map
    (fun e => e.eid)).foldl landmarkSectionsStep d

/-- `applyLandmarkRoles` (screenReaderUtils.ts:548-609) in source order. -/
def applyLandmarkRoles (d : SRDoc) : SRDoc :=
  landmarkSections (landmarkSearchForms (landmarkAsides (landmarkFooter
    (landmarkHeader (landmarkNavs (landmarkMain d))))))

/-- `createGlobalLiveRegion` (screenReaderUtils.ts:614-637): created once,
guarded by the module variable, and registered in `createdElements`. -/
def createGlobalLiveRegion (d : SRDoc) : SRDoc :=
  if d.liveRegionElement then d
  else
    { d with
      liveRegionElement := true,
      createdElements := d.createdElements ++ [CreatedKind.liveRegion] }

/-- The document-level footprint of `announceToScreenReader` inside the engine:
`getOrCreateAnnouncerContainer` (screenReaderUtils.ts:681-707) creates the
announcer container (and its two regions) when absent; the container is NOT
pushed to `createdElements`. The transient region-content dynamics are modelled
in the `Announcer` namespace. -/
def announceSideEffect (d : SRDoc) : SRDoc :=
  { d with announcerPresent := true }

/-- `ScreenReaderConfig` (screenReaderUtils.ts:23-40). -/
structure ScreenReaderConfig where
  enhancedAria : Bool
  skipLinks : Bool
  enhancedFocus : Bool
  landmarkRoles : Bool
  liveRegions : Bool
  announcementDelay : Nat
  readOnFocus : Bool
  keyboardShortcuts : Bool
deriving DecidableEq, Repr

/-- `defaultScreenReaderConfig` (screenReaderUtils.ts:159-168). -/
def defaultScreenReaderConfig : ScreenReaderConfig :=
  { enhancedAria := true
    skipLinks := true
    enhancedFocus := true
    landmarkRoles := true
    liveRegions := true
    announcementDelay := 100
    readOnFocus := true
    keyboardShortcuts := true }

/-- `enableScreenReaderMode` (screenReaderUtils.ts:188-224): tag the body, run
the configured passes in order, and announce. The `typeof document` guard and
the focus-reading listeners (which do not touch this document state) are
modelled in the `EnvSafety` namespace. -/
def enableScreenReaderMode (config : ScreenReaderConfig) (d : SRDoc) : SRDoc :=
  let d := { d with
    bodyClasses := addClass d.bodyClasses "screen-reader-mode",
    bodyScreenReaderAttr := true }
  let d := if config.enhancedAria then applyEnhancedAria d else d
  let d := if config.skipLinks then createSkipLinks d else d
  let d := if config.enhancedFocus then applyEnhancedFocus d else d
  let d := if config.landmarkRoles then applyLandmarkRoles d else d
  let d := if config.liveRegions then createGlobalLiveRegion d else d
  announceSideEffect d

/-- `document.getElementById(...)` removal of the first element with the given
id (disableScreenReaderMode's focus-style cleanup; the engine-created style has
already been removed with `createdElements` at that point). -/
def removeFirstById : List SRElem → String → List SRElem
  | [], _ => []
  | e :: r, s => if elemId e == s then r else e :: removeFirstById r s

/-- `disableScreenReaderMode` (screenReaderUtils.ts:229-270): untag the body,
restore every snapshotted attribute and clear the snapshot, remove every
created element, drop the live-region reference, remove a remaining
`screen-reader-focus-styles` element by id, and announce (which re-creates the
announcer container if needed; the announcer is never removed). -/
def disableScreenReaderMode (d : SRDoc) : SRDoc :=
  let d := { d with
    bodyClasses := removeClass d.bodyClasses "screen-reader-mode",
    bodyScreenReaderAttr := false }
  let d := restoreOriginalAttributes d
  let d := { d with createdElements := [] }
  let d := { d with liveRegionElement := false }
  let d := { d with elems := removeFirstById d.elems "screen-reader-focus-styles" }
  announceSideEffect d

/-- The shape of an element: everything except its attributes. The enhancement
passes mutate only attributes (and the engine's own created/announcer nodes), so
shapes are preserved. -/
def shape (e : SRElem) : Nat × String × Option Nat × List String × String :=
  (e.eid, e.tag, e.parent, e.classes, e.text)

/-- The attribute names that ever reach `storeOriginalAttribute`. -/
def allowedSnapAttrs : List String :=
  ["alt", "role", "aria-label", "aria-current", "aria-labelledby", "scope",
   "aria-expanded", "tabindex"]

/-- Loose characterisation (over the original document) of the elements that can
receive a directly generated id: legends, headings, and skip-link target
candidates. -/
def skipLooseMatch (e : SRElem) : Bool :=
  e.tag == "main" || e.tag == "nav" || e.tag == "footer" ||
    (e.tag == "input" && getAttrE e "type" == some "search") ||
    e.classes.contains "main-content" || e.classes.contains "navigation" ||
    e.classes.contains "search-form" || e.classes.contains "footer" ||
    getAttrE e "role" == some "main" || getAttrE e "role" == some "navigation" ||
    getAttrE e "role" == some "search" ||
    getAttrE e "role" == some "contentinfo"

/-- Elements of the original document exempt from id preservation: legends,
h1-h6 headings, and skip-target candidates. -/
def exemptIdB (d : SRDoc) (i : Nat) : Bool :=
  match findElem d i with
  | none => false
  | some e => e.tag == "legend" || headingTags.contains e.tag || skipLooseMatch e

/-- Invariant of the disciplined store-then-set write pattern: the snapshot
records each key once with its pre-write value, attributes outside the snapshot
are untouched, and element shapes are unchanged. -/
structure SnapInv (d0 d : SRDoc) : Prop where
  nodup : (d.originalAttributes.map (fun p => p.1)).Nodup
  orig : ∀ p ∈ d.originalAttributes, p.2 = docGetAttr d0 p.1.1 p.1.2
  frame : ∀ i a, ((i, a) ∉ d.originalAttributes.map (fun p => p.1)) →
    docGetAttr d i a = docGetAttr d0 i a
  shapes : d.elems.map shape = d0.elems.map shape

/-- Invariant relating a document reached during an enhancement pass to the
pre-call document `d0`:
the element shapes are unchanged; the snapshot records each key at most once,
with its original value, and only ever for the attribute names that reach
`storeOriginalAttribute`; every attribute outside the snapshot other than `id`
still has its original value; an element's `id` is either original, or a
generated value written where the original id was blank, on a legend, heading
or skip-target candidate, and never the reserved focus-style id; the body is
tagged; and the original document has well-formed (distinct) element ids. -/
structure EngInv (d0 d : SRDoc) : Prop where
  shapes : d.elems.map shape = d0.elems.map shape
  nodup : (d.originalAttributes.map (fun p => p.1)).Nodup
  orig : ∀ p ∈ d.originalAttributes, p.2 = docGetAttr d0 p.1.1 p.1.2
  allowed : ∀ p ∈ d.originalAttributes, p.1.2 ∈ allowedSnapAttrs
  frame : ∀ i a, ((i, a) ∉ d.originalAttributes.map (fun p => p.1)) →
    a ≠ "id" → docGetAttr d i a = docGetAttr d0 i a
  ids : ∀ i, docGetAttr d i "id" = docGetAttr d0 i "id" ∨
    ((docGetAttr d0 i "id" = none ∨ docGetAttr d0 i "id" = some "") ∧
      exemptIdB d0 i = true ∧
      docGetAttr d i "id" ≠ some "screen-reader-focus-styles")
  body : d.bodyClasses = addClass d0.bodyClasses "screen-reader-mode" ∧
    d.bodyScreenReaderAttr = true
  nodupIds : (d0.elems.map (fun e => e.eid)).Nodup

/-- Between the start of `applyEnhancedAria` and the end of `createSkipLinks`,
the only role values ever written are `img` and `table`. -/
def RolesLimited (d0 d : SRDoc) : Prop :=
  ∀ i, docGetAttr d i "role" = docGetAttr d0 i "role" ∨
    docGetAttr d i "role" = some "img" ∨ docGetAttr d i "role" = some "table"

/-- Pre-call well-formedness of a fixture: fresh module state (empty snapshot
and registry, no live region), an untagged body, distinct element ids, and no
host element carrying the engine's reserved focus-style id. -/
structure FreshDoc (d : SRDoc) : Prop where
  snapshotEmpty : d.originalAttributes = []
  createdEmpty : d.createdElements = []
  liveRegionOff : d.liveRegionElement = false
  bodyUntagged : d.bodyClasses.contains "screen-reader-mode" = false
  bodyAttrOff : d.bodyScreenReaderAttr = false
  nodupIds : (d.elems.map (fun e => e.eid)).Nodup
  noReservedId : ∀ e ∈ d.elems, elemId e ≠ "screen-reader-focus-styles"

/-- A fixture: a `<section>` containing an `<h2>` without an id. -/
def sectionFixture : SRDoc :=
  { elems :=
      [ { eid := 1, tag := "section", parent := none, classes := [], text := "",
          attrs := [] },
        { eid := 2, tag := "h2", parent := some 1, classes := [], text := "Title",
          attrs := [] } ]
    bodyClasses := []
    bodyScreenReaderAttr := false
    createdElements := []
    liveRegionElement := false
    announcerPresent := false
    originalAttributes := []
    gen := 0 }

end ScreenReader

namespace Panel

/-- No image in the document region carries the processed marker. -/
def unmarked (n : HNode) : Prop :=
  match n with
  | .image img => img.dsOriginalDisplay = none ∧ img.dsOriginalWidth = none ∧
      img.dsOriginalHeight = none
  | .placeholder _ _ _ _ _ => True

/-- Whether a node is an image. -/
def isImage (n : HNode) : Bool :=
  match n with
  | .image _ => true
  | .placeholder _ _ _ _ _ => false

/-- Number of images with the given id. -/
def imageCount (doc : List HNode) (i : Nat) : Nat :=
  doc.countP (fun n =>
    match n with
    | .image img => img.nodeId == i
    | .placeholder _ _ _ _ _ => false)

/-- A document region on which hide-images has never run: no processed markers
and no placeholders, with distinct image ids. -/
structure CleanHideDoc (doc : List HNode) : Prop where
  unmarkedAll : ∀ n ∈ doc, unmarked n
  noPlaceholders : ∀ n ∈ doc, isImage n = true
  nodupIds : ∀ i, imageCount doc i ≤ 1

/-- An image with `alt="Cat"` and a 300×200 rendered box, no inline styles. -/
def catImg : HImg :=
  { nodeId := 1
    ariaHidden := false
    alt := "Cat"
    styleDisplay := ""
    styleWidth := ""
    styleHeight := ""
    dsOriginalDisplay := none
    dsOriginalWidth := none
    dsOriginalHeight := none
    rectW := 300
    rectH := 200
    imgW := 300
    imgH := 200
    offW := 300
    offH := 200 }

/-- The document region holding just the cat image. -/
def catDoc : List HNode := [HNode.image catImg]

/-- The cat image after the enable path hid it. -/
def catImgHidden : HImg :=
  { catImg with
    dsOriginalDisplay := some ""
    dsOriginalWidth := some ""
    dsOriginalHeight := some ""
    styleDisplay := "none" }

/-- A persisted store holding an out-of-domain font-family string and an
out-of-domain text-size string. -/
def garbageStore : String → Option String := fun k =>
  if k = "accessibility-font-family" then some "garbage-font"
  else if k = "accessibility-text-size" then some "huge"
  else none

/-- A concrete manual-mode panel state after the initial-load grace window. -/
def manualFixtureState : PanelState :=
  { settings := defaultPanelSettings
    hasUnsavedChanges := false
    shouldApplyEffects := false
    isInitialLoad := false
    dom :=
      { fontFamilyVar := "inherit"
        bodyFontFamily := "inherit"
        fontScale := "1"
        lineHeightScale := "1"
        letterSpacingScale := "1"
        wordSpacingScale := "1"
        filter := ""
        hideDoc := []
        highlightTitlesOn := false
        highlightLinksOn := false
        contrast := { styleElems := [], dataContrast := none }
        screenReaderOn := false }
    store := [] }

end Panel

namespace AccessibleName

/-- An image element with no attributes and no text. -/
def bareImg : NamedElem := { tag := "img", attrs := [], textContent := "" }

/-- An empty document. -/
def emptyNameDoc : NameDoc := { byId := [], labelsFor := [] }

end AccessibleName

namespace Announcer

/-- A concrete announcer state: stale polite content, debug off, speech on. -/
def annFixture : AnnState :=
  { politeRegion := ["old"]
    assertiveRegion := []
    toast := none
    debugMode := false
    useSpeechSynthesis := true }

end Announcer

/-! ## Theorems -/

namespace Announcer

/-- C10: for every priority (and any environment and scheduler state), calling
`announceToScreenReader` with the empty string is a complete no-op — it returns
before showing a debug toast, before speaking, and before touching either live
region, leaving the state and the scheduler unchanged and issuing no speech
commands. -/
theorem announce_empty_message_noop (hasDocument hasSpeech : Bool)
    (priority : Priority) (s : AnnState) (sched : Sched) :
    announceToScreenReader hasDocument hasSpeech "" priority s sched =
      (s, sched, []) := by
  simp [announceToScreenReader]

/-- C9: `announceToScreenReader("Saved", "polite")` first clears the polite live
region; after the two deferred animation-frame ticks the region contains exactly
the text `"Saved"`; 5000 ms later it is empty again; and an assertive call with
speech synthesis enabled issues a cancel command before the speak command. -/
theorem announce_saved_polite_lifecycle (s : AnnState)
    (hd : s.debugMode = false) :
    (announceToScreenReader true true "Saved" Priority.polite s ⟨[], []⟩).1.politeRegion
        = [] ∧
    (let r := announceToScreenReader true true "Saved" Priority.polite s ⟨[], []⟩
     let f1 := runAnimationFrame r.1 r.2.1
     let f2 := runAnimationFrame f1.1 f1.2
     f2.1.politeRegion = ["Saved"] ∧
       (elapse 5000 f2.1 f2.2).1.politeRegion = []) ∧
    (∀ s2 : AnnState, s2.useSpeechSynthesis = true → s2.debugMode = false →
      (announceToScreenReader true true "Saved" Priority.assertive s2 ⟨[], []⟩).2.2
        = [SpeechCmd.cancel, SpeechCmd.speak "Saved"]) := by
  refine ⟨?_, ?_, ?_⟩
  · simp [announceToScreenReader, hd, clearRegion]
  · simp [announceToScreenReader, hd, clearRegion, runAnimationFrame, stepCont,
      appendRegion, elapse]
  · intro s2 h1 h2
    simp [announceToScreenReader, speakMessage, h1, h2]

/-- Witness for C9 at a concrete state. -/
theorem announce_saved_polite_lifecycle_witness :
    annFixture.debugMode = false ∧
      (announceToScreenReader true true "Saved" Priority.polite annFixture
        ⟨[], []⟩).1.politeRegion = [] :=
  ⟨rfl, (announce_saved_polite_lifecycle annFixture rfl).1⟩

end Announcer

namespace EnvSafety

/-- C4 counterexample: `readMainContent` does not return normally in a
non-browser environment — its first statement dereferences `document` with no
check, so the claim that every exported entry point checks for the absence of
`document`/`window` and never throws fails at `readMainContent`. -/
theorem readMainContent_throws_without_document :
    readMainContentOutcome noBrowser ≠ JsOutcome.ok := by
  decide

/-- C4 amended, over the full exported surface of screenReaderUtils.ts
(detectBrowser, detectLikelyScreenReader, enableScreenReaderMode,
disableScreenReaderMode, initializeAnnouncer, setAnnouncerDebugMode,
setSpeechSynthesis, announceToScreenReader, getScreenReaderInstructions,
isScreenReaderModeEnabled, stopSpeaking, enableFocusReading,
disableFocusReading, readElement, readMainContent): in a non-browser
environment the environment-guarded entry points and the pure flag/string
helpers return normally; `readElement` and `disableFocusReading` return
normally only because their module flags (`useSpeechSynthesis`,
`focusReadingEnabled`) default to off, and throw when the respective flag is in
the other state; `enableFocusReading` — whose only early return fires when
focus reading is already on — dereferences `document` in its default off state
and throws; and `readMainContent` dereferences `document` unconditionally and
always throws. -/
theorem entry_points_env_checks :
    enableScreenReaderModeOutcome noBrowser = JsOutcome.ok ∧
    disableScreenReaderModeOutcome noBrowser = JsOutcome.ok ∧
    (∀ m : String, announceToScreenReaderOutcome noBrowser m = JsOutcome.ok) ∧
    initAnnouncerOutcome noBrowser = JsOutcome.ok ∧
    detectBrowserOutcome noBrowser = JsOutcome.ok ∧
    detectLikelyScreenReaderOutcome noBrowser = JsOutcome.ok ∧
    setAnnouncerDebugModeOutcome noBrowser = JsOutcome.ok ∧
    setSpeechSynthesisOutcome noBrowser = JsOutcome.ok ∧
    getScreenReaderInstructionsOutcome noBrowser = JsOutcome.ok ∧
    isScreenReaderModeEnabledOutcome noBrowser = JsOutcome.ok ∧
    stopSpeakingOutcome noBrowser = JsOutcome.ok ∧
    readElementOutcome noBrowser false = JsOutcome.ok ∧
    readElementOutcome noBrowser true = JsOutcome.referenceError ∧
    disableFocusReadingOutcome noBrowser false = JsOutcome.ok ∧
    disableFocusReadingOutcome noBrowser true = JsOutcome.referenceError ∧
    enableFocusReadingOutcome noBrowser false = JsOutcome.referenceError ∧
    enableFocusReadingOutcome noBrowser true = JsOutcome.ok ∧
    readMainContentOutcome noBrowser = JsOutcome.referenceError := by
  refine ⟨by decide, by decide, ?_, by decide, by decide, by decide, by decide,
    by decide, by decide, by decide, by decide, by decide, by decide, by decide,
    by decide, by decide, by decide, by decide⟩
  intro m
  simp [announceToScreenReaderOutcome, noBrowser]

end EnvSafety

namespace Panel

/-- C5: starting from a document with at most one managed contrast style
element, `applyContrast` with any of the four levels leaves at most one such
element; for `'default'` it removes both the `data-contrast` attribute and the
style element; for the other levels it sets the attribute to the level and
leaves exactly one style element holding that level's ruleset. -/
theorem applyContrast_matches_level (d : ContrastDom) (level : String)
    (hlen : d.styleElems.length ≤ 1) (hdom : level ∈ contrastLevels) :
    (applyContrast level d).styleElems.length ≤ 1 ∧
    (level = "default" → (applyContrast level d).dataContrast = none ∧
      (applyContrast level d).styleElems = []) ∧
    (level ≠ "default" → (applyContrast level d).dataContrast = some level ∧
      (applyContrast level d).styleElems = [some level]) := by
  have hrest : (match d.styleElems with
      | [] => ([] : List (Option String))
      | _ :: rest => rest) = [] := by
    rcases hs : d.styleElems with _ | ⟨x, rest⟩
    · rfl
    · rw [hs] at hlen
      simp only [List.length_cons] at hlen
      have : rest = [] := List.eq_nil_of_length_eq_zero (by omega)
      simp [this]
  simp only [contrastLevels, List.mem_cons, List.not_mem_nil, or_false] at hdom
  rcases hdom with h | h | h | h <;> subst h <;>
    simp [applyContrast, hrest]

/-- Witness for C5 at a concrete document and level. -/
theorem applyContrast_matches_level_witness :
    (ContrastDom.mk [some "low"] (some "low")).styleElems.length ≤ 1 ∧
    "dark" ∈ contrastLevels ∧
    (applyContrast "dark" (ContrastDom.mk [some "low"] (some "low"))).styleElems
      = [some "dark"] :=
  ⟨by decide, by decide,
    ((applyContrast_matches_level (ContrastDom.mk [some "low"] (some "low"))
      "dark" (by decide) (by decide)).2.2 (by decide)).2⟩

/-- C3 counterexample: a persisted font-family string outside the known font
families is NOT rejected at load time — `loadSettings` stores the garbage string
in the setting state instead of keeping the default value (while the stored
text-size garbage value `"huge"` IS rejected). -/
theorem loadSettings_keeps_garbage_font_family :
    (loadSettings garbageStore).fontFamily = "garbage-font" ∧
    defaultPanelSettings.fontFamily = "default" ∧
    (loadSettings garbageStore).fontFamily ≠ defaultPanelSettings.fontFamily ∧
    (loadSettings garbageStore).textSize = "default" := by
  refine ⟨rfl, rfl, by decide, rfl⟩

/-- C3 amended: for every enumerated setting (text size, line height, letter
and word spacing, contrast, saturation, position, theme) an out-of-domain
persisted string is rejected at load time and the default value kept; the
boolean settings coerce every stored string other than `"true"` to their default
`false`; the loaded value always lies in the setting's domain. The font-family
setting instead accepts any persisted string into the state (its domain is open
to custom fonts), but the derived CSS value of a string outside the four known
families (with no custom fonts configured) falls back to the default mapping
`inherit`, so the garbage value itself is never applied. Loading never throws:
the loader is a total function. -/
theorem loadSettings_rejects_unknown_values (store : String → Option String) :
    ((loadSettings store).textSize ∈ textSizeDomain ∧
     (∀ v, store "accessibility-text-size" = some v → v ∉ textSizeDomain →
       (loadSettings store).textSize = "default")) ∧
    ((loadSettings store).lineHeight ∈ lineHeightDomain ∧
     (∀ v, store "accessibility-line-height" = some v → v ∉ lineHeightDomain →
       (loadSettings store).lineHeight = "default")) ∧
    ((loadSettings store).letterSpacing ∈ spacingDomain ∧
     (∀ v, store "accessibility-letter-spacing" = some v → v ∉ spacingDomain →
       (loadSettings store).letterSpacing = "default")) ∧
    ((loadSettings store).wordSpacing ∈ spacingDomain ∧
     (∀ v, store "accessibility-word-spacing" = some v → v ∉ spacingDomain →
       (loadSettings store).wordSpacing = "default")) ∧
    ((loadSettings store).contrast ∈ contrastLevels ∧
     (∀ v, store "accessibility-contrast" = some v → v ∉ contrastLevels →
       (loadSettings store).contrast = "default")) ∧
    ((loadSettings store).saturation ∈ saturationDomain ∧
     (∀ v, store "accessibility-saturation" = some v → v ∉ saturationDomain →
       (loadSettings store).saturation = "normal")) ∧
    ((∀ v, (loadSettings store).internalPosition = some v → v ∈ positionDomain) ∧
     (∀ v, (loadSettings store).internalTheme = some v → v ∈ themeDomain)) ∧
    ((∀ v, store "accessibility-monochrome" = some v → v ≠ "true" →
       (loadSettings store).monochrome = false) ∧
     (∀ v, store "accessibility-hide-images" = some v → v ≠ "true" →
       (loadSettings store).hideImages = false) ∧
     (∀ v, store "accessibility-highlight-titles" = some v → v ≠ "true" →
       (loadSettings store).highlightTitles = false) ∧
     (∀ v, store "accessibility-highlight-links" = some v → v ≠ "true" →
       (loadSettings store).highlightLinks = false) ∧
     (∀ v, store "accessibility-screen-reader" = some v → v ≠ "true" →
       (loadSettings store).screenReader = false)) ∧
    ((loadSettings store).fontFamily =
      (store "accessibility-font-family").getD "default" ∧
     (∀ f, f ∉ ["default", "sans-serif", "serif", "dyslexia-friendly"] →
       getFontFamilyValue [] f = "inherit")) := by
  refine ⟨⟨?_, ?_⟩, ⟨?_, ?_⟩, ⟨?_, ?_⟩, ⟨?_, ?_⟩, ⟨?_, ?_⟩, ⟨?_, ?_⟩,
    ⟨?_, ?_⟩, ⟨?_, ?_, ?_, ?_, ?_⟩, ⟨?_, ?_⟩⟩
  · simp only [loadSettings, loadTextSize, textSizeDomain]
    rcases store "accessibility-text-size" with _ | v
    · simp
    · simp only
      split
      · rename_i hv
        simp [hv]
      · simp
  · intro v hv hdom
    simp only [loadSettings, loadTextSize, hv]
    split
    · rename_i h
      exact absurd (by simpa [textSizeDomain] using h) hdom
    · rfl
  · simp only [loadSettings, loadLineHeight, lineHeightDomain]
    rcases store "accessibility-line-height" with _ | v
    · simp
    · simp only
      split
      · rename_i hv
        simp [hv]
      · simp
  · intro v hv hdom
    simp only [loadSettings, loadLineHeight, hv]
    split
    · rename_i h
      exact absurd (by simpa [lineHeightDomain] using h) hdom
    · rfl
  · simp only [loadSettings, loadLetterSpacing, spacingDomain]
    rcases store "accessibility-letter-spacing" with _ | v
    · simp
    · simp only
      split
      · rename_i hv
        simp [hv]
      · simp
  · intro v hv hdom
    simp only [loadSettings, loadLetterSpacing, hv]
    split
    · rename_i h
      exact absurd (by simpa [spacingDomain] using h) hdom
    · rfl
  · simp only [loadSettings, loadWordSpacing, spacingDomain]
    rcases store "accessibility-word-spacing" with _ | v
    · simp
    · simp only
      split
      · rename_i hv
        simp [hv]
      · simp
  · intro v hv hdom
    simp only [loadSettings, loadWordSpacing, hv]
    split
    · rename_i h
      exact absurd (by simpa [spacingDomain] using h) hdom
    · rfl
  · simp only [loadSettings, loadContrast, contrastLevels]
    rcases store "accessibility-contrast" with _ | v
    · simp
    · simp only
      split
      · rename_i hv
        simp [hv]
      · simp
  · intro v hv hdom
    simp only [loadSettings, loadContrast, hv]
    split
    · rename_i h
      exact absurd (by simpa [contrastLevels] using h) hdom
    · rfl
  · simp only [loadSettings, loadSaturation, saturationDomain]
    rcases store "accessibility-saturation" with _ | v
    · simp
    · simp only
      split
      · rename_i hv
        simp [hv]
      · simp
  · intro v hv hdom
    simp only [loadSettings, loadSaturation, hv]
    split
    · rename_i h
      exact absurd (by simpa [saturationDomain] using h) hdom
    · rfl
  · intro v hv
    simp only [loadSettings, loadPosition] at hv
    rcases h : store "accessibility-position" with _ | w
    · rw [h] at hv
      exact absurd hv (by simp)
    · rw [h] at hv
      simp only at hv
      revert hv
      split
      · rename_i hw
        intro hv
        have : w = v := by simpa using hv
        subst this
        simpa [positionDomain] using hw
      · intro hv
        exact absurd hv (by simp)
  · intro v hv
    simp only [loadSettings, loadTheme] at hv
    rcases h : store "accessibility-theme" with _ | w
    · rw [h] at hv
      exact absurd hv (by simp)
    · rw [h] at hv
      simp only at hv
      revert hv
      split
      · rename_i hw
        intro hv
        have : w = v := by simpa using hv
        subst this
        simpa [themeDomain] using hw
      · intro hv
        exact absurd hv (by simp)
  · intro v hv hne
    simp [loadSettings, loadMonochrome, hv, hne]
  · intro v hv hne
    simp [loadSettings, loadHideImages, hv, hne]
  · intro v hv hne
    simp [loadSettings, loadHighlightTitles, hv, hne]
  · intro v hv hne
    simp [loadSettings, loadHighlightLinks, hv, hne]
  · intro v hv hne
    simp [loadSettings, loadScreenReader, hv, hne]
  · simp only [loadSettings, loadFontFamily]
    rcases store "accessibility-font-family" with _ | v <;> simp
  · intro f hf
    simp only [List.mem_cons, List.not_mem_nil, or_false, not_or] at hf
    obtain ⟨h1, h2, h3, h4⟩ := hf
    simp [getFontFamilyValue, h1, h2, h3, h4]

/-- Witness for C3 at the concrete garbage store. -/
theorem loadSettings_rejects_unknown_values_witness :
    garbageStore "accessibility-text-size" = some "huge" ∧
    "huge" ∉ textSizeDomain ∧
    (loadSettings garbageStore).textSize = "default" :=
  ⟨rfl, by decide,
    (loadSettings_rejects_unknown_values garbageStore).1.2 "huge" rfl (by decide)⟩

end Panel

namespace AccessibleName

theorem firstSome_none (l : List (Option String)) :
    firstSome (none :: l) = firstSome l := by
  simp [firstSome]

theorem firstSome_some (x : String) (l : List (Option String)) :
    firstSome (some x :: l) = x := by
  simp [firstSome]

theorem nameStepAlt_eq (e : NamedElem) :
    nameStepAlt e = firstSome
      [ (if e.tag = "img" then
          some (let alt := (getAttrN e "alt").getD ""
                if alt = "" then "Image" else alt)
        else none)
      , some (jsTrim e.textContent) ] := by
  by_cases h : e.tag = "img" <;>
    simp [nameStepAlt, nameFromText, h, firstSome_none, firstSome_some]

theorem nameStepTitle_eq (e : NamedElem) :
    nameStepTitle e = firstSome
      [ (match getAttrN e "title" with
         | some t => if t = "" then none else some t
         | none => none)
      , (if e.tag = "img" then
          some (let alt := (getAttrN e "alt").getD ""
                if alt = "" then "Image" else alt)
        else none)
      , some (jsTrim e.textContent) ] := by
  rcases ht : getAttrN e "title" with _ | t
  · simpa [nameStepTitle, ht, firstSome_none] using nameStepAlt_eq e
  · by_cases h0 : t = ""
    · simpa [nameStepTitle, ht, h0, firstSome_none] using nameStepAlt_eq e
    · simp [nameStepTitle, ht, h0, firstSome_some]

theorem nameStepLabel_eq (doc : NameDoc) (e : NamedElem) :
    nameStepLabel doc e = firstSome
      [ (if e.tag = "input" ∨ e.tag = "select" ∨ e.tag = "textarea" then
          (let i := (getAttrN e "id").getD ""
           if i ≠ "" then
             (doc.labelsFor.find? (fun p => p.1 == i)).map (fun p => jsTrim p.2)
           else none)
        else none)
      , (match getAttrN e "title" with
         | some t => if t = "" then none else some t
         | none => none)
      , (if e.tag = "img" then
          some (let alt := (getAttrN e "alt").getD ""
                if alt = "" then "Image" else alt)
        else none)
      , some (jsTrim e.textContent) ] := by
  by_cases hform : e.tag = "input" ∨ e.tag = "select" ∨ e.tag = "textarea"
  · by_cases hid : (getAttrN e "id").getD "" ≠ ""
    · rcases hfind : doc.labelsFor.find? (fun p => p.1 == (getAttrN e "id").getD "")
        with _ | p
      · simpa [nameStepLabel, hform, hid, hfind, firstSome_none] using
          nameStepTitle_eq e
      · simp [nameStepLabel, hform, hid, hfind, firstSome_some]
    · simp only [ne_eq, not_not] at hid
      simpa [nameStepLabel, hform, hid, firstSome_none] using
        nameStepTitle_eq e
  · simpa [nameStepLabel, hform, firstSome_none] using nameStepTitle_eq e

theorem nameStepAriaLabel_eq (doc : NameDoc) (e : NamedElem) :
    nameStepAriaLabel doc e = firstSome
      [ (match getAttrN e "aria-label" with
         | some l => if l = "" then none else some l
         | none => none)
      , (if e.tag = "input" ∨ e.tag = "select" ∨ e.tag = "textarea" then
          (let i := (getAttrN e "id").getD ""
           if i ≠ "" then
             (doc.labelsFor.find? (fun p => p.1 == i)).map (fun p => jsTrim p.2)
           else none)
        else none)
      , (match getAttrN e "title" with
         | some t => if t = "" then none else some t
         | none => none)
      , (if e.tag = "img" then
          some (let alt := (getAttrN e "alt").getD ""
                if alt = "" then "Image" else alt)
        else none)
      , some (jsTrim e.textContent) ] := by
  rcases hl : getAttrN e "aria-label" with _ | l
  · simpa [nameStepAriaLabel, hl, firstSome_none] using nameStepLabel_eq doc e
  · by_cases h0 : l = ""
    · simpa [nameStepAriaLabel, hl, h0, firstSome_none] using
        nameStepLabel_eq doc e
    · simp [nameStepAriaLabel, hl, h0, firstSome_some]

/-- C7 amended: `getAccessibleName` equals the claimed first-non-empty priority
cascade corrected in exactly three places — a truthy `aria-labelledby` with
existing referents returns the (possibly empty) join of their trimmed texts, an
existing associated label returns its (possibly empty) trimmed text, and an
image returns `"Image"` instead of falling through when its `alt` is empty or
absent. -/
theorem getAccessibleName_eq_amended (doc : NameDoc) (e : NamedElem) :
    getAccessibleName doc e = accNameAmended doc e := by
  rcases hlb : getAttrN e "aria-labelledby" with _ | lb
  · simpa [getAccessibleName, accNameAmended, hlb, firstSome_none] using
      nameStepAriaLabel_eq doc e
  · by_cases h0 : lb = ""
    · simpa [getAccessibleName, accNameAmended, hlb, h0, firstSome_none] using
        nameStepAriaLabel_eq doc e
    · by_cases hlen : (labelledByTexts doc lb).length > 0
      · simp [getAccessibleName, accNameAmended, hlb, h0, hlen, firstSome_some]
      · simpa [getAccessibleName, accNameAmended, hlb, h0, hlen, firstSome_none]
          using nameStepAriaLabel_eq doc e

/-- C7 counterexample: on an image with no attributes and no text content, the
source computation returns `"Image"` while the claimed priority order (first
non-empty of labelledby text, aria-label, label text, title, alt, own text,
else empty) returns `""` — so the computation does not follow the claimed order
exactly. -/
theorem getAccessibleName_ne_claimed_order :
    getAccessibleName emptyNameDoc bareImg = "Image" ∧
    accNameClaim emptyNameDoc bareImg = "" ∧
    getAccessibleName emptyNameDoc bareImg ≠ accNameClaim emptyNameDoc bareImg := by
  refine ⟨rfl, rfl, by decide⟩

end AccessibleName

namespace Panel

/-- The restore mapping applied to each kept node on the disable path. -/
theorem applyHideImages_false_eq (doc : List HNode) :
    applyHideImages false doc =
      (doc.filter (fun n =>
        match n with
        | .image _ => true
        | .placeholder o _ _ _ _ => !ownerProcessed doc o)).map
        (fun n =>
          match n with
          | .image img => .image (showImage img)
          | .placeholder o t w h a => .placeholder o t w h a) := by
  simp [applyHideImages]

theorem hideImageStep_hideImageStep (n : HNode) :
    (hideImageStep n).flatMap hideImageStep = hideImageStep n := by
  cases n with
  | placeholder o t w h a => rfl
  | image img =>
    by_cases h1 : img.ariaHidden
    · simp [hideImageStep, h1]
    · by_cases h2 : img.dsOriginalDisplay.isSome
      · simp [hideImageStep, h1, h2]
      · simp [hideImageStep, h1, h2]

/-- Enabling hide-images is idempotent: re-enabling after a prior enable
processes no image again. -/
theorem applyHideImages_true_idem (doc : List HNode) :
    applyHideImages true (applyHideImages true doc) = applyHideImages true doc := by
  simp only [applyHideImages, if_pos]
  induction doc with
  | nil => rfl
  | cons n rest ih =>
    rw [List.flatMap_cons, List.flatMap_append, hideImageStep_hideImageStep, ih]

theorem ownerProcessed_false_of_unmarked (doc : List HNode)
    (h : ∀ n ∈ doc, unmarked n) (o : Nat) : ownerProcessed doc o = false := by
  rw [ownerProcessed, List.any_eq_false]
  intro n hn
  cases n with
  | placeholder _ _ _ _ _ => simp
  | image img =>
    have hu := h _ hn
    simp only [unmarked] at hu
    simp [hu.1]

/-- Disabling when nothing was enabled is a no-op. -/
theorem applyHideImages_false_noop (doc : List HNode)
    (h : ∀ n ∈ doc, unmarked n) : applyHideImages false doc = doc := by
  rw [applyHideImages_false_eq]
  have hf : doc.filter (fun n =>
      match n with
      | .image _ => true
      | .placeholder o _ _ _ _ => !ownerProcessed doc o) = doc := by
    rw [List.filter_eq_self]
    intro n hn
    cases n with
    | image img => rfl
    | placeholder o t w hh a => simp [ownerProcessed_false_of_unmarked doc h o]
  rw [hf]
  have : ∀ n ∈ doc, (fun n =>
      match n with
      | HNode.image img => HNode.image (showImage img)
      | HNode.placeholder o t w hh a => HNode.placeholder o t w hh a) n = id n := by
    intro n hn
    cases n with
    | placeholder o t w hh a => rfl
    | image img =>
      have hu := h _ hn
      simp only [unmarked] at hu
      simp [showImage, hu.1]
  rw [List.map_congr_left this, List.map_id]

/-- Every placeholder the enable path produces has a processed owner in the
produced document. -/
theorem enable_placeholder_processed (doc : List HNode)
    (hclean : ∀ n ∈ doc, isImage n = true) (o : Nat) (t : String) (w hh : Nat)
    (a : String) (hmem : HNode.placeholder o t w hh a ∈ doc.flatMap hideImageStep) :
    ownerProcessed (doc.flatMap hideImageStep) o = true := by
  rw [List.mem_flatMap] at hmem
  obtain ⟨n, hn, hin⟩ := hmem
  cases n with
  | placeholder o2 t2 w2 h2 a2 =>
    have := hclean _ hn
    simp [isImage] at this
  | image img =>
    by_cases h1 : img.ariaHidden
    · simp [hideImageStep, h1] at hin
    · by_cases h2 : img.dsOriginalDisplay.isSome
      · simp [hideImageStep, h1, h2] at hin
      · simp only [hideImageStep, h1, h2, Bool.false_eq_true, if_false,
          List.mem_cons, List.not_mem_nil, or_false] at hin
        have ho : o = img.nodeId := by
          rcases hin with hin | hin
          · exact absurd hin (by simp)
          · exact (HNode.placeholder.inj hin).1
        rw [ownerProcessed, List.any_eq_true]
        refine ⟨HNode.image { img with
          dsOriginalDisplay := some img.styleDisplay,
          dsOriginalWidth := some img.styleWidth,
          dsOriginalHeight := some img.styleHeight,
          styleDisplay := "none" }, ?_, ?_⟩
        · rw [List.mem_flatMap]
          refine ⟨HNode.image img, hn, ?_⟩
          simp [hideImageStep, h1, h2]
        · simp [ho, h1]

/-- Restoring the image part of the enable path's output yields the original
clean document. -/
theorem enable_filter_map_restore (doc : List HNode)
    (h : ∀ n ∈ doc, isImage n = true ∧ unmarked n) :
    ((doc.flatMap hideImageStep).filter isImage).map
      (fun n =>
        match n with
        | HNode.image img => HNode.image (showImage img)
        | HNode.placeholder o t w hh a => HNode.placeholder o t w hh a) = doc := by
  induction doc with
  | nil => rfl
  | cons n rest ih =>
    obtain ⟨him, hu⟩ := h n (List.mem_cons_self n rest)
    rw [List.flatMap_cons, List.filter_append, List.map_append,
      ih (fun m hm => h m (List.mem_cons_of_mem _ hm))]
    cases n with
    | placeholder o t w hh a => simp [isImage] at him
    | image img =>
      simp only [unmarked] at hu
      obtain ⟨hd, hw2, hh2⟩ := hu
      by_cases h1 : img.ariaHidden
      · simp [hideImageStep, h1, isImage, showImage]
      · cases img with
        | mk nodeId ariaHidden alt sD sW sH dsD dsW dsH rW rH iW iH oW oH =>
          simp only at hd hw2 hh2
          subst hd hw2 hh2
          simp only [Bool.not_eq_true] at h1
          simp [hideImageStep, h1, isImage, showImage]

/-- The full round trip on a clean document: disabling right after enabling
restores the document region exactly. -/
theorem applyHideImages_roundtrip (doc : List HNode) (hc : CleanHideDoc doc) :
    applyHideImages false (applyHideImages true doc) = doc := by
  have hE : applyHideImages true doc = doc.flatMap hideImageStep := by
    simp [applyHideImages]
  rw [hE, applyHideImages_false_eq]
  have hfc : (doc.flatMap hideImageStep).filter (fun n =>
      match n with
      | .image _ => true
      | .placeholder o _ _ _ _ => !ownerProcessed (doc.flatMap hideImageStep) o)
      = (doc.flatMap hideImageStep).filter isImage := by
    apply List.filter_congr
    intro n hn
    cases n with
    | image img => rfl
    | placeholder o t w hh a =>
      have hp := enable_placeholder_processed doc hc.noPlaceholders o t w hh a hn
      simp [isImage, hp]
  rw [hfc]
  exact enable_filter_map_restore doc
    (fun n hn => ⟨hc.noPlaceholders n hn, hc.unmarkedAll n hn⟩)

/-- The number of placeholders the enable path leaves for one image id is
bounded by that id's image count plus its pre-existing placeholder count. -/
theorem placeholderCount_flatMap_le (doc : List HNode) (i : Nat) :
    placeholderCount (doc.flatMap hideImageStep) i ≤
      imageCount doc i + placeholderCount doc i := by
  induction doc with
  | nil => simp [placeholderCount, imageCount]
  | cons n rest ih =>
    rw [List.flatMap_cons]
    simp only [placeholderCount, imageCount, List.countP_append,
      List.countP_cons] at ih ⊢
    cases n with
    | placeholder o t w hh a =>
      by_cases ho : (o == i) = true <;> simp [hideImageStep, ho] <;> omega
    | image img =>
      by_cases h1 : img.ariaHidden
      · simp only [hideImageStep, h1, if_pos]
        simp only [List.countP_cons, List.countP_nil]
        by_cases hn : (img.nodeId == i) = true <;> simp [hn] <;> omega
      · by_cases h2 : img.dsOriginalDisplay.isSome
        · simp only [hideImageStep, h1, h2, Bool.false_eq_true, if_false,
            if_pos]
          simp only [List.countP_cons, List.countP_nil]
          by_cases hn : (img.nodeId == i) = true <;> simp [hn] <;> omega
        · simp only [hideImageStep, h1, h2, Bool.false_eq_true, if_false]
          simp only [List.countP_cons, List.countP_nil]
          by_cases hn : (img.nodeId == i) = true <;> simp [hn] <;> omega

theorem placeholderCount_clean (doc : List HNode) (hc : CleanHideDoc doc)
    (i : Nat) : placeholderCount doc i = 0 := by
  rw [placeholderCount, List.countP_eq_zero]
  intro n hn
  have := hc.noPlaceholders n hn
  cases n with
  | image img => simp
  | placeholder o t w hh a => simp [isImage] at this

/-- C6: hide-images round trip. On the concrete fixture (an image with
`alt="Cat"` and rendered size 300×200), enabling hides the image and inserts a
single placeholder with text `"Cat"`, box 300×200 and aria-label
`"Image: Cat"` right after it, and disabling restores the original inline
styles and removes the placeholder. In general: enabling twice equals enabling
once; disabling when no image carries the processed marker is a no-op;
disabling after enabling restores a clean document exactly; and on a clean
document, enabling — also re-enabling after a prior enable, with or without an
intervening disable — leaves at most one placeholder per image. -/
theorem applyHideImages_claims :
    (applyHideImages true catDoc =
      [HNode.image catImgHidden,
       HNode.placeholder 1 "Cat" 300 200 "Image: Cat"]) ∧
    (applyHideImages false (applyHideImages true catDoc) = catDoc) ∧
    (∀ doc, applyHideImages true (applyHideImages true doc) =
      applyHideImages true doc) ∧
    (∀ doc, (∀ n ∈ doc, unmarked n) → applyHideImages false doc = doc) ∧
    (∀ doc, CleanHideDoc doc →
      applyHideImages false (applyHideImages true doc) = doc) ∧
    (∀ doc i, CleanHideDoc doc →
      placeholderCount (applyHideImages true doc) i ≤ 1 ∧
      placeholderCount (applyHideImages true (applyHideImages true doc)) i ≤ 1 ∧
      placeholderCount (applyHideImages true
        (applyHideImages false (applyHideImages true doc))) i ≤ 1) := by
  have hcount : ∀ doc i, CleanHideDoc doc →
      placeholderCount (applyHideImages true doc) i ≤ 1 := by
    intro doc i hc
    have h1 := placeholderCount_flatMap_le doc i
    have h2 := placeholderCount_clean doc hc i
    have h3 := hc.nodupIds i
    have hE : applyHideImages true doc = doc.flatMap hideImageStep := by
      simp [applyHideImages]
    rw [hE]
    omega
  refine ⟨by decide, by decide, applyHideImages_true_idem, applyHideImages_false_noop,
    applyHideImages_roundtrip, ?_⟩
  intro doc i hc
  refine ⟨hcount doc i hc, ?_, ?_⟩
  · rw [applyHideImages_true_idem]
    exact hcount doc i hc
  · rw [applyHideImages_roundtrip doc hc]
    exact hcount doc i hc

/-- Witness for C6's general conjuncts at the concrete fixture. -/
theorem applyHideImages_claims_witness :
    (∀ n ∈ catDoc, unmarked n) ∧ applyHideImages false catDoc = catDoc ∧
      placeholderCount (applyHideImages true catDoc) 1 ≤ 1 := by
  have hu : ∀ n ∈ catDoc, unmarked n := by
    intro n hn
    simp only [catDoc, List.mem_singleton] at hn
    subst hn
    exact ⟨rfl, rfl, rfl⟩
  have hc : CleanHideDoc catDoc := by
    refine ⟨hu, ?_, ?_⟩
    · intro n hn
      simp only [catDoc, List.mem_singleton] at hn
      subst hn
      rfl
    · intro i
      by_cases h : (1 == i) = true <;> simp [catDoc, imageCount, catImg, h]
  exact ⟨hu, (applyHideImages_claims.2.2.2.1) catDoc hu,
    (applyHideImages_claims.2.2.2.2.2 catDoc 1 hc).1⟩

theorem handleChange_manual (cf : List (String × String)) (st : PanelState)
    (c : SettingChange) (h1 : st.shouldApplyEffects = false)
    (h2 : st.isInitialLoad = false) :
    handleChange cf SaveMode.manual st c =
      { st with settings := settingUpdate c st.settings,
                hasUnsavedChanges := true } := by
  simp [handleChange, h1, h2]

theorem foldl_handleChange_manual (cf : List (String × String))
    (l : List SettingChange) : ∀ st : PanelState,
    st.shouldApplyEffects = false → st.isInitialLoad = false →
    (l.foldl (handleChange cf SaveMode.manual) st).settings =
        l.foldl (fun s c => settingUpdate c s) st.settings ∧
      (l.foldl (handleChange cf SaveMode.manual) st).dom = st.dom ∧
      (l.foldl (handleChange cf SaveMode.manual) st).store = st.store ∧
      (l.foldl (handleChange cf SaveMode.manual) st).shouldApplyEffects = false ∧
      (l.foldl (handleChange cf SaveMode.manual) st).isInitialLoad = false ∧
      (l.foldl (handleChange cf SaveMode.manual) st).hasUnsavedChanges =
        (st.hasUnsavedChanges || !l.isEmpty) := by
  induction l with
  | nil =>
    intro st h1 h2
    simp [h1, h2]
  | cons c rest ih =>
    intro st h1 h2
    simp only [List.foldl_cons]
    rw [handleChange_manual cf st c h1 h2]
    have := ih
      { st with
        settings := settingUpdate c st.settings
        hasUnsavedChanges := true }
      (by simpa using h1) (by simpa using h2)
    simpa using this

theorem mapStore_lookup_same (store : List (String × String)) (k v : String) :
    lookupStore (store.map (fun p => if p.1 == k then (k, v) else p)) k =
      if store.any (fun p => p.1 == k) then some v else none := by
  induction store with
  | nil => simp [lookupStore]
  | cons p rest ih =>
    by_cases hp : (p.1 == k) = true
    · have hhead : (if (p.1 == k) = true then (k, v) else p) = (k, v) := by
        simp [hp]
      simp only [lookupStore, List.map_cons, hhead, List.find?_cons,
        beq_self_eq_true, List.any_cons, hp, Bool.true_or, if_pos]
      rfl
    · have hpf : (p.1 == k) = false := by simpa using hp
      have hhead : (if (p.1 == k) = true then (k, v) else p) = p := by
        simp [hp]
      simp only [lookupStore, List.map_cons, hhead, List.find?_cons, hpf,
        List.any_cons, Bool.false_or]
      simpa [lookupStore, hpf] using ih

theorem mapStore_lookup_other (store : List (String × String)) (k v k' : String)
    (h : k' ≠ k) :
    lookupStore (store.map (fun p => if p.1 == k then (k, v) else p)) k' =
      lookupStore store k' := by
  induction store with
  | nil => simp [lookupStore]
  | cons p rest ih =>
    by_cases hp : (p.1 == k) = true
    · have hpk : p.1 = k := by simpa using hp
      have hk : (k == k') = false := by
        rw [beq_eq_false_iff_ne]
        exact Ne.symm h
      have hk2 : (p.1 == k') = false := by
        rw [hpk]
        exact hk
      have hhead : (if (p.1 == k) = true then (k, v) else p) = (k, v) := by
        simp [hp]
      simp only [lookupStore, List.map_cons, hhead, List.find?_cons, hk, hk2]
      simpa [lookupStore, hk2] using ih
    · have hhead : (if (p.1 == k) = true then (k, v) else p) = p := by
        simp [hp]
      by_cases hp2 : (p.1 == k') = true
      · simp only [lookupStore, List.map_cons, hhead, List.find?_cons, hp2]
      · have hp2f : (p.1 == k') = false := by simpa using hp2
        simp only [lookupStore, List.map_cons, hhead, List.find?_cons, hp2f]
        simpa [lookupStore, hp2f] using ih

theorem lookupStore_append_single (store : List (String × String))
    (k v k' : String) :
    lookupStore (store ++ [(k, v)]) k' =
      match lookupStore store k' with
      | some w => some w
      | none => if (k == k') = true then some v else none := by
  induction store with
  | nil => simp [lookupStore]
  | cons p rest ih =>
    by_cases hp : (p.1 == k') = true
    · simp [lookupStore, hp]
    · simpa [lookupStore, hp] using ih

theorem any_eq_lookup_isSome (store : List (String × String)) (k : String) :
    store.any (fun p => p.1 == k) = (lookupStore store k).isSome := by
  induction store with
  | nil => simp [lookupStore]
  | cons p rest ih =>
    by_cases hp : (p.1 == k) = true
    · simp [lookupStore, hp]
    · simpa [lookupStore, hp] using ih

theorem lookupStore_setStore_same (store : List (String × String))
    (k v : String) : lookupStore (setStore store k v) k = some v := by
  rw [setStore]
  by_cases h : store.any (fun p => p.1 == k) = true
  · simp only [h, if_pos]
    rw [mapStore_lookup_same, h]
    rfl
  · simp only [h, Bool.false_eq_true, if_false]
    rw [lookupStore_append_single]
    rw [any_eq_lookup_isSome] at h
    rcases hl : lookupStore store k with _ | w
    · simp
    · rw [hl] at h
      simp at h

theorem lookupStore_setStore_other (store : List (String × String))
    (k v k' : String) (h : k' ≠ k) :
    lookupStore (setStore store k v) k' = lookupStore store k' := by
  rw [setStore]
  by_cases ha : store.any (fun p => p.1 == k) = true
  · simp only [ha, if_pos]
    exact mapStore_lookup_other store k v k' h
  · simp only [ha, Bool.false_eq_true, if_false]
    rw [lookupStore_append_single]
    have hk : (k == k') = false := by
      rw [beq_eq_false_iff_ne]
      exact Ne.symm h
    rcases hl : lookupStore store k' with _ | w <;> simp [hk]

theorem lookup_persistAll (s : PanelSettings) (store : List (String × String)) :
    lookupStore (persistAll s store) "accessibility-text-size" = some s.textSize ∧
    lookupStore (persistAll s store) "accessibility-line-height" = some s.lineHeight ∧
    lookupStore (persistAll s store) "accessibility-letter-spacing" = some s.letterSpacing ∧
    lookupStore (persistAll s store) "accessibility-word-spacing" = some s.wordSpacing ∧
    lookupStore (persistAll s store) "accessibility-contrast" = some s.contrast ∧
    lookupStore (persistAll s store) "accessibility-saturation" = some s.saturation ∧
    lookupStore (persistAll s store) "accessibility-monochrome" =
      some (if s.monochrome then "true" else "false") ∧
    lookupStore (persistAll s store) "accessibility-hide-images" =
      some (if s.hideImages then "true" else "false") ∧
    lookupStore (persistAll s store) "accessibility-highlight-titles" =
      some (if s.highlightTitles then "true" else "false") ∧
    lookupStore (persistAll s store) "accessibility-highlight-links" =
      some (if s.highlightLinks then "true" else "false") ∧
    lookupStore (persistAll s store) "accessibility-font-family" = some s.fontFamily ∧
    lookupStore (persistAll s store) "accessibility-screen-reader" =
      some (if s.screenReader then "true" else "false") := by
  rw [persistAll]
  rcases s.internalPosition with _ | p <;> rcases s.internalTheme with _ | t <;>
    simp only [] <;>
    refine ⟨?_, ?_, ?_, ?_, ?_, ?_, ?_, ?_, ?_, ?_, ?_, ?_⟩ <;>
    simp [lookupStore_setStore_same, lookupStore_setStore_other]

/-- C2: in manual save mode, after the initial-load grace window, any sequence
of settings changes leaves the live DOM effect state and the persisted store
untouched and (when non-empty) sets the unsaved-changes flag; invoking the save
action applies every setting's visual effect in one pass to the pre-change DOM
state, persists every setting's value through the storage adapter, and clears
the unsaved-changes flag. -/
theorem manual_mode_defers_until_save (cf : List (String × String))
    (st : PanelState) (h1 : st.shouldApplyEffects = false)
    (h2 : st.isInitialLoad = false) (changes : List SettingChange) :
    ((changes.foldl (handleChange cf SaveMode.manual) st).dom = st.dom ∧
     (changes.foldl (handleChange cf SaveMode.manual) st).store = st.store) ∧
    (changes ≠ [] →
      (changes.foldl (handleChange cf SaveMode.manual) st).hasUnsavedChanges
        = true) ∧
    ((handleSaveSettings cf
        (changes.foldl (handleChange cf SaveMode.manual) st)).dom =
      applyAllEffects cf
        (changes.foldl (handleChange cf SaveMode.manual) st).settings st.dom) ∧
    ((handleSaveSettings cf
        (changes.foldl (handleChange cf SaveMode.manual) st)).hasUnsavedChanges
      = false) ∧
    (let st1 := changes.foldl (handleChange cf SaveMode.manual) st
     lookupStore (handleSaveSettings cf st1).store "accessibility-text-size"
          = some st1.settings.textSize ∧
      lookupStore (handleSaveSettings cf st1).store "accessibility-line-height"
          = some st1.settings.lineHeight ∧
      lookupStore (handleSaveSettings cf st1).store "accessibility-letter-spacing"
          = some st1.settings.letterSpacing ∧
      lookupStore (handleSaveSettings cf st1).store "accessibility-word-spacing"
          = some st1.settings.wordSpacing ∧
      lookupStore (handleSaveSettings cf st1).store "accessibility-contrast"
          = some st1.settings.contrast ∧
      lookupStore (handleSaveSettings cf st1).store "accessibility-saturation"
          = some st1.settings.saturation ∧
      lookupStore (handleSaveSettings cf st1).store "accessibility-monochrome"
          = some (if st1.settings.monochrome then "true" else "false") ∧
      lookupStore (handleSaveSettings cf st1).store "accessibility-hide-images"
          = some (if st1.settings.hideImages then "true" else "false") ∧
      lookupStore (handleSaveSettings cf st1).store "accessibility-highlight-titles"
          = some (if st1.settings.highlightTitles then "true" else "false") ∧
      lookupStore (handleSaveSettings cf st1).store "accessibility-highlight-links"
          = some (if st1.settings.highlightLinks then "true" else "false") ∧
      lookupStore (handleSaveSettings cf st1).store "accessibility-font-family"
          = some st1.settings.fontFamily ∧
      lookupStore (handleSaveSettings cf st1).store "accessibility-screen-reader"
          = some (if st1.settings.screenReader then "true" else "false")) := by
  have hf := foldl_handleChange_manual cf changes st h1 h2
  obtain ⟨hs, hdom, hstore, _, _, hflag⟩ := hf
  have hlp := lookup_persistAll
    (changes.foldl (handleChange cf SaveMode.manual) st).settings
    (changes.foldl (handleChange cf SaveMode.manual) st).store
  refine ⟨⟨hdom, hstore⟩, ?_, ?_, rfl, ?_⟩
  · intro hne
    rw [hflag]
    simp [List.isEmpty_iff, hne]
  · show applyAllEffects cf _ _ = _
    rw [hdom]
  · exact hlp

/-- Witness for C2 at a concrete manual-mode state and one concrete change. -/
theorem manual_mode_defers_until_save_witness :
    manualFixtureState.shouldApplyEffects = false ∧
    manualFixtureState.isInitialLoad = false ∧
    ([SettingChange.textSize "large"].foldl
      (handleChange [] SaveMode.manual) manualFixtureState).hasUnsavedChanges
      = true :=
  ⟨rfl, rfl,
    (manual_mode_defers_until_save [] manualFixtureState rfl rfl
      [SettingChange.textSize "large"]).2.1 (by decide)⟩

theorem lookup_filterOut_self (l : List (String × String)) (a : String) :
    lookupStore (l.filter (fun p => ¬p.1 == a)) a = none := by
  induction l with
  | nil => rfl
  | cons p rest ih =>
    rw [List.filter_cons]
    split
    · rename_i hcond
      have hp : (p.1 == a) = false := by
        have := of_decide_eq_true hcond
        simpa using this
      rw [lookupStore, List.find?_cons, hp]
      exact ih
    · exact ih

theorem lookup_filterOut_other (l : List (String × String)) (a b : String)
    (h : b ≠ a) :
    lookupStore (l.filter (fun p => ¬p.1 == a)) b = lookupStore l b := by
  induction l with
  | nil => rfl
  | cons p rest ih =>
    rw [List.filter_cons]
    split
    · rename_i hcond
      by_cases hpb : (p.1 == b) = true
      · rw [lookupStore, List.find?_cons, hpb, lookupStore, List.find?_cons, hpb]
      · have hpbf : (p.1 == b) = false := by simpa using hpb
        rw [lookupStore, List.find?_cons, hpbf, lookupStore, List.find?_cons,
          hpbf]
        exact ih
    · rename_i hcond
      have hp : (p.1 == a) = true := by
        by_contra hc
        exact hcond (by simpa using hc)
      have hpb : (p.1 == b) = false := by
        rw [beq_eq_false_iff_ne]
        rw [(beq_iff_eq).mp hp]
        exact Ne.symm h
      rw [ih, lookupStore, lookupStore, List.find?_cons, hpb]

end Panel

namespace ScreenReader

theorem getAttrE_eq_lookup (e : SRElem) (a : String) :
    getAttrE e a = Panel.lookupStore e.attrs a := rfl

theorem setAttrE_attrs (e : SRElem) (a v : String) :
    (setAttrE e a v).attrs = Panel.setStore e.attrs a v := by
  rw [setAttrE, Panel.setStore]
  split <;> rfl

theorem setAttrE_eid (e : SRElem) (a v : String) : (setAttrE e a v).eid = e.eid := by
  rw [setAttrE]
  split <;> rfl

theorem removeAttrE_eid (e : SRElem) (a : String) :
    (removeAttrE e a).eid = e.eid := rfl

theorem shape_setAttrE (e : SRElem) (a v : String) :
    shape (setAttrE e a v) = shape e := by
  rw [setAttrE]
  split <;> rfl

theorem shape_removeAttrE (e : SRElem) (a : String) :
    shape (removeAttrE e a) = shape e := rfl

theorem getAttrE_setAttrE_same (e : SRElem) (a v : String) :
    getAttrE (setAttrE e a v) a = some v := by
  rw [getAttrE_eq_lookup, setAttrE_attrs]
  exact Panel.lookupStore_setStore_same e.attrs a v

theorem getAttrE_setAttrE_other (e : SRElem) (a v b : String) (h : b ≠ a) :
    getAttrE (setAttrE e a v) b = getAttrE e b := by
  rw [getAttrE_eq_lookup, setAttrE_attrs]
  exact Panel.lookupStore_setStore_other e.attrs a v b h

theorem getAttrE_removeAttrE_self (e : SRElem) (a : String) :
    getAttrE (removeAttrE e a) a = none := by
  rw [getAttrE_eq_lookup]
  exact Panel.lookup_filterOut_self e.attrs a

theorem getAttrE_removeAttrE_other (e : SRElem) (a b : String) (h : b ≠ a) :
    getAttrE (removeAttrE e a) b = getAttrE e b := by
  rw [getAttrE_eq_lookup]
  exact Panel.lookup_filterOut_other e.attrs a b h

theorem find?_eid_map (l : List SRElem) (f : SRElem → SRElem)
    (hf : ∀ e, (f e).eid = e.eid) (j : Nat) :
    (l.map f).find? (fun e => e.eid == j) =
      (l.find? (fun e => e.eid == j)).map f := by
  induction l with
  | nil => rfl
  | cons e rest ih =>
    by_cases he : (e.eid == j) = true
    · rw [List.map_cons, List.find?_cons, List.find?_cons]
      rw [hf e, he]
      rfl
    · have hef : (e.eid == j) = false := by simpa using he
      rw [List.map_cons, List.find?_cons, List.find?_cons, hf e, hef]
      exact ih

theorem findElem_docSetAttr (d : SRDoc) (i : Nat) (a v : String) (j : Nat) :
    findElem (docSetAttr d i a v) j =
      (findElem d j).map (fun e => if e.eid == i then setAttrE e a v else e) := by
  rw [findElem, docSetAttr]
  exact find?_eid_map d.elems _ (fun e => by split <;> simp [setAttrE_eid]) j

theorem findElem_docRemoveAttr (d : SRDoc) (i : Nat) (a : String) (j : Nat) :
    findElem (docRemoveAttr d i a) j =
      (findElem d j).map (fun e => if e.eid == i then removeAttrE e a else e) := by
  rw [findElem, docRemoveAttr]
  exact find?_eid_map d.elems _ (fun e => by split <;> simp [removeAttrE_eid]) j

theorem elemExists_iff_findElem (d : SRDoc) (i : Nat) :
    elemExists d i = (findElem d i).isSome := by
  rw [elemExists, findElem]
  induction d.elems with
  | nil => rfl
  | cons e rest ih =>
    by_cases he : (e.eid == i) = true
    · simp [List.find?_cons, he]
    · have hef : (e.eid == i) = false := by simpa using he
      simp only [List.any_cons, hef, Bool.false_or, List.find?_cons]
      exact ih

theorem findElem_eid (d : SRDoc) (i : Nat) (e : SRElem)
    (h : findElem d i = some e) : e.eid = i := by
  have := List.find?_some h
  simpa using this

theorem docGetAttr_docSetAttr_same (d : SRDoc) (i : Nat) (a v : String)
    (hex : elemExists d i = true) :
    docGetAttr (docSetAttr d i a v) i a = some v := by
  rw [docGetAttr, findElem_docSetAttr]
  rw [elemExists_iff_findElem] at hex
  rcases hf : findElem d i with _ | e
  · rw [hf] at hex
    simp at hex
  · have hc : (e.eid == i) = true := by simp [findElem_eid d i e hf]
    show getAttrE (if e.eid == i then setAttrE e a v else e) a = some v
    rw [if_pos hc]
    exact getAttrE_setAttrE_same e a v

theorem docGetAttr_docSetAttr_other (d : SRDoc) (i : Nat) (a v : String)
    (j : Nat) (b : String) (h : j ≠ i ∨ b ≠ a) :
    docGetAttr (docSetAttr d i a v) j b = docGetAttr d j b := by
  rw [docGetAttr, findElem_docSetAttr, docGetAttr]
  rcases hf : findElem d j with _ | e
  · rfl
  · have he : e.eid = j := findElem_eid d j e hf
    show getAttrE (if e.eid == i then setAttrE e a v else e) b = getAttrE e b
    by_cases hei : (e.eid == i) = true
    · have : j = i := by
        rw [← he]
        exact (beq_iff_eq).mp hei
      rcases h with h | h
      · exact absurd this h
      · rw [if_pos hei]
        exact getAttrE_setAttrE_other e a v b h
    · rw [if_neg hei]

theorem docGetAttr_docRemoveAttr_self (d : SRDoc) (i : Nat) (a : String) :
    docGetAttr (docRemoveAttr d i a) i a = none := by
  rw [docGetAttr, findElem_docRemoveAttr]
  rcases hf : findElem d i with _ | e
  · rfl
  · have hc : (e.eid == i) = true := by simp [findElem_eid d i e hf]
    show getAttrE (if e.eid == i then removeAttrE e a else e) a = none
    rw [if_pos hc]
    exact getAttrE_removeAttrE_self e a

theorem docGetAttr_docRemoveAttr_other (d : SRDoc) (i : Nat) (a : String)
    (j : Nat) (b : String) (h : j ≠ i ∨ b ≠ a) :
    docGetAttr (docRemoveAttr d i a) j b = docGetAttr d j b := by
  rw [docGetAttr, findElem_docRemoveAttr, docGetAttr]
  rcases hf : findElem d j with _ | e
  · rfl
  · have he : e.eid = j := findElem_eid d j e hf
    show getAttrE (if e.eid == i then removeAttrE e a else e) b = getAttrE e b
    by_cases hei : (e.eid == i) = true
    · have : j = i := by
        rw [← he]
        exact (beq_iff_eq).mp hei
      rcases h with h | h
      · exact absurd this h
      · rw [if_pos hei]
        exact getAttrE_removeAttrE_other e a b h
    · rw [if_neg hei]

theorem docSetAttr_shapes (d : SRDoc) (i : Nat) (a v : String) :
    (docSetAttr d i a v).elems.map shape = d.elems.map shape := by
  rw [docSetAttr]
  simp only [List.map_map]
  apply List.map_congr_left
  intro e he
  simp only [Function.comp_apply]
  split <;> simp [shape_setAttrE]

theorem docRemoveAttr_shapes (d : SRDoc) (i : Nat) (a : String) :
    (docRemoveAttr d i a).elems.map shape = d.elems.map shape := by
  rw [docRemoveAttr]
  simp only [List.map_map]
  apply List.map_congr_left
  intro e he
  simp only [Function.comp_apply]
  split <;> simp [shape_removeAttrE]

theorem storeOriginalAttribute_elems (d : SRDoc) (i : Nat) (a : String) :
    (storeOriginalAttribute d i a).elems = d.elems := by
  rw [storeOriginalAttribute]
  split <;> rfl

theorem docGetAttr_storeOriginalAttribute (d : SRDoc) (i : Nat) (a : String)
    (j : Nat) (b : String) :
    docGetAttr (storeOriginalAttribute d i a) j b = docGetAttr d j b := by
  rw [docGetAttr, docGetAttr, findElem, findElem, storeOriginalAttribute_elems]

theorem elemExists_of_shapes (d0 d : SRDoc)
    (h : d.elems.map shape = d0.elems.map shape) (i : Nat) :
    elemExists d i = elemExists d0 i := by
  rw [elemExists, elemExists]
  have heid : d.elems.map (fun e => e.eid) = d0.elems.map (fun e => e.eid) := by
    have := congrArg (List.map (fun s : Nat × String × Option Nat ×
      List String × String => s.1)) h
    simpa [List.map_map, Function.comp, shape] using this
  have h1 : ∀ l : List SRElem, l.any (fun e => e.eid == i) =
      (l.map (fun e => e.eid)).any (fun x => x == i) := by
    intro l
    induction l with
    | nil => rfl
    | cons e rest ih => simp only [List.any_cons, List.map_cons, ih]
  rw [h1, h1, heid]

theorem elemExists_of_docGetAttr_isSome (d : SRDoc) (i : Nat) (a : String)
    (h : (docGetAttr d i a).isSome = true) : elemExists d i = true := by
  rw [elemExists_iff_findElem]
  rw [docGetAttr] at h
  rcases hf : findElem d i with _ | e
  · rw [hf] at h
    simp at h
  · simp [hf]

theorem restoreEntry_elems_shapes (d : SRDoc)
    (p : (Nat × String) × Option String) :
    (restoreEntry d p).elems.map shape = d.elems.map shape := by
  rw [restoreEntry]
  rcases p.2 with _ | v
  · exact docRemoveAttr_shapes d p.1.1 p.1.2
  · exact docSetAttr_shapes d p.1.1 p.1.2 v

theorem restore_foldl_get (l : List ((Nat × String) × Option String)) :
    ∀ d : SRDoc, (l.map (fun p => p.1)).Nodup →
    (∀ p ∈ l, p.2.isSome = true → elemExists d p.1.1 = true) →
    ∀ i a, docGetAttr (l.foldl restoreEntry d) i a =
      match l.find? (fun p => p.1 == (i, a)) with
      | some p => p.2
      | none => docGetAttr d i a := by
  induction l with
  | nil =>
    intro d hn hex i a
    rfl
  | cons p r ih =>
    intro d hn hex i a
    have hnr : (r.map (fun p => p.1)).Nodup := by
      simpa using hn.of_cons
    have hexr : ∀ q ∈ r, q.2.isSome = true →
        elemExists (restoreEntry d p) q.1.1 = true := by
      intro q hq hqs
      rw [elemExists_of_shapes d (restoreEntry d p)
        (restoreEntry_elems_shapes d p)]
      exact hex q (List.mem_cons_of_mem _ hq) hqs
    rw [List.foldl_cons, ih (restoreEntry d p) hnr hexr i a]
    by_cases hk : (p.1 == (i, a)) = true
    · have hkey : p.1 = (i, a) := (beq_iff_eq).mp hk
      have hnotin : ∀ q ∈ r, ¬(q.1 == (i, a)) = true := by
        intro q hq hbad
        have : q.1 = (i, a) := (beq_iff_eq).mp hbad
        have hmem : p.1 ∈ r.map (fun p => p.1) := by
          rw [hkey, ← this]
          exact List.mem_map_of_mem _ hq
        have := List.nodup_cons.mp hn
        exact this.1 hmem
      have hfr : r.find? (fun q => q.1 == (i, a)) = none :=
        List.find?_eq_none.mpr hnotin
      rw [hfr, List.find?_cons, hk]
      show docGetAttr (restoreEntry d p) i a = p.2
      have hre : restoreEntry d p = match p.2 with
        | some v => docSetAttr d i a v
        | none => docRemoveAttr d i a := by
        rw [restoreEntry, hkey]
      rcases hv : p.2 with _ | v
      · rw [hre, hv]
        exact docGetAttr_docRemoveAttr_self d i a
      · rw [hre, hv]
        apply docGetAttr_docSetAttr_same d i a v
        have := hex p (List.mem_cons_self _ _) (by simp [hv])
        rwa [hkey] at this
    · have hkf : (p.1 == (i, a)) = false := by simpa using hk
      rw [List.find?_cons, hkf]
      rcases hfr : r.find? (fun q => q.1 == (i, a)) with _ | q
      · rw [hfr]
        show docGetAttr (restoreEntry d p) i a = docGetAttr d i a
        have hne : p.1.1 ≠ i ∨ p.1.2 ≠ a := by
          by_contra hc
          push_neg at hc
          apply hk
          have : p.1 = (i, a) := by
            rw [Prod.ext_iff]
            exact ⟨hc.1, hc.2⟩
          simp [this]
        have hor : i ≠ p.1.1 ∨ a ≠ p.1.2 := by
          rcases hne with h | h
          · exact Or.inl (Ne.symm h)
          · exact Or.inr (Ne.symm h)
        rcases hv : p.2 with _ | v
        · have hre : restoreEntry d p = docRemoveAttr d p.1.1 p.1.2 := by
            rw [restoreEntry, hv]
          rw [hre]
          exact docGetAttr_docRemoveAttr_other d p.1.1 p.1.2 i a hor
        · have hre : restoreEntry d p = docSetAttr d p.1.1 p.1.2 v := by
            rw [restoreEntry, hv]
          rw [hre]
          exact docGetAttr_docSetAttr_other d p.1.1 p.1.2 v i a hor
      · rw [hfr]

theorem restoreOriginalAttributes_get (d0 d : SRDoc) (hI : SnapInv d0 d)
    (i : Nat) (a : String) :
    docGetAttr (restoreOriginalAttributes d) i a = docGetAttr d0 i a := by
  have hex : ∀ p ∈ d.originalAttributes, p.2.isSome = true →
      elemExists d p.1.1 = true := by
    intro p hp hps
    rw [elemExists_of_shapes d0 d hI.shapes]
    apply elemExists_of_docGetAttr_isSome d0 p.1.1 p.1.2
    rw [← hI.orig p hp]
    exact hps
  have hget : docGetAttr (restoreOriginalAttributes d) i a =
      docGetAttr (d.originalAttributes.foldl restoreEntry d) i a := rfl
  rw [hget, restore_foldl_get d.originalAttributes d hI.nodup hex i a]
  rcases hf : d.originalAttributes.find? (fun p => p.1 == (i, a)) with _ | p
  · rw [hf]
    apply hI.frame
    intro hmem
    rw [List.mem_map] at hmem
    obtain ⟨q, hq, hq2⟩ := hmem
    have := List.find?_eq_none.mp hf q hq
    apply this
    simp [hq2]
  · rw [hf]
    have hmem := List.mem_of_find?_eq_some hf
    have hpred := List.find?_some hf
    have hkey : p.1 = (i, a) := (beq_iff_eq).mp hpred
    show p.2 = docGetAttr d0 i a
    rw [hI.orig p hmem, hkey]

theorem storeOriginalAttribute_mem_keys (d : SRDoc) (i : Nat) (a : String) :
    (i, a) ∈ (storeOriginalAttribute d i a).originalAttributes.map
      (fun p => p.1) := by
  rw [storeOriginalAttribute]
  split
  · rename_i h
    rw [List.any_eq_true] at h
    obtain ⟨p, hp, hpk⟩ := h
    have : p.1 = (i, a) := (beq_iff_eq).mp hpk
    rw [← this]
    exact List.mem_map_of_mem _ hp
  · simp

theorem storeOriginalAttribute_snapInv (d0 d : SRDoc) (i : Nat) (a : String)
    (hI : SnapInv d0 d) : SnapInv d0 (storeOriginalAttribute d i a) := by
  rw [storeOriginalAttribute]
  split
  · exact hI
  · rename_i h
    have hnotin : (i, a) ∉ d.originalAttributes.map (fun p => p.1) := by
      intro hmem
      rw [List.mem_map] at hmem
      obtain ⟨q, hq, hq2⟩ := hmem
      rw [List.any_eq_true] at h
      push_neg at h
      exact absurd (by simp [hq2]) (h q hq)
    refine ⟨?_, ?_, ?_, hI.shapes⟩
    · simp only [List.map_append, List.map_cons, List.map_nil]
      rw [List.nodup_append]
      refine ⟨hI.nodup, List.nodup_singleton _, ?_⟩
      intro k hk
      simp only [List.mem_singleton]
      intro hbad
      rw [hbad] at hk
      exact hnotin hk
    · intro p hp
      rcases List.mem_append.mp hp with hp | hp
      · exact hI.orig p hp
      · simp only [List.mem_singleton] at hp
        rw [hp]
        exact hI.frame i a hnotin
    · intro j b hjb
      apply hI.frame
      intro hmem
      apply hjb
      simp only [List.map_append, List.map_cons, List.map_nil]
      exact List.mem_append.mpr (Or.inl hmem)

theorem docSetAttr_snapInv (d0 d : SRDoc) (i : Nat) (a v : String)
    (hI : SnapInv d0 d)
    (hmem : (i, a) ∈ d.originalAttributes.map (fun p => p.1)) :
    SnapInv d0 (docSetAttr d i a v) := by
  refine ⟨?_, ?_, ?_, ?_⟩
  · have : (docSetAttr d i a v).originalAttributes = d.originalAttributes := rfl
    rw [this]
    exact hI.nodup
  · have : (docSetAttr d i a v).originalAttributes = d.originalAttributes := rfl
    rw [this]
    exact hI.orig
  · intro j b hjb
    have hsnap : (docSetAttr d i a v).originalAttributes =
      d.originalAttributes := rfl
    rw [hsnap] at hjb
    rw [docGetAttr_docSetAttr_other d i a v j b]
    · exact hI.frame j b hjb
    · by_contra hc
      push_neg at hc
      rw [hc.1, hc.2] at hjb
      exact hjb hmem
  · exact (docSetAttr_shapes d i a v).trans hI.shapes

theorem enhancementWrite_snapInv (d0 d : SRDoc) (k : Nat × String) (v : String)
    (hI : SnapInv d0 d) : SnapInv d0 (enhancementWrite d k v) := by
  rw [enhancementWrite]
  apply docSetAttr_snapInv d0 _ k.1 k.2 v
    (storeOriginalAttribute_snapInv d0 d k.1 k.2 hI)
  exact storeOriginalAttribute_mem_keys d k.1 k.2

theorem foldl_enhancementWrite_snapInv (d0 : SRDoc)
    (ws : List ((Nat × String) × String)) :
    ∀ d : SRDoc, SnapInv d0 d →
      SnapInv d0 (ws.foldl (fun acc p => enhancementWrite acc p.1 p.2) d) := by
  induction ws with
  | nil => intro d hI; exact hI
  | cons w rest ih =>
    intro d hI
    rw [List.foldl_cons]
    exact ih _ (enhancementWrite_snapInv d0 d w.1 w.2 hI)

/-- C8: within one enhancement session (an empty snapshot at the start), any
sequence of store-then-set enhancement writes — in particular any number of
re-runs of the enhancement passes — records each (element, attribute) key at
most once in the snapshot, always with the value from before the first write,
and the restoration loop of `disableScreenReaderMode` returns every attribute
of every element to its value from before the first write. -/
theorem snapshot_first_write_wins (d : SRDoc)
    (ws : List ((Nat × String) × String))
    (h0 : d.originalAttributes = []) :
    (((ws.foldl (fun acc p => enhancementWrite acc p.1 p.2)
        d).originalAttributes.map (fun p => p.1)).Nodup) ∧
    (∀ p ∈ (ws.foldl (fun acc p => enhancementWrite acc p.1 p.2)
        d).originalAttributes, p.2 = docGetAttr d p.1.1 p.1.2) ∧
    (∀ i a, docGetAttr (restoreOriginalAttributes
        (ws.foldl (fun acc p => enhancementWrite acc p.1 p.2) d)) i a =
      docGetAttr d i a) := by
  have hI0 : SnapInv d d := by
    refine ⟨?_, ?_, ?_, rfl⟩
    · rw [h0]
      exact List.nodup_nil
    · intro p hp
      rw [h0] at hp
      exact absurd hp (List.not_mem_nil p)
    · intro i a _
      rfl
  have hI := foldl_enhancementWrite_snapInv d ws d hI0
  exact ⟨hI.nodup, hI.orig, fun i a => restoreOriginalAttributes_get d _ hI i a⟩

/-- Witness for C8 at a concrete document and write sequence. -/
theorem snapshot_first_write_wins_witness :
    sectionFixture.originalAttributes = [] ∧
    docGetAttr (restoreOriginalAttributes
      ([((2, "alt"), "Image"), ((2, "alt"), "twice")].foldl
        (fun acc p => enhancementWrite acc p.1 p.2) sectionFixture)) 2 "alt" =
      docGetAttr sectionFixture 2 "alt" :=
  ⟨rfl,
    (snapshot_first_write_wins sectionFixture
      [((2, "alt"), "Image"), ((2, "alt"), "twice")] rfl).2.2 2 "alt"⟩

theorem sectionHeadingId_ne_reserved (s : String) :
    ("section-heading-" ++ s) ≠ "screen-reader-focus-styles" := by
  intro h
  have h2 : ("section-heading-" ++ s).data[1]? =
      "screen-reader-focus-styles".data[1]? := by rw [h]
  rw [String.data_append, List.getElem?_append_left (by decide)] at h2
  simp at h2

theorem legendId_ne_reserved (s : String) :
    ("legend-" ++ s) ≠ "screen-reader-focus-styles" := by
  intro h
  have h2 : ("legend-" ++ s).data[0]? =
      "screen-reader-focus-styles".data[0]? := by rw [h]
  rw [String.data_append, List.getElem?_append_left (by decide)] at h2
  simp at h2

theorem docGetAttr_congr_elems (d d' : SRDoc) (h : d'.elems = d.elems)
    (i : Nat) (a : String) : docGetAttr d' i a = docGetAttr d i a := by
  rw [docGetAttr, docGetAttr, findElem, findElem, h]

theorem EngInv_congr (d0 d d' : SRDoc) (hI : EngInv d0 d)
    (he : d'.elems = d.elems)
    (hs : d'.originalAttributes = d.originalAttributes)
    (hb : d'.bodyClasses = d.bodyClasses)
    (ha : d'.bodyScreenReaderAttr = d.bodyScreenReaderAttr) :
    EngInv d0 d' := by
  refine ⟨?_, ?_, ?_, ?_, ?_, ?_, ?_, hI.nodupIds⟩
  · rw [he]
    exact hI.shapes
  · rw [hs]
    exact hI.nodup
  · rw [hs]
    exact hI.orig
  · rw [hs]
    exact hI.allowed
  · intro i a hk hid
    rw [hs] at hk
    rw [docGetAttr_congr_elems d d' he]
    exact hI.frame i a hk hid
  · intro i
    rw [docGetAttr_congr_elems d d' he]
    exact hI.ids i
  · rw [hb, ha]
    exact hI.body

theorem RolesLimited_congr (d0 d d' : SRDoc) (hR : RolesLimited d0 d)
    (he : d'.elems = d.elems) : RolesLimited d0 d' := by
  intro i
  rw [docGetAttr_congr_elems d d' he]
  exact hR i

theorem eids_of_shapes (d0 d : SRDoc)
    (h : d.elems.map shape = d0.elems.map shape) :
    d.elems.map (fun e => e.eid) = d0.elems.map (fun e => e.eid) := by
  have := congrArg (List.map (fun s : Nat × String × Option Nat ×
    List String × String => s.1)) h
  simpa [List.map_map, Function.comp, shape] using this

theorem find?_eid_self (l : List SRElem) (e : SRElem)
    (hn : (l.map (fun x => x.eid)).Nodup) (he : e ∈ l) :
    l.find? (fun x => x.eid == e.eid) = some e := by
  induction l with
  | nil => exact absurd he (List.not_mem_nil e)
  | cons x rest ih =>
    rcases List.mem_cons.mp he with he1 | he1
    · rw [he1, List.find?_cons]
      simp
    · have hx : (x.eid == e.eid) = false := by
        rw [beq_eq_false_iff_ne]
        intro hbad
        have h1 := (List.nodup_cons.mp hn).1
        apply h1
        show x.eid ∈ List.map (fun x => x.eid) rest
        rw [hbad]
        exact List.mem_map_of_mem _ he1
      rw [List.find?_cons, hx]
      exact ih (List.nodup_cons.mp hn).2 he1

theorem findElem_self (d : SRDoc) (e : SRElem)
    (hn : (d.elems.map (fun x => x.eid)).Nodup) (he : e ∈ d.elems) :
    findElem d e.eid = some e := by
  rw [findElem]
  exact find?_eid_self d.elems e hn he

theorem docGetAttr_elem (d : SRDoc) (e : SRElem)
    (hn : (d.elems.map (fun x => x.eid)).Nodup) (he : e ∈ d.elems)
    (a : String) : docGetAttr d e.eid a = getAttrE e a := by
  rw [docGetAttr, findElem_self d e hn he]

theorem shape_eq_fields (e0 e : SRElem) (h : shape e0 = shape e) :
    e0.eid = e.eid ∧ e0.tag = e.tag ∧ e0.parent = e.parent ∧
      e0.classes = e.classes ∧ e0.text = e.text := by
  rw [shape, shape] at h
  simpa [Prod.ext_iff] using h

theorem shape_mem_transfer (d0 d : SRDoc)
    (h : d.elems.map shape = d0.elems.map shape) (e : SRElem)
    (he : e ∈ d.elems) : ∃ e0 ∈ d0.elems, shape e0 = shape e := by
  have h1 : shape e ∈ d0.elems.map shape := by
    rw [← h]
    exact List.mem_map_of_mem _ he
  rcases List.mem_map.mp h1 with ⟨e0, he0, hs0⟩
  exact ⟨e0, he0, hs0⟩

theorem EngInv_nodup_cur (d0 d : SRDoc) (hI : EngInv d0 d) :
    (d.elems.map (fun e => e.eid)).Nodup := by
  rw [eids_of_shapes d0 d hI.shapes]
  exact hI.nodupIds

theorem EngInv_orig_elem (d0 d : SRDoc) (hI : EngInv d0 d) (e : SRElem)
    (he : e ∈ d.elems) :
    ∃ e0 ∈ d0.elems, findElem d0 e.eid = some e0 ∧ e0.eid = e.eid ∧
      e0.tag = e.tag ∧ e0.classes = e.classes := by
  rcases shape_mem_transfer d0 d hI.shapes e he with ⟨e0, he0, hs0⟩
  rcases shape_eq_fields e0 e hs0 with ⟨h1, h2, _, h4, _⟩
  refine ⟨e0, he0, ?_, h1, h2, h4⟩
  rw [← h1]
  exact findElem_self d0 e0 hI.nodupIds he0

theorem mem_keys_store (d : SRDoc) (i : Nat) (a : String) (k : Nat × String)
    (hk : k ∈ d.originalAttributes.map (fun p => p.1)) :
    k ∈ (storeOriginalAttribute d i a).originalAttributes.map
      (fun p => p.1) := by
  rw [storeOriginalAttribute]
  split
  · exact hk
  · simp only [List.map_append]
    exact List.mem_append.mpr (Or.inl hk)

theorem id_not_allowed : "id" ∉ allowedSnapAttrs := by decide

theorem EngInv_store (d0 d : SRDoc) (i : Nat) (a : String)
    (ha : a ∈ allowedSnapAttrs) (hI : EngInv d0 d) :
    EngInv d0 (storeOriginalAttribute d i a) := by
  have hane : a ≠ "id" := by
    intro hbad
    rw [hbad] at ha
    exact id_not_allowed ha
  rw [storeOriginalAttribute]
  split
  · exact hI
  · rename_i h
    have hnotin : (i, a) ∉ d.originalAttributes.map (fun p => p.1) := by
      intro hmem
      rw [List.mem_map] at hmem
      obtain ⟨q, hq, hq2⟩ := hmem
      rw [List.any_eq_true] at h
      push_neg at h
      exact absurd (by simp [hq2]) (h q hq)
    refine ⟨hI.shapes, ?_, ?_, ?_, ?_, hI.ids, hI.body, hI.nodupIds⟩
    · simp only [List.map_append, List.map_cons, List.map_nil]
      rw [List.nodup_append]
      refine ⟨hI.nodup, List.nodup_singleton _, ?_⟩
      intro k hk
      simp only [List.mem_singleton]
      intro hbad
      rw [hbad] at hk
      exact hnotin hk
    · intro p hp
      rcases List.mem_append.mp hp with hp | hp
      · exact hI.orig p hp
      · simp only [List.mem_singleton] at hp
        rw [hp]
        exact hI.frame i a hnotin hane
    · intro p hp
      rcases List.mem_append.mp hp with hp | hp
      · exact hI.allowed p hp
      · simp only [List.mem_singleton] at hp
        rw [hp]
        exact ha
    · intro j b hjb hbne
      apply hI.frame j b ?_ hbne
      intro hmem
      apply hjb
      simp only [List.map_append, List.map_cons, List.map_nil]
      exact List.mem_append.mpr (Or.inl hmem)

theorem EngInv_set_snapped (d0 d : SRDoc) (i : Nat) (a v : String)
    (hmem : (i, a) ∈ d.originalAttributes.map (fun p => p.1))
    (hI : EngInv d0 d) : EngInv d0 (docSetAttr d i a v) := by
  have hane : a ≠ "id" := by
    intro hbad
    rw [List.mem_map] at hmem
    obtain ⟨q, hq, hq2⟩ := hmem
    have := hI.allowed q hq
    rw [hq2, hbad] at this
    exact id_not_allowed this
  have hsnap : (docSetAttr d i a v).originalAttributes =
    d.originalAttributes := rfl
  refine ⟨(docSetAttr_shapes d i a v).trans hI.shapes, ?_, ?_, ?_, ?_, ?_, ?_,
    hI.nodupIds⟩
  · rw [hsnap]
    exact hI.nodup
  · rw [hsnap]
    exact hI.orig
  · rw [hsnap]
    exact hI.allowed
  · intro j b hjb hbne
    rw [hsnap] at hjb
    rw [docGetAttr_docSetAttr_other d i a v j b]
    · exact hI.frame j b hjb hbne
    · by_contra hc
      push_neg at hc
      rw [hc.1, hc.2] at hjb
      exact hjb hmem
  · intro j
    rw [docGetAttr_docSetAttr_other d i a v j "id" (Or.inr (Ne.symm hane))]
    exact hI.ids j
  · exact hI.body

theorem EngInv_write (d0 d : SRDoc) (i : Nat) (a v : String)
    (ha : a ∈ allowedSnapAttrs) (hI : EngInv d0 d) :
    EngInv d0 (docSetAttr (storeOriginalAttribute d i a) i a v) :=
  EngInv_set_snapped d0 _ i a v (storeOriginalAttribute_mem_keys d i a)
    (EngInv_store d0 d i a ha hI)

theorem EngInv_set_id (d0 d : SRDoc) (i : Nat) (v : String)
    (hblank : docGetAttr d0 i "id" = none ∨ docGetAttr d0 i "id" = some "")
    (hex : exemptIdB d0 i = true) (hv : v ≠ "screen-reader-focus-styles")
    (hI : EngInv d0 d) : EngInv d0 (docSetAttr d i "id" v) := by
  have hsnap : (docSetAttr d i "id" v).originalAttributes =
    d.originalAttributes := rfl
  refine ⟨(docSetAttr_shapes d i "id" v).trans hI.shapes, ?_, ?_, ?_, ?_, ?_,
    ?_, hI.nodupIds⟩
  · rw [hsnap]
    exact hI.nodup
  · rw [hsnap]
    exact hI.orig
  · rw [hsnap]
    exact hI.allowed
  · intro j b hjb hbne
    rw [hsnap] at hjb
    rw [docGetAttr_docSetAttr_other d i "id" v j b (Or.inr hbne)]
    exact hI.frame j b hjb hbne
  · intro j
    by_cases hji : j = i
    · subst hji
      by_cases hexists : elemExists d j = true
      · right
        refine ⟨hblank, hex, ?_⟩
        rw [docGetAttr_docSetAttr_same d j "id" v hexists]
        intro hbad
        exact hv (Option.some.inj hbad)
      · have hnone : findElem d j = none := by
          rw [elemExists_iff_findElem] at hexists
          rcases hf : findElem d j with _ | e
          · rfl
          · rw [hf] at hexists
            simp at hexists
        have h1 : docGetAttr (docSetAttr d j "id" v) j "id" =
            docGetAttr d j "id" := by
          rw [docGetAttr, findElem_docSetAttr, hnone, docGetAttr, hnone]
          rfl
        rw [h1]
        exact hI.ids j
    · rw [docGetAttr_docSetAttr_other d i "id" v j "id" (Or.inl hji)]
      exact hI.ids j
  · exact hI.body

theorem RolesLimited_store (d0 d : SRDoc) (i : Nat) (a : String)
    (hR : RolesLimited d0 d) : RolesLimited d0 (storeOriginalAttribute d i a) := by
  intro j
  rw [docGetAttr_storeOriginalAttribute]
  exact hR j

theorem RolesLimited_set_other (d0 d : SRDoc) (i : Nat) (a v : String)
    (ha : a ≠ "role") (hR : RolesLimited d0 d) :
    RolesLimited d0 (docSetAttr d i a v) := by
  intro j
  rw [docGetAttr_docSetAttr_other d i a v j "role" (Or.inr (Ne.symm ha))]
  exact hR j

theorem RolesLimited_set_role (d0 d : SRDoc) (i : Nat) (v : String)
    (hv : v = "img" ∨ v = "table") (hR : RolesLimited d0 d) :
    RolesLimited d0 (docSetAttr d i "role" v) := by
  intro j
  by_cases hji : j = i
  · subst hji
    by_cases hexists : elemExists d j = true
    · rw [docGetAttr_docSetAttr_same d j "role" v hexists]
      rcases hv with hv | hv
      · right
        left
        rw [hv]
      · right
        right
        rw [hv]
    · have hnone : findElem d j = none := by
        rw [elemExists_iff_findElem] at hexists
        rcases hf : findElem d j with _ | e
        · rfl
        · rw [hf] at hexists
          simp at hexists
      have h1 : docGetAttr (docSetAttr d j "role" v) j "role" =
          docGetAttr d j "role" := by
        rw [docGetAttr, findElem_docSetAttr, hnone, docGetAttr, hnone]
        rfl
      rw [h1]
      exact hR j
  · rw [docGetAttr_docSetAttr_other d i "role" v j "role" (Or.inl hji)]
    exact hR j

theorem foldl_preserves_inv {ι : Type} (P : SRDoc → Prop)
    (step : SRDoc → ι → SRDoc) (h : ∀ d i, P d → P (step d i)) :
    ∀ (l : List ι) (d : SRDoc), P d → P (l.foldl step d) := by
  intro l
  induction l with
  | nil => intro d hd; exact hd
  | cons x r ih =>
    intro d hd
    exact ih _ (h d x hd)

theorem EngInv_ite (d0 : SRDoc) (c : Prop) [Decidable c] (d1 d2 : SRDoc)
    (h1 : c → EngInv d0 d1) (h2 : ¬c → EngInv d0 d2) :
    EngInv d0 (if c then d1 else d2) := by
  split
  · exact h1 (by assumption)
  · exact h2 (by assumption)

theorem inv_ite (d0 : SRDoc) (c : Prop) [Decidable c] (d1 d2 : SRDoc)
    (h1 : c → EngInv d0 d1 ∧ RolesLimited d0 d1)
    (h2 : ¬c → EngInv d0 d2 ∧ RolesLimited d0 d2) :
    EngInv d0 (if c then d1 else d2) ∧
      RolesLimited d0 (if c then d1 else d2) := by
  split
  · exact h1 (by assumption)
  · exact h2 (by assumption)

theorem descendants_mem (d : SRDoc) (i : Nat) (e : SRElem)
    (he : e ∈ descendants d i) : e ∈ d.elems :=
  List.mem_of_mem_filter he

theorem origIdBlank (d0 d : SRDoc) (hI : EngInv d0 d) (e : SRElem)
    (he : e ∈ d.elems) (hid : (elemId e == "") = true) :
    docGetAttr d0 e.eid "id" = none ∨ docGetAttr d0 e.eid "id" = some "" := by
  have hcur : docGetAttr d e.eid "id" = getAttrE e "id" :=
    docGetAttr_elem d e (EngInv_nodup_cur d0 d hI) he "id"
  have hblank : getAttrE e "id" = none ∨ getAttrE e "id" = some "" := by
    rw [elemId] at hid
    rcases hv : getAttrE e "id" with _ | v
    · exact Or.inl rfl
    · right
      rw [hv] at hid
      have hv2 : v = "" := by simpa using hid
      rw [hv2]
  rcases hI.ids e.eid with hcase | hcase
  · rw [hcur] at hcase
    rw [← hcase]
    exact hblank
  · exact hcase.1

theorem exempt_of_tag (d0 d : SRDoc) (hI : EngInv d0 d) (e : SRElem)
    (he : e ∈ d.elems)
    (htag : (e.tag == "legend") = true ∨ headingTags.contains e.tag = true) :
    exemptIdB d0 e.eid = true := by
  rcases EngInv_orig_elem d0 d hI e he with ⟨e0, he0, hfind, _, htag0, _⟩
  rw [exemptIdB, hfind]
  show (e0.tag == "legend" || headingTags.contains e0.tag ||
    skipLooseMatch e0) = true
  rw [htag0]
  rcases htag with h | h
  · simp [h]
  · have h2 : e.tag ∈ headingTags := by simpa using h
    simp [h2]

theorem ariaImagesStep_inv (d0 : SRDoc) :
    ∀ (d : SRDoc) (i : Nat), EngInv d0 d ∧ RolesLimited d0 d →
      EngInv d0 (ariaImagesStep d i) ∧ RolesLimited d0 (ariaImagesStep d i) := by
  intro d i h
  constructor
  · exact EngInv_set_snapped d0 _ i "role" "img"
      (storeOriginalAttribute_mem_keys _ i "role")
      (EngInv_set_snapped d0 _ i "alt" "Image"
        (mem_keys_store _ i "role" _ (storeOriginalAttribute_mem_keys d i "alt"))
        (EngInv_store d0 _ i "role" (by decide)
          (EngInv_store d0 d i "alt" (by decide) h.1)))
  · exact RolesLimited_set_role d0 _ i "img" (Or.inl rfl)
      (RolesLimited_set_other d0 _ i "alt" "Image" (by decide)
        (RolesLimited_store d0 _ i "role"
          (RolesLimited_store d0 d i "alt" h.2)))

theorem ariaImages_inv (d0 d : SRDoc) (h : EngInv d0 d ∧ RolesLimited d0 d) :
    EngInv d0 (ariaImages d) ∧ RolesLimited d0 (ariaImages d) :=
  foldl_preserves_inv (fun x => EngInv d0 x ∧ RolesLimited d0 x)
    ariaImagesStep (ariaImagesStep_inv d0) _ d h

theorem ariaLinksStep_inv (d0 : SRDoc) :
    ∀ (d : SRDoc) (i : Nat), EngInv d0 d ∧ RolesLimited d0 d →
      EngInv d0 (ariaLinksStep d i) ∧ RolesLimited d0 (ariaLinksStep d i) := by
  intro d i h
  rcases hf : findElem d i with _ | link
  · rw [ariaLinksStep, hf]
    exact h
  · rw [ariaLinksStep, hf]
    exact inv_ite d0 _ _ _
      (fun _ => ⟨EngInv_write d0 d i "aria-label" _ (by decide) h.1,
        RolesLimited_set_other d0 _ i "aria-label" _ (by decide)
          (RolesLimited_store d0 d i "aria-label" h.2)⟩)
      (fun _ => h)

theorem ariaLinks_inv (d0 d : SRDoc) (h : EngInv d0 d ∧ RolesLimited d0 d) :
    EngInv d0 (ariaLinks d) ∧ RolesLimited d0 (ariaLinks d) :=
  foldl_preserves_inv (fun x => EngInv d0 x ∧ RolesLimited d0 x)
    ariaLinksStep (ariaLinksStep_inv d0) _ d h

theorem ariaButtonsStep_inv (d0 : SRDoc) :
    ∀ (d : SRDoc) (i : Nat), EngInv d0 d ∧ RolesLimited d0 d →
      EngInv d0 (ariaButtonsStep d i) ∧ RolesLimited d0 (ariaButtonsStep d i) := by
  intro d i h
  rcases hf : findElem d i with _ | button
  · rw [ariaButtonsStep, hf]
    exact h
  · rw [ariaButtonsStep, hf]
    exact inv_ite d0 _ _ _
      (fun _ => ⟨EngInv_write d0 d i "aria-label" _ (by decide) h.1,
        RolesLimited_set_other d0 _ i "aria-label" _ (by decide)
          (RolesLimited_store d0 d i "aria-label" h.2)⟩)
      (fun _ => h)

theorem ariaButtons_inv (d0 d : SRDoc) (h : EngInv d0 d ∧ RolesLimited d0 d) :
    EngInv d0 (ariaButtons d) ∧ RolesLimited d0 (ariaButtons d) :=
  foldl_preserves_inv (fun x => EngInv d0 x ∧ RolesLimited d0 x)
    ariaButtonsStep (ariaButtonsStep_inv d0) _ d h

theorem ariaNavCurrentStep_inv (d0 : SRDoc) :
    ∀ (d : SRDoc) (i : Nat), EngInv d0 d ∧ RolesLimited d0 d →
      EngInv d0 (ariaNavCurrentStep d i) ∧
        RolesLimited d0 (ariaNavCurrentStep d i) := by
  intro d i h
  constructor
  · exact EngInv_write d0 d i "aria-current" "page" (by decide) h.1
  · exact RolesLimited_set_other d0 _ i "aria-current" "page" (by decide)
      (RolesLimited_store d0 d i "aria-current" h.2)

theorem ariaNavCurrent_inv (d0 d : SRDoc)
    (h : EngInv d0 d ∧ RolesLimited d0 d) :
    EngInv d0 (ariaNavCurrent d) ∧ RolesLimited d0 (ariaNavCurrent d) :=
  foldl_preserves_inv (fun x => EngInv d0 x ∧ RolesLimited d0 x)
    ariaNavCurrentStep (ariaNavCurrentStep_inv d0) _ d h

theorem ariaInputsStep_inv (d0 : SRDoc) :
    ∀ (d : SRDoc) (i : Nat), EngInv d0 d ∧ RolesLimited d0 d →
      EngInv d0 (ariaInputsStep d i) ∧ RolesLimited d0 (ariaInputsStep d i) := by
  intro d i h
  rcases hf : findElem d i with _ | input
  · rw [ariaInputsStep, hf]
    exact h
  · rw [ariaInputsStep, hf]
    exact inv_ite d0 _ _ _
      (fun _ => h)
      (fun _ => ⟨EngInv_write d0 d i "aria-label" _ (by decide) h.1,
        RolesLimited_set_other d0 _ i "aria-label" _ (by decide)
          (RolesLimited_store d0 d i "aria-label" h.2)⟩)

theorem ariaInputs_inv (d0 d : SRDoc) (h : EngInv d0 d ∧ RolesLimited d0 d) :
    EngInv d0 (ariaInputs d) ∧ RolesLimited d0 (ariaInputs d) :=
  foldl_preserves_inv (fun x => EngInv d0 x ∧ RolesLimited d0 x)
    ariaInputsStep (ariaInputsStep_inv d0) _ d h

theorem ariaFieldsetsStep_inv (d0 : SRDoc) :
    ∀ (d : SRDoc) (i : Nat), EngInv d0 d ∧ RolesLimited d0 d →
      EngInv d0 (ariaFieldsetsStep d i) ∧
        RolesLimited d0 (ariaFieldsetsStep d i) := by
  intro d i h
  rcases hf : (descendants d i).find? (fun e => e.tag == "legend") with _ | legend
  · rw [ariaFieldsetsStep, hf]
    exact h
  · rw [ariaFieldsetsStep, hf]
    have hmem : legend ∈ d.elems :=
      descendants_mem d i legend (List.mem_of_find?_eq_some hf)
    have htag0 := List.find?_some hf
    have htag : (legend.tag == "legend") = true := htag0
    refine inv_ite d0 _ _ _ (fun hguard => ?_) (fun _ => h)
    have hbump : EngInv d0 { d with gen := d.gen + 1 } :=
      EngInv_congr d0 d _ h.1 rfl rfl rfl rfl
    have hRbump : RolesLimited d0 { d with gen := d.gen + 1 } :=
      RolesLimited_congr d0 d _ h.2 rfl
    constructor
    · exact EngInv_write d0 _ i "aria-labelledby" _ (by decide)
        (EngInv_set_id d0 _ legend.eid ("legend-" ++ toString d.gen)
          (origIdBlank d0 d h.1 legend hmem hguard)
          (exempt_of_tag d0 d h.1 legend hmem (Or.inl htag))
          (legendId_ne_reserved _) hbump)
    · exact RolesLimited_set_other d0 _ i "aria-labelledby" _ (by decide)
        (RolesLimited_store d0 _ i "aria-labelledby"
          (RolesLimited_set_other d0 _ legend.eid "id" _ (by decide) hRbump))

theorem ariaFieldsets_inv (d0 d : SRDoc) (h : EngInv d0 d ∧ RolesLimited d0 d) :
    EngInv d0 (ariaFieldsets d) ∧ RolesLimited d0 (ariaFieldsets d) :=
  foldl_preserves_inv (fun x => EngInv d0 x ∧ RolesLimited d0 x)
    ariaFieldsetsStep (ariaFieldsetsStep_inv d0) _ d h

theorem ariaTablesThStep_inv (d0 : SRDoc) :
    ∀ (d : SRDoc) (i : Nat), EngInv d0 d ∧ RolesLimited d0 d →
      EngInv d0 (ariaTablesThStep d i) ∧
        RolesLimited d0 (ariaTablesThStep d i) := by
  intro d i h
  rcases hf : findElem d i with _ | th
  · rw [ariaTablesThStep, hf]
    exact h
  · rw [ariaTablesThStep, hf]
    constructor
    · exact EngInv_write d0 d i "scope" _ (by decide) h.1
    · exact RolesLimited_set_other d0 _ i "scope" _ (by decide)
        (RolesLimited_store d0 d i "scope" h.2)

theorem ariaTablesStep_inv (d0 : SRDoc) :
    ∀ (d : SRDoc) (i : Nat), EngInv d0 d ∧ RolesLimited d0 d →
      EngInv d0 (ariaTablesStep d i) ∧ RolesLimited d0 (ariaTablesStep d i) := by
  intro d i h
  have h1 : EngInv d0 (docSetAttr (storeOriginalAttribute d i "role") i "role"
      "table") ∧ RolesLimited d0 (docSetAttr (storeOriginalAttribute d i "role")
      i "role" "table") := by
    constructor
    · exact EngInv_write d0 d i "role" "table" (by decide) h.1
    · exact RolesLimited_set_role d0 _ i "table" (Or.inr rfl)
        (RolesLimited_store d0 d i "role" h.2)
  exact foldl_preserves_inv (fun x => EngInv d0 x ∧ RolesLimited d0 x)
    ariaTablesThStep (ariaTablesThStep_inv d0) _ _ h1

theorem ariaTables_inv (d0 d : SRDoc) (h : EngInv d0 d ∧ RolesLimited d0 d) :
    EngInv d0 (ariaTables d) ∧ RolesLimited d0 (ariaTables d) :=
  foldl_preserves_inv (fun x => EngInv d0 x ∧ RolesLimited d0 x)
    ariaTablesStep (ariaTablesStep_inv d0) _ d h

theorem ariaCollapsiblesStep_inv (d0 : SRDoc) :
    ∀ (d : SRDoc) (i : Nat), EngInv d0 d ∧ RolesLimited d0 d →
      EngInv d0 (ariaCollapsiblesStep d i) ∧
        RolesLimited d0 (ariaCollapsiblesStep d i) := by
  intro d i h
  rcases hf : findElem d i with _ | e
  · rw [ariaCollapsiblesStep, hf]
    exact h
  · rw [ariaCollapsiblesStep, hf]
    exact inv_ite d0 _ _ _
      (fun _ => ⟨EngInv_write d0 d i "aria-expanded" _ (by decide) h.1,
        RolesLimited_set_other d0 _ i "aria-expanded" _ (by decide)
          (RolesLimited_store d0 d i "aria-expanded" h.2)⟩)
      (fun _ => h)

theorem ariaCollapsibles_inv (d0 d : SRDoc)
    (h : EngInv d0 d ∧ RolesLimited d0 d) :
    EngInv d0 (ariaCollapsibles d) ∧ RolesLimited d0 (ariaCollapsibles d) :=
  foldl_preserves_inv (fun x => EngInv d0 x ∧ RolesLimited d0 x)
    ariaCollapsiblesStep (ariaCollapsiblesStep_inv d0) _ d h

theorem applyEnhancedAria_inv (d0 d : SRDoc)
    (h : EngInv d0 d ∧ RolesLimited d0 d) :
    EngInv d0 (applyEnhancedAria d) ∧ RolesLimited d0 (applyEnhancedAria d) :=
  ariaCollapsibles_inv d0 _ (ariaTables_inv d0 _ (ariaFieldsets_inv d0 _
    (ariaInputs_inv d0 _ (ariaNavCurrent_inv d0 _ (ariaButtons_inv d0 _
      (ariaLinks_inv d0 _ (ariaImages_inv d0 d h)))))))

theorem role_orig_of_value (d0 d : SRDoc) (hR : RolesLimited d0 d) (i : Nat)
    (v : String) (hv1 : v ≠ "img") (hv2 : v ≠ "table")
    (h : docGetAttr d i "role" = some v) :
    docGetAttr d0 i "role" = some v := by
  rcases hR i with hc | hc | hc
  · rw [← hc, h]
  · rw [h] at hc
    exact absurd (Option.some.inj hc) hv1
  · rw [h] at hc
    exact absurd (Option.some.inj hc) hv2

theorem frame_nonallowed (d0 d : SRDoc) (hI : EngInv d0 d) (i : Nat)
    (b : String) (hb : b ∉ allowedSnapAttrs) (hbid : b ≠ "id") :
    docGetAttr d i b = docGetAttr d0 i b := by
  apply hI.frame i b ?_ hbid
  intro hmem
  rw [List.mem_map] at hmem
  obtain ⟨q, hq, hq2⟩ := hmem
  have := hI.allowed q hq
  rw [hq2] at this
  exact hb this

theorem skip_exempt (d0 d : SRDoc) (hI : EngInv d0 d) (hR : RolesLimited d0 d)
    (t : SRElem) (ht : t ∈ d.elems) (hblank : (elemId t == "") = true)
    (hpred : skipTargetMainPred t = true ∨ skipTargetNavPred t = true ∨
      skipTargetSearchPred t = true ∨ skipTargetFooterPred t = true) :
    exemptIdB d0 t.eid = true := by
  rcases EngInv_orig_elem d0 d hI t ht with ⟨e0, he0, hfind, heid, htagE, hclsE⟩
  have hid : elemId t = "" := (beq_iff_eq).mp hblank
  have hcur : ∀ a, docGetAttr d t.eid a = getAttrE t a :=
    fun a => docGetAttr_elem d t (EngInv_nodup_cur d0 d hI) ht a
  have horig : ∀ a, docGetAttr d0 t.eid a = getAttrE e0 a := by
    intro a
    rw [docGetAttr, hfind]
  have hrole : ∀ v : String, v ≠ "img" → v ≠ "table" →
      getAttrE t "role" = some v → getAttrE e0 "role" = some v := by
    intro v h1 h2 h3
    rw [← horig]
    apply role_orig_of_value d0 d hR t.eid v h1 h2
    rw [hcur]
    exact h3
  have htype : getAttrE t "type" = some "search" →
      getAttrE e0 "type" = some "search" := by
    intro h3
    rw [← horig, ← frame_nonallowed d0 d hI t.eid "type" (by decide) (by decide),
      hcur]
    exact h3
  rw [exemptIdB, hfind]
  show (e0.tag == "legend" || headingTags.contains e0.tag ||
    skipLooseMatch e0) = true
  have hloose : skipLooseMatch e0 = true := by
    rcases hpred with hp | hp | hp | hp
    · rw [skipTargetMainPred] at hp
      simp only [Bool.or_eq_true] at hp
      rcases hp with ((((h1 | h1) | h1) | h1) | h1)
      · have h2 : e0.tag = "main" := by
          rw [htagE]
          exact (beq_iff_eq).mp h1
        simp [skipLooseMatch, h2]
      · have h2 : getAttrE e0 "role" = some "main" :=
          hrole "main" (by decide) (by decide) ((beq_iff_eq).mp h1)
        simp [skipLooseMatch, h2]
      · rw [hid] at h1
        exact absurd h1 (by decide)
      · rw [hid] at h1
        exact absurd h1 (by decide)
      · have h2 : "main-content" ∈ e0.classes := by
          rw [hclsE]
          simpa using h1
        simp [skipLooseMatch, h2]
    · rw [skipTargetNavPred] at hp
      simp only [Bool.or_eq_true] at hp
      rcases hp with ((((h1 | h1) | h1) | h1) | h1)
      · have h2 : e0.tag = "nav" := by
          rw [htagE]
          exact (beq_iff_eq).mp h1
        simp [skipLooseMatch, h2]
      · have h2 : getAttrE e0 "role" = some "navigation" :=
          hrole "navigation" (by decide) (by decide) ((beq_iff_eq).mp h1)
        simp [skipLooseMatch, h2]
      · rw [hid] at h1
        exact absurd h1 (by decide)
      · rw [hid] at h1
        exact absurd h1 (by decide)
      · have h2 : "navigation" ∈ e0.classes := by
          rw [hclsE]
          simpa using h1
        simp [skipLooseMatch, h2]
    · rw [skipTargetSearchPred] at hp
      simp only [Bool.or_eq_true] at hp
      rcases hp with (((h1 | h1) | h1) | h1)
      · have h2 : getAttrE e0 "role" = some "search" :=
          hrole "search" (by decide) (by decide) ((beq_iff_eq).mp h1)
        simp [skipLooseMatch, h2]
      · rw [hid] at h1
        exact absurd h1 (by decide)
      · have h2 : "search-form" ∈ e0.classes := by
          rw [hclsE]
          simpa using h1
        simp [skipLooseMatch, h2]
      · rw [Bool.and_eq_true] at h1
        have h2 : e0.tag = "input" := by
          rw [htagE]
          exact (beq_iff_eq).mp h1.1
        have h3 : getAttrE e0 "type" = some "search" :=
          htype ((beq_iff_eq).mp h1.2)
        simp [skipLooseMatch, h2, h3]
    · rw [skipTargetFooterPred] at hp
      simp only [Bool.or_eq_true] at hp
      rcases hp with (((h1 | h1) | h1) | h1)
      · have h2 : e0.tag = "footer" := by
          rw [htagE]
          exact (beq_iff_eq).mp h1
        simp [skipLooseMatch, h2]
      · have h2 : getAttrE e0 "role" = some "contentinfo" :=
          hrole "contentinfo" (by decide) (by decide) ((beq_iff_eq).mp h1)
        simp [skipLooseMatch, h2]
      · rw [hid] at h1
        exact absurd h1 (by decide)
      · have h2 : "footer" ∈ e0.classes := by
          rw [hclsE]
          simpa using h1
        simp [skipLooseMatch, h2]
  simp [hloose]

theorem processSkipTarget_eq (pred : SRElem → Bool) (fixedId label : String)
    (acc : SRDoc × List String) :
    processSkipTarget pred fixedId label acc =
      match acc.1.elems.find? pred with
      | none => (acc.1, acc.2)
      | some t =>
        ((if (docGetAttr (if elemId t == "" then
              docSetAttr acc.1 t.eid "id" fixedId else acc.1) t.eid
              "tabindex").isNone then
            docSetAttr (storeOriginalAttribute (if elemId t == "" then
              docSetAttr acc.1 t.eid "id" fixedId else acc.1) t.eid "tabindex")
              t.eid "tabindex" "-1"
          else (if elemId t == "" then docSetAttr acc.1 t.eid "id" fixedId
            else acc.1)), acc.2 ++ [label]) := rfl

theorem processSkipTarget_inv (d0 : SRDoc) (pred : SRElem → Bool)
    (fixedId label : String) (hfid : fixedId ≠ "screen-reader-focus-styles")
    (hpredOK : ∀ (d : SRDoc) (t : SRElem), EngInv d0 d → RolesLimited d0 d →
      t ∈ d.elems → (elemId t == "") = true → pred t = true →
      exemptIdB d0 t.eid = true)
    (acc : SRDoc × List String)
    (h : EngInv d0 acc.1 ∧ RolesLimited d0 acc.1) :
    EngInv d0 (processSkipTarget pred fixedId label acc).1 ∧
      RolesLimited d0 (processSkipTarget pred fixedId label acc).1 := by
  rcases hf : acc.1.elems.find? pred with _ | t
  · rw [processSkipTarget_eq, hf]
    exact h
  · rw [processSkipTarget_eq, hf]
    have hmem : t ∈ acc.1.elems := List.mem_of_find?_eq_some hf
    have hpt : pred t = true := List.find?_some hf
    have h1 : EngInv d0 (if elemId t == "" then
        docSetAttr acc.1 t.eid "id" fixedId else acc.1) ∧
        RolesLimited d0 (if elemId t == "" then
        docSetAttr acc.1 t.eid "id" fixedId else acc.1) :=
      inv_ite d0 _ _ _
        (fun hg => ⟨EngInv_set_id d0 acc.1 t.eid fixedId
            (origIdBlank d0 acc.1 h.1 t hmem hg)
            (hpredOK acc.1 t h.1 h.2 hmem hg hpt) hfid h.1,
          RolesLimited_set_other d0 acc.1 t.eid "id" fixedId (by decide) h.2⟩)
        (fun _ => h)
    exact inv_ite d0 _ _ _
      (fun _ => ⟨EngInv_write d0 _ t.eid "tabindex" "-1" (by decide) h1.1,
        RolesLimited_set_other d0 _ t.eid "tabindex" "-1" (by decide)
          (RolesLimited_store d0 _ t.eid "tabindex" h1.2)⟩)
      (fun _ => h1)

theorem addSkipLinkStyles_inv (d0 x : SRDoc)
    (h : EngInv d0 x ∧ RolesLimited d0 x) :
    EngInv d0 (addSkipLinkStyles x) ∧ RolesLimited d0 (addSkipLinkStyles x) := by
  rw [addSkipLinkStyles]
  split
  · exact h
  · exact ⟨EngInv_congr d0 x _ h.1 rfl rfl rfl rfl,
      RolesLimited_congr d0 x _ h.2 rfl⟩

theorem createSkipLinks_inv (d0 d : SRDoc)
    (h : EngInv d0 d ∧ RolesLimited d0 d) :
    EngInv d0 (createSkipLinks d) ∧ RolesLimited d0 (createSkipLinks d) := by
  rw [createSkipLinks]
  split
  · exact h
  · have h1 := processSkipTarget_inv d0 skipTargetMainPred "main-content"
      "Skip to main content" (by decide)
      (fun d' t hI hR hm hg hp => skip_exempt d0 d' hI hR t hm hg (Or.inl hp))
      (d, []) h
    have h2 := processSkipTarget_inv d0 skipTargetNavPred "main-navigation"
      "Skip to navigation" (by decide)
      (fun d' t hI hR hm hg hp =>
        skip_exempt d0 d' hI hR t hm hg (Or.inr (Or.inl hp)))
      _ h1
    have h3 := processSkipTarget_inv d0 skipTargetSearchPred "search"
      "Skip to search" (by decide)
      (fun d' t hI hR hm hg hp =>
        skip_exempt d0 d' hI hR t hm hg (Or.inr (Or.inr (Or.inl hp))))
      _ h2
    have h4 := processSkipTarget_inv d0 skipTargetFooterPred "footer"
      "Skip to footer" (by decide)
      (fun d' t hI hR hm hg hp =>
        skip_exempt d0 d' hI hR t hm hg (Or.inr (Or.inr (Or.inr hp))))
      _ h3
    exact inv_ite d0 _ _ _
      (fun _ => addSkipLinkStyles_inv d0 _
        ⟨EngInv_congr d0 _ _ h4.1 rfl rfl rfl rfl,
          RolesLimited_congr d0 _ _ h4.2 rfl⟩)
      (fun _ => h4)

theorem landmarkMain_inv (d0 d : SRDoc) (hI : EngInv d0 d) :
    EngInv d0 (landmarkMain d) := by
  rcases hf : d.elems.find? (fun e =>
    e.tag == "main" && (getAttrE e "role").isNone) with _ | m
  · rw [landmarkMain, hf]
    exact hI
  · rw [landmarkMain, hf]
    exact EngInv_write d0 d m.eid "role" "main" (by decide) hI

theorem landmarkNavsStep_inv (d0 : SRDoc) :
    ∀ (d : SRDoc) (p : Nat × Nat), EngInv d0 d →
      EngInv d0 (landmarkNavsStep d p) := by
  intro d p hI
  have h3 : EngInv d0 (docSetAttr (storeOriginalAttribute
      (storeOriginalAttribute d p.2 "role") p.2 "aria-label") p.2 "role"
      "navigation") :=
    EngInv_set_snapped d0 _ p.2 "role" "navigation"
      (mem_keys_store _ p.2 "aria-label" _
        (storeOriginalAttribute_mem_keys d p.2 "role"))
      (EngInv_store d0 _ p.2 "aria-label" (by decide)
        (EngInv_store d0 d p.2 "role" (by decide) hI))
  exact EngInv_ite d0 _ _ _
    (fun _ => EngInv_set_snapped d0 _ p.2 "aria-label" _
      (storeOriginalAttribute_mem_keys _ p.2 "aria-label") h3)
    (fun _ => h3)

theorem landmarkNavs_inv (d0 d : SRDoc) (hI : EngInv d0 d) :
    EngInv d0 (landmarkNavs d) :=
  foldl_preserves_inv (fun x => EngInv d0 x) landmarkNavsStep
    (landmarkNavsStep_inv d0) _ d hI

theorem landmarkHeader_inv (d0 d : SRDoc) (hI : EngInv d0 d) :
    EngInv d0 (landmarkHeader d) := by
  rcases hf : d.elems.find? (fun e =>
    e.tag == "header" && (getAttrE e "role").isNone) with _ | m
  · rw [landmarkHeader, hf]
    exact hI
  · rw [landmarkHeader, hf]
    exact EngInv_write d0 d m.eid "role" "banner" (by decide) hI

theorem landmarkFooter_inv (d0 d : SRDoc) (hI : EngInv d0 d) :
    EngInv d0 (landmarkFooter d) := by
  rcases hf : d.elems.find? (fun e =>
    e.tag == "footer" && (getAttrE e "role").isNone) with _ | m
  · rw [landmarkFooter, hf]
    exact hI
  · rw [landmarkFooter, hf]
    exact EngInv_write d0 d m.eid "role" "contentinfo" (by decide) hI

theorem landmarkAsidesStep_inv (d0 : SRDoc) :
    ∀ (d : SRDoc) (p : Nat × Nat), EngInv d0 d →
      EngInv d0 (landmarkAsidesStep d p) := by
  intro d p hI
  have h3 : EngInv d0 (docSetAttr (storeOriginalAttribute
      (storeOriginalAttribute d p.2 "role") p.2 "aria-label") p.2 "role"
      "complementary") :=
    EngInv_set_snapped d0 _ p.2 "role" "complementary"
      (mem_keys_store _ p.2 "aria-label" _
        (storeOriginalAttribute_mem_keys d p.2 "role"))
      (EngInv_store d0 _ p.2 "aria-label" (by decide)
        (EngInv_store d0 d p.2 "role" (by decide) hI))
  exact EngInv_ite d0 _ _ _
    (fun _ => EngInv_set_snapped d0 _ p.2 "aria-label" _
      (storeOriginalAttribute_mem_keys _ p.2 "aria-label") h3)
    (fun _ => h3)

theorem landmarkAsides_inv (d0 d : SRDoc) (hI : EngInv d0 d) :
    EngInv d0 (landmarkAsides d) :=
  foldl_preserves_inv (fun x => EngInv d0 x) landmarkAsidesStep
    (landmarkAsidesStep_inv d0) _ d hI

theorem landmarkSearchFormsStep_inv (d0 : SRDoc) :
    ∀ (d : SRDoc) (i : Nat), EngInv d0 d →
      EngInv d0 (landmarkSearchFormsStep d i) := by
  intro d i hI
  exact EngInv_ite d0 _ _ _
    (fun _ => EngInv_write d0 d i "role" "search" (by decide) hI)
    (fun _ => hI)

theorem landmarkSearchForms_inv (d0 d : SRDoc) (hI : EngInv d0 d) :
    EngInv d0 (landmarkSearchForms d) :=
  foldl_preserves_inv (fun x => EngInv d0 x) landmarkSearchFormsStep
    (landmarkSearchFormsStep_inv d0) _ d hI

theorem landmarkSectionsStep_inv (d0 : SRDoc) :
    ∀ (d : SRDoc) (i : Nat), EngInv d0 d →
      EngInv d0 (landmarkSectionsStep d i) := by
  intro d i hI
  rcases hf : (descendants d i).find? (fun e =>
    headingTags.contains e.tag) with _ | hh
  · rw [landmarkSectionsStep, hf]
    exact hI
  · rw [landmarkSectionsStep, hf]
    have hmem : hh ∈ d.elems :=
      descendants_mem d i hh (List.mem_of_find?_eq_some hf)
    have htag0 := List.find?_some hf
    have htag : headingTags.contains hh.tag = true := htag0
    refine EngInv_ite d0 _ _ _ (fun hg => ?_) (fun _ => ?_)
    · exact EngInv_write d0 _ i "aria-labelledby" _ (by decide)
        (EngInv_set_id d0 _ hh.eid ("section-heading-" ++ toString d.gen)
          (origIdBlank d0 d hI hh hmem hg)
          (exempt_of_tag d0 d hI hh hmem (Or.inr htag))
          (sectionHeadingId_ne_reserved _)
          (EngInv_congr d0 d _ hI rfl rfl rfl rfl))
    · exact EngInv_write d0 d i "aria-labelledby" _ (by decide) hI

theorem landmarkSections_inv (d0 d : SRDoc) (hI : EngInv d0 d) :
    EngInv d0 (landmarkSections d) :=
  foldl_preserves_inv (fun x => EngInv d0 x) landmarkSectionsStep
    (landmarkSectionsStep_inv d0) _ d hI

theorem applyLandmarkRoles_inv (d0 d : SRDoc) (hI : EngInv d0 d) :
    EngInv d0 (applyLandmarkRoles d) :=
  landmarkSections_inv d0 _ (landmarkSearchForms_inv d0 _
    (landmarkAsides_inv d0 _ (landmarkFooter_inv d0 _ (landmarkHeader_inv d0 _
      (landmarkNavs_inv d0 _ (landmarkMain_inv d0 d hI))))))

theorem applyEnhancedFocus_inv (d0 d : SRDoc)
    (h : EngInv d0 d ∧ RolesLimited d0 d) :
    EngInv d0 (applyEnhancedFocus d) ∧ RolesLimited d0 (applyEnhancedFocus d) := by
  rw [applyEnhancedFocus]
  split
  · exact h
  · exact ⟨EngInv_congr d0 d _ h.1 rfl rfl rfl rfl,
      RolesLimited_congr d0 d _ h.2 rfl⟩

theorem createGlobalLiveRegion_inv (d0 d : SRDoc) (hI : EngInv d0 d) :
    EngInv d0 (createGlobalLiveRegion d) := by
  rw [createGlobalLiveRegion]
  split
  · exact hI
  · exact EngInv_congr d0 d _ hI rfl rfl rfl rfl

theorem announceSideEffect_inv (d0 d : SRDoc) (hI : EngInv d0 d) :
    EngInv d0 (announceSideEffect d) :=
  EngInv_congr d0 d _ hI rfl rfl rfl rfl

theorem enable_EngInv (config : ScreenReaderConfig) (d0 : SRDoc)
    (hF : FreshDoc d0) : EngInv d0 (enableScreenReaderMode config d0) := by
  have hbase : EngInv d0 { d0 with
      bodyClasses := addClass d0.bodyClasses "screen-reader-mode",
      bodyScreenReaderAttr := true } ∧ RolesLimited d0 { d0 with
      bodyClasses := addClass d0.bodyClasses "screen-reader-mode",
      bodyScreenReaderAttr := true } := by
    constructor
    · refine ⟨rfl, ?_, ?_, ?_, ?_, ?_, ⟨rfl, rfl⟩, hF.nodupIds⟩
      · show (d0.originalAttributes.map (fun p => p.1)).Nodup
        rw [hF.snapshotEmpty]
        exact List.nodup_nil
      · intro p hp
        have hp2 : p ∈ d0.originalAttributes := hp
        rw [hF.snapshotEmpty] at hp2
        exact absurd hp2 (List.not_mem_nil p)
      · intro p hp
        have hp2 : p ∈ d0.originalAttributes := hp
        rw [hF.snapshotEmpty] at hp2
        exact absurd hp2 (List.not_mem_nil p)
      · intro i a _ _
        rfl
      · intro i
        exact Or.inl rfl
    · intro i
      exact Or.inl rfl
  have h1 := inv_ite d0 (config.enhancedAria = true) _ _
    (fun _ => applyEnhancedAria_inv d0 _ hbase) (fun _ => hbase)
  have h2 := inv_ite d0 (config.skipLinks = true) _ _
    (fun _ => createSkipLinks_inv d0 _ h1) (fun _ => h1)
  have h3 := inv_ite d0 (config.enhancedFocus = true) _ _
    (fun _ => applyEnhancedFocus_inv d0 _ h2) (fun _ => h2)
  have h4 := EngInv_ite d0 (config.landmarkRoles = true) _ _
    (fun _ => applyLandmarkRoles_inv d0 _ h3.1) (fun _ => h3.1)
  have h5 := EngInv_ite d0 (config.liveRegions = true) _ _
    (fun _ => createGlobalLiveRegion_inv d0 _ h4) (fun _ => h4)
  exact announceSideEffect_inv d0 _ h5

theorem restore_foldl_shapes (l : List ((Nat × String) × Option String)) :
    ∀ d : SRDoc,
      ((l.foldl restoreEntry d).elems).map shape = d.elems.map shape := by
  induction l with
  | nil => intro d; rfl
  | cons p r ih =>
    intro d
    rw [List.foldl_cons, ih (restoreEntry d p), restoreEntry_elems_shapes]

theorem restore_foldl_body (l : List ((Nat × String) × Option String)) :
    ∀ d : SRDoc, (l.foldl restoreEntry d).bodyClasses = d.bodyClasses ∧
      (l.foldl restoreEntry d).bodyScreenReaderAttr = d.bodyScreenReaderAttr := by
  induction l with
  | nil => intro d; exact ⟨rfl, rfl⟩
  | cons p r ih =>
    intro d
    rw [List.foldl_cons]
    refine ⟨((ih (restoreEntry d p)).1).trans ?_,
      ((ih (restoreEntry d p)).2).trans ?_⟩
    · rcases hv : p.2 with _ | v
      · rw [restoreEntry, hv]
        rfl
      · rw [restoreEntry, hv]
        rfl
    · rcases hv : p.2 with _ | v
      · rw [restoreEntry, hv]
        rfl
      · rw [restoreEntry, hv]
        rfl

theorem removeClass_addClass (l : List String) (c : String)
    (h : l.contains c = false) : removeClass (addClass l c) c = l := by
  have hcm : c ∉ l := by
    intro hmem
    rw [← List.elem_iff] at hmem
    have h2 : List.elem c l = false := h
    rw [hmem] at h2
    exact Bool.noConfusion h2
  have hcond : ¬ (l.contains c = true) := by
    intro hc
    rw [h] at hc
    exact Bool.noConfusion hc
  rw [addClass, if_neg hcond, removeClass, List.filter_append]
  have h1 : l.filter (fun x => ¬x == c) = l := by
    apply List.filter_eq_self.mpr
    intro x hx
    have hxc : (x == c) = false := by
      rw [beq_eq_false_iff_ne]
      intro hbad
      rw [hbad] at hx
      exact hcm hx
    simp [hxc]
  rw [h1]
  have h2 : [c].filter (fun x => ¬x == c) = [] := by simp
  rw [h2, List.append_nil]

theorem removeFirstById_noop (l : List SRElem) (s : String)
    (h : ∀ e ∈ l, (elemId e == s) = false) : removeFirstById l s = l := by
  induction l with
  | nil => rfl
  | cons e r ih =>
    have he : (elemId e == s) = false := h e (List.mem_cons_self e r)
    show (if elemId e == s then r else e :: removeFirstById r s) = e :: r
    rw [if_neg (by simp [he])]
    rw [ih (fun x hx => h x (List.mem_cons_of_mem e hx))]

theorem snap_find_id_none (snap : List ((Nat × String) × Option String))
    (hall : ∀ p ∈ snap, p.1.2 ∈ allowedSnapAttrs) (i : Nat) :
    snap.find? (fun p => p.1 == (i, "id")) = none := by
  apply List.find?_eq_none.mpr
  intro q hq hbad
  have hk : q.1 = (i, "id") := (beq_iff_eq).mp hbad
  have h2 := hall q hq
  rw [hk] at h2
  exact id_not_allowed h2

theorem fresh_id_not_reserved (d0 : SRDoc) (hF : FreshDoc d0) (j : Nat) :
    docGetAttr d0 j "id" ≠ some "screen-reader-focus-styles" := by
  intro hbad
  rcases hf : findElem d0 j with _ | e0
  · rw [docGetAttr, hf] at hbad
    exact Option.noConfusion hbad
  · rw [docGetAttr, hf] at hbad
    have hb2 : getAttrE e0 "id" = some "screen-reader-focus-styles" := hbad
    rw [findElem] at hf
    have hmem : e0 ∈ d0.elems := List.mem_of_find?_eq_some hf
    apply hF.noReservedId e0 hmem
    rw [elemId, hb2]
    rfl

theorem getD_ne_reserved (o : Option String)
    (h : o ≠ some "screen-reader-focus-styles") :
    o.getD "" ≠ "screen-reader-focus-styles" := by
  rcases o with _ | v
  · decide
  · intro hb
    apply h
    have : v = "screen-reader-focus-styles" := hb
    rw [this]

theorem disable_restores (d0 d1 : SRDoc) (hF : FreshDoc d0)
    (hI : EngInv d0 d1) :
    (∀ i a, a ≠ "id" →
      docGetAttr (disableScreenReaderMode d1) i a = docGetAttr d0 i a) ∧
    (∀ i, docGetAttr (disableScreenReaderMode d1) i "id" =
        docGetAttr d0 i "id" ∨
      ((docGetAttr d0 i "id" = none ∨ docGetAttr d0 i "id" = some "") ∧
        exemptIdB d0 i = true ∧
        docGetAttr (disableScreenReaderMode d1) i "id" ≠
          some "screen-reader-focus-styles")) ∧
    (disableScreenReaderMode d1).elems.map shape = d0.elems.map shape ∧
    (disableScreenReaderMode d1).bodyClasses = d0.bodyClasses ∧
    (disableScreenReaderMode d1).bodyScreenReaderAttr = false ∧
    (disableScreenReaderMode d1).createdElements = [] ∧
    (disableScreenReaderMode d1).originalAttributes = [] ∧
    (disableScreenReaderMode d1).announcerPresent = true := by
  have hexA : ∀ p ∈ d1.originalAttributes, p.2.isSome = true →
      elemExists { d1 with
        bodyClasses := removeClass d1.bodyClasses "screen-reader-mode",
        bodyScreenReaderAttr := false } p.1.1 = true := by
    intro p hp hps
    have hor := hI.orig p hp
    have hsome : (docGetAttr d0 p.1.1 p.1.2).isSome = true := by
      rw [← hor]
      exact hps
    have hex0 := elemExists_of_docGetAttr_isSome d0 p.1.1 p.1.2 hsome
    show elemExists d1 p.1.1 = true
    rw [elemExists_of_shapes d0 d1 hI.shapes p.1.1]
    exact hex0
  have hres := restore_foldl_get d1.originalAttributes { d1 with
    bodyClasses := removeClass d1.bodyClasses "screen-reader-mode",
    bodyScreenReaderAttr := false } hI.nodup hexA
  have hshapesF : ((d1.originalAttributes.foldl restoreEntry { d1 with
      bodyClasses := removeClass d1.bodyClasses "screen-reader-mode",
      bodyScreenReaderAttr := false }).elems).map shape =
      d0.elems.map shape := by
    have h1 := restore_foldl_shapes d1.originalAttributes { d1 with
      bodyClasses := removeClass d1.bodyClasses "screen-reader-mode",
      bodyScreenReaderAttr := false }
    exact h1.trans hI.shapes
  have hnodupF : ((d1.originalAttributes.foldl restoreEntry { d1 with
      bodyClasses := removeClass d1.bodyClasses "screen-reader-mode",
      bodyScreenReaderAttr := false }).elems.map (fun e => e.eid)).Nodup := by
    rw [eids_of_shapes d0 _ hshapesF]
    exact hF.nodupIds
  have hidvalF : ∀ i, docGetAttr (d1.originalAttributes.foldl restoreEntry
      { d1 with
        bodyClasses := removeClass d1.bodyClasses "screen-reader-mode",
        bodyScreenReaderAttr := false }) i "id" = docGetAttr d1 i "id" := by
    intro i
    rw [hres i "id", snap_find_id_none d1.originalAttributes hI.allowed i]
    rfl
  have hno : ∀ e ∈ (d1.originalAttributes.foldl restoreEntry { d1 with
      bodyClasses := removeClass d1.bodyClasses "screen-reader-mode",
      bodyScreenReaderAttr := false }).elems,
      (elemId e == "screen-reader-focus-styles") = false := by
    intro e he
    rw [beq_eq_false_iff_ne]
    have hval : getAttrE e "id" = docGetAttr d1 e.eid "id" :=
      (docGetAttr_elem _ e hnodupF he "id").symm.trans (hidvalF e.eid)
    have hne : docGetAttr d1 e.eid "id" ≠ some "screen-reader-focus-styles" := by
      rcases hI.ids e.eid with hc | hc
      · rw [hc]
        exact fresh_id_not_reserved d0 hF e.eid
      · exact hc.2.2
    rw [elemId, hval]
    exact getD_ne_reserved _ hne
  have helems : (disableScreenReaderMode d1).elems =
      (d1.originalAttributes.foldl restoreEntry { d1 with
        bodyClasses := removeClass d1.bodyClasses "screen-reader-mode",
        bodyScreenReaderAttr := false }).elems := by
    show removeFirstById (d1.originalAttributes.foldl restoreEntry { d1 with
      bodyClasses := removeClass d1.bodyClasses "screen-reader-mode",
      bodyScreenReaderAttr := false }).elems "screen-reader-focus-styles" =
      (d1.originalAttributes.foldl restoreEntry { d1 with
        bodyClasses := removeClass d1.bodyClasses "screen-reader-mode",
        bodyScreenReaderAttr := false }).elems
    exact removeFirstById_noop _ _ hno
  have hgetdis : ∀ i a, docGetAttr (disableScreenReaderMode d1) i a =
      docGetAttr (d1.originalAttributes.foldl restoreEntry { d1 with
        bodyClasses := removeClass d1.bodyClasses "screen-reader-mode",
        bodyScreenReaderAttr := false }) i a :=
    fun i a => docGetAttr_congr_elems _ _ helems i a
  refine ⟨?_, ?_, ?_, ?_, ?_, rfl, rfl, rfl⟩
  · intro i a hna
    rw [hgetdis i a, hres i a]
    rcases hfq : d1.originalAttributes.find? (fun p => p.1 == (i, a)) with _ | q
    · rw [hfq]
      show docGetAttr d1 i a = docGetAttr d0 i a
      apply hI.frame i a ?_ hna
      intro hmem
      rw [List.mem_map] at hmem
      obtain ⟨q, hq, hq2⟩ := hmem
      have := List.find?_eq_none.mp hfq q hq
      exact this (by simp [hq2])
    · rw [hfq]
      show q.2 = docGetAttr d0 i a
      have hqm := List.mem_of_find?_eq_some hfq
      have hqp := List.find?_some hfq
      have hqk : q.1 = (i, a) := (beq_iff_eq).mp hqp
      rw [hI.orig q hqm, hqk]
  · intro i
    rw [hgetdis i "id", hidvalF i]
    rcases hI.ids i with hc | hc
    · exact Or.inl hc
    · exact Or.inr ⟨hc.1, hc.2.1, hc.2.2⟩
  · rw [helems]
    exact hshapesF
  · have hb1 : (disableScreenReaderMode d1).bodyClasses =
        (d1.originalAttributes.foldl restoreEntry { d1 with
          bodyClasses := removeClass d1.bodyClasses "screen-reader-mode",
          bodyScreenReaderAttr := false }).bodyClasses := rfl
    rw [hb1, (restore_foldl_body d1.originalAttributes _).1]
    show removeClass d1.bodyClasses "screen-reader-mode" = d0.bodyClasses
    rw [hI.body.1]
    exact removeClass_addClass d0.bodyClasses "screen-reader-mode"
      hF.bodyUntagged
  · have hb1 : (disableScreenReaderMode d1).bodyScreenReaderAttr =
        (d1.originalAttributes.foldl restoreEntry { d1 with
          bodyClasses := removeClass d1.bodyClasses "screen-reader-mode",
          bodyScreenReaderAttr := false }).bodyScreenReaderAttr := rfl
    rw [hb1, (restore_foldl_body d1.originalAttributes _).2]

/-- C1 counterexample: on a fixture with a `<section>` containing an `<h2>`
without an id, `enableScreenReaderMode` followed by `disableScreenReaderMode`
is not the identity — the heading keeps the generated id
`section-heading-0` (written directly, bypassing the snapshot), and the
announcer container created by the final announcement persists. -/
theorem enable_disable_not_exact_inverse :
    docGetAttr (disableScreenReaderMode (enableScreenReaderMode
      defaultScreenReaderConfig sectionFixture)) 2 "id" =
        some "section-heading-0" ∧
    docGetAttr sectionFixture 2 "id" = none ∧
    (disableScreenReaderMode (enableScreenReaderMode defaultScreenReaderConfig
      sectionFixture)).announcerPresent = true ∧
    sectionFixture.announcerPresent = false := by
  refine ⟨by decide, rfl, by decide, rfl⟩

/-- C1 (amended): for a well-formed fresh fixture, enable followed by disable
restores every non-id attribute of every element to its pre-call value,
restores the body class list and mode attribute, preserves the host element
set (shapes), clears the created-element registry and the snapshot — but it is
not an exact inverse: an element id may survive as a generated value exactly
where the original id was blank on a legend, heading, or skip-target
candidate (and never the reserved focus-style id), and the announcer container
created by the final announcement persists. -/
theorem enable_disable_restoration (config : ScreenReaderConfig) (d : SRDoc)
    (hF : FreshDoc d) :
    (∀ i a, a ≠ "id" → docGetAttr (disableScreenReaderMode
      (enableScreenReaderMode config d)) i a = docGetAttr d i a) ∧
    (∀ i, docGetAttr (disableScreenReaderMode (enableScreenReaderMode config d))
        i "id" = docGetAttr d i "id" ∨
      ((docGetAttr d i "id" = none ∨ docGetAttr d i "id" = some "") ∧
        exemptIdB d i = true ∧
        docGetAttr (disableScreenReaderMode (enableScreenReaderMode config d))
          i "id" ≠ some "screen-reader-focus-styles")) ∧
    (disableScreenReaderMode (enableScreenReaderMode config d)).elems.map
        shape = d.elems.map shape ∧
    (disableScreenReaderMode (enableScreenReaderMode config d)).bodyClasses =
      d.bodyClasses ∧
    (disableScreenReaderMode
      (enableScreenReaderMode config d)).bodyScreenReaderAttr = false ∧
    (disableScreenReaderMode
      (enableScreenReaderMode config d)).createdElements = [] ∧
    (disableScreenReaderMode
      (enableScreenReaderMode config d)).originalAttributes = [] ∧
    (disableScreenReaderMode
      (enableScreenReaderMode config d)).announcerPresent = true :=
  disable_restores d (enableScreenReaderMode config d) hF
    (enable_EngInv config d hF)

/-- Witness for C1 at the section fixture: a non-id attribute round-trips. -/
theorem enable_disable_restoration_witness :
    docGetAttr (disableScreenReaderMode (enableScreenReaderMode
      defaultScreenReaderConfig sectionFixture)) 2 "alt" =
      docGetAttr sectionFixture 2 "alt" :=
  (enable_disable_restoration defaultScreenReaderConfig sectionFixture
    ⟨rfl, rfl, rfl, rfl, rfl, by decide, by decide⟩).1 2 "alt" (by decide)

end ScreenReader
